import Mathlib

/-!
# Robotstone (Xenomai / Raspberry Pi): task engine, handshake and experiment control

A shallow embedding of `RobotTask.cpp` (the synthetic task superloop `TaskCode`, the
configuration methods and the reported times), of `Robotstone.cpp` (the two-step
management handshake and the worst case record), of `RobotMaster.cpp` and
`RobotSlave.cpp` (the baselines, the management loops and the updaters of the
experiments), of `list.hpp` (the list and its iteration) and of `communic.cpp` (the
topics, the topic table and the requests).

Machine integers are natural numbers reduced modulo `2^w` at every operation that
can wrap: `RealTime::timeCount_t` is Xenomai's `RTIME` (unsigned, 64 bit), the
deadline counters and `numberOfExecs` are `uint32_t`, `size_t` has 32 bits.  The local
`ceilingPeriod` of `TaskCode` is a C++ `float`; every value it takes is a non-negative
integer, so binary32 values are embedded as the natural numbers they denote and each
conversion or arithmetic result is rounded to nearest, ties to even.  The `double`
values of the management code are embedded in units of `2^-1074`.  Undefined
behaviour (division by zero, a floating point value too large for the integer it is
assigned to, a read through `NULL`) is the result `none`.
-/

namespace Robotstone

/-! ## Machine arithmetic -/

/-- Number of values of `RealTime::timeCount_t` (`RTIME`, unsigned 64 bit). -/
def timeCountMod : Nat := 2 ^ 64

/-- Number of values of `uint32_t`. -/
def uint32Mod : Nat := 2 ^ 32

/-- Wrapping addition of unsigned `w`-valued integers (`w` is the modulus). -/
def wrapAdd (w x y : Nat) : Nat := (x + y) % w

/-- Wrapping subtraction of unsigned `w`-valued integers (`w` is the modulus). -/
def wrapSub (w x y : Nat) : Nat := (x + (w - y % w)) % w

/-- The constant `timerMAX_DELAY` of `timer.hpp`, `0x7FFFFFFFFFFFFFFF`. -/
def timerMAX_DELAY : Nat := 0x7FFFFFFFFFFFFFFF

/-! ## Single precision rounding of non-negative integers -/

/-- Number of halvings that bring `n` below `2^24`: the exponent of the unit in the
last place of the binary32 value nearest to `n`. -/
def f32Shift : Nat → Nat → Nat
  | 0, _ => 0
  | fuel + 1, n => if n < 2 ^ 24 then 0 else f32Shift fuel (n / 2) + 1

/-- The binary32 value nearest to the integer `n`, ties to even (24 bit significand).
Integers below `2^24` are exact.  Meant for `n` below `2^128`, where binary32 is
finite; every such value of `2^64` or more is already outside the integer types it
is converted to here. -/
def f32Round (n : Nat) : Nat :=
  let e := f32Shift 128 n
  let q := n / 2 ^ e
  let r := n % 2 ^ e
  if 2 * r < 2 ^ e then q * 2 ^ e
  else if 2 ^ e < 2 * r then (q + 1) * 2 ^ e
  else if q % 2 = 0 then q * 2 ^ e
  else (q + 1) * 2 ^ e

/-- Conversion of an integer-valued `float` to an unsigned integer with modulus `w`;
undefined when the value does not fit. -/
def floatToUInt (w v : Nat) : Option Nat := if v < w then some v else none

/-! ## `RobotTask.cpp` -/

/-- The macro `CEILING(x,y)`: `((x == 0)? 1 : (1 + ((x - 1) / y)))` on `timeCount_t`
operands; dividing by zero is undefined. -/
def CEILING (x y : Nat) : Option Nat :=
  if x = 0 then some 1
  else if y = 0 then none
  else some (wrapAdd timeCountMod 1 (wrapSub timeCountMod x 1 / y))

/-- A handle of `class Publisher` (`communic.hpp`): the identifier, the topic and the
message size given to its constructor. -/
structure Publisher where
  id : Nat
  topic : Nat
  messageSize : Nat
deriving DecidableEq

/-- A handle of `class Subscriber` (`communic.hpp`): the identifier, the topic and the
message size given to its constructor. -/
structure Subscriber where
  id : Nat
  topic : Nat
  messageSize : Nat
deriving DecidableEq

/-- The measurement fields of `class RobotTask` (`RobotTask.hpp`) together with the
configuration fields.  `frequency` and `periodSec` are `double` values (in units of
`2^-1074`, see `f64Unit`), `pub` and `sub` are the handles the task holds (`none` is
`NULL`) and `starts` counts the calls of `Start`, which is `task->Start()`. -/
structure RobotTask where
  period : Nat
  responseTime : Nat
  avgResponseJitter : Nat
  wcrt : Nat
  bcrt : Nat
  deadlineMiss : Nat
  deadlineMet : Nat
  deadlineSkip : Nat
  workload : Nat
  messageSize : Nat
  priority : Nat
  id : Nat
  frequency : Nat := 0
  periodSec : Nat := 0
  pub : Option Publisher := none
  sub : Option Subscriber := none
  starts : Nat := 0
deriving DecidableEq

/-- The local variables of `TaskCode` that live across iterations of the superloop. -/
structure TaskLocals where
  activationTime : Nat
  beforeResponseTime : Nat
  numberOfExecs : Nat
  taskPeriod : Nat
deriving DecidableEq

/-- Lines 531-538 of `TaskCode`: the response time of a job from its activation and
completion instants. -/
def actualResponseTime (activationTime completeTime : Nat) : Nat :=
  if completeTime ≥ activationTime then
    wrapSub timeCountMod completeTime activationTime
  else
    wrapAdd timeCountMod (wrapSub timeCountMod timerMAX_DELAY completeTime) activationTime

/-- Lines 542-552 of `TaskCode`: accumulation of the response jitter. -/
def jitterUpdate (avgResponseJitter numberOfExecs actual before : Nat) : Nat :=
  if numberOfExecs ≠ 1 then
    if actual > before then
      wrapSub timeCountMod (wrapAdd timeCountMod avgResponseJitter actual) before
    else
      wrapSub timeCountMod (wrapAdd timeCountMod avgResponseJitter before) actual
  else avgResponseJitter

/-- Line 569 of `TaskCode`: `activationTime + ceilingPeriod * taskPeriod`, evaluated in
`float` because `ceilingPeriod` is a `float` (both `timeCount_t` operands are
converted, the product and the sum are each rounded), and assigned back to a
`timeCount_t`.  With `ceilingPeriod = 1` the product is exact, so a fused
multiply-add gives the same value. -/
def nextActivation (activationTime ceilingPeriod taskPeriod : Nat) : Option Nat :=
  floatToUInt timeCountMod
    (f32Round (f32Round activationTime + f32Round (ceilingPeriod * f32Round taskPeriod)))

/-- Line 579 of `TaskCode`: `deadlineSkip += ceilingPeriod`, a `uint32_t` plus a
`float`. -/
def skipUpdate (deadlineSkip ceilingPeriod : Nat) : Option Nat :=
  floatToUInt uint32Mod (f32Round (f32Round deadlineSkip + ceilingPeriod))

/-- Lines 525-582 of `TaskCode`: the part of one iteration that follows the stop
test, for a job whose completion instant read from the timer is `completeTime`.
`l.numberOfExecs` is the value after the increment of line 501. -/
def jobMeasure (t : RobotTask) (l : TaskLocals) (completeTime : Nat) :
    Option (RobotTask × TaskLocals) :=
  let actual := actualResponseTime l.activationTime completeTime
  let responseTime := wrapAdd timeCountMod t.responseTime actual
  let jitter := jitterUpdate t.avgResponseJitter l.numberOfExecs actual l.beforeResponseTime
  let wcrt := if actual > t.wcrt then actual else t.wcrt
  let bcrt := if actual < t.bcrt then actual else t.bcrt
  match CEILING actual l.taskPeriod with
  | none => none
  | some k =>
    let ceilingPeriod := f32Round k
    match nextActivation l.activationTime ceilingPeriod l.taskPeriod with
    | none => none
    | some activation =>
      let l' : TaskLocals :=
        { l with activationTime := activation, beforeResponseTime := actual }
      let t1 : RobotTask :=
        { t with responseTime := responseTime, avgResponseJitter := jitter,
                 wcrt := wcrt, bcrt := bcrt }
      if ceilingPeriod = 1 then
        some ({ t1 with deadlineMet := wrapAdd uint32Mod t.deadlineMet 1 }, l')
      else
        match skipUpdate t.deadlineSkip ceilingPeriod with
        | none => none
        | some skip =>
          some ({ t1 with deadlineMiss := wrapAdd uint32Mod t.deadlineMiss 1,
                          deadlineSkip := skip }, l')

/-- Lines 518-523 of `TaskCode`: the stop flag was observed; both sums are divided by
`numberOfExecs-1` (a `uint32_t` difference) and the loop is left. -/
def finalize (t : RobotTask) (numberOfExecs : Nat) : Option RobotTask :=
  let d := wrapSub uint32Mod numberOfExecs 1
  if d = 0 then none
  else some { t with responseTime := t.responseTime / d,
                     avgResponseJitter := t.avgResponseJitter / d }

/-- Line 501 of `TaskCode`: `numberOfExecs++`. -/
def startJob (l : TaskLocals) : TaskLocals :=
  { l with numberOfExecs := wrapAdd uint32Mod l.numberOfExecs 1 }

/-- The superloop of `TaskCode` (lines 499-583).  The environment is the list of
completion instants read by the jobs that found the stop flag clear; the job after
them finds it set.  The result is the task and the final `numberOfExecs`. -/
def superloop (t : RobotTask) (l : TaskLocals) : List Nat → Option (RobotTask × Nat)
  | [] => (finalize t (startJob l).numberOfExecs).map fun t' => (t', (startJob l).numberOfExecs)
  | c :: cs =>
    match jobMeasure t (startJob l) c with
    | none => none
    | some (t', l') => superloop t' l' cs

/-- The locals of `TaskCode` on entry to the superloop (lines 486-496); `initTime` is
the value read from the shared `*initTime`. -/
def entryLocals (t : RobotTask) (initTime : Nat) : TaskLocals :=
  { activationTime := initTime, beforeResponseTime := 0, numberOfExecs := 0,
    taskPeriod := t.period }

/-- The function `TaskCode` from the start signal to the exit of the superloop. -/
def TaskCode (t : RobotTask) (initTime : Nat) (completions : List Nat) :
    Option (RobotTask × Nat) :=
  superloop t (entryLocals t initTime) completions

/-- What one completed job contributed: its response time, its period multiplier
(the integer value of `CEILING`) and the activation instant passed to `DelayUntil`. -/
structure JobRecord where
  response : Nat
  multiplier : Nat
  activation : Nat
deriving DecidableEq

/-- The per-job records of the completed jobs of a run of the superloop. -/
def jobRecords (t : RobotTask) (l : TaskLocals) : List Nat → List JobRecord
  | [] => []
  | c :: cs =>
    match jobMeasure t (startJob l) c with
    | none => []
    | some (t', l') =>
      { response := actualResponseTime l.activationTime c,
        multiplier := (CEILING (actualResponseTime l.activationTime c) l.taskPeriod).getD 0,
        activation := l'.activationTime } :: jobRecords t' l' cs

/-- The constructor `RobotTask::RobotTask` (lines 53-76) restricted to the embedded
fields; `ticksPerSecond` is `RealTime::Timer::GetPeriod()`. -/
def RobotTask.new (id priority ticksPerSecond : Nat) : RobotTask :=
  { period := 0, responseTime := 0, avgResponseJitter := 0, wcrt := 0,
    bcrt := (ticksPerSecond * 100) % timeCountMod,
    deadlineMiss := 0, deadlineMet := 0, deadlineSkip := 0,
    workload := 0, messageSize := 0, priority := priority % 2 ^ 16, id := id % 2 ^ 8 }

/-- The method `RobotTask::ClearMeasurements` (lines 461-471). -/
def RobotTask.ClearMeasurements (t : RobotTask) (ticksPerSecond : Nat) : RobotTask :=
  { t with deadlineMet := 0, deadlineMiss := 0, deadlineSkip := 0, responseTime := 0,
           avgResponseJitter := 0, wcrt := 0,
           bcrt := (ticksPerSecond * 100) % timeCountMod }

/-- The responses of the completed jobs of a run. -/
def responsesOf (recs : List JobRecord) : List Nat := recs.map JobRecord.response

/-- The multipliers of the jobs of a run that were counted as missed. -/
def missedMultipliers (recs : List JobRecord) : List Nat :=
  (recs.filter fun r => decide (r.multiplier ≠ 1)).map JobRecord.multiplier

/-- Sum of the absolute differences between each response and the one before it,
starting from `prev`. -/
def jitterSumFrom (prev : Nat) : List Nat → Nat
  | [] => 0
  | r :: rs => (if r > prev then r - prev else prev - r) + jitterSumFrom r rs

/-- Sum of `|r_i - r_(i-1)|` over the responses from the second one on. -/
def jitterSum : List Nat → Nat
  | [] => 0
  | r :: rs => jitterSumFrom r rs

/-- The jitter total the superloop is about to accumulate from the locals `l`: the
first job of a step has no predecessor. -/
def pendingJitter (l : TaskLocals) (rs : List Nat) : Nat :=
  if l.numberOfExecs = 0 then jitterSum rs else jitterSumFrom l.beforeResponseTime rs

/-! ### Sample runs -/

/-- A task of period 10 ticks on a 1000 ticks per second timer, as constructed. -/
def sampleTask : RobotTask := { RobotTask.new 1 2 1000 with period := 10 }

/-- Completion instants of four jobs of `sampleTask` released from instant 0: the
responses are 15, 3, 1 and 35 ticks. -/
def sampleCompletions : List Nat := [15, 23, 31, 75]

/-- The task `sampleTask` after the run over `sampleCompletions`. -/
def sampleFinal : RobotTask :=
  { sampleTask with responseTime := 13, avgResponseJitter := 12, wcrt := 35, bcrt := 1,
                    deadlineMet := 2, deadlineMiss := 2, deadlineSkip := 6 }

/-- A 30 Hz task on a nanosecond timer: `SetFrequency(30)` gives 33333333 ticks. -/
def driftTask : RobotTask := { RobotTask.new 2 5 1000000000 with period := 33333333 }

/-! ## `Robotstone.cpp`: the management handshake -/

/-- A procedure of a management task, as the tree of its interactions with the
pub/sub fabric, the console and the process: `ret` is the return of the method,
`halt code` is `exit(code)`, `print` is `Stdout::Print`, `delay` is
`RealTime::Task::Delay`, `send` is `pubMan->Send` and `receive` is `subMan->Receive`,
which blocks until a message is delivered. -/
inductive Proc (ρ : Type) where
  | ret (r : ρ) : Proc ρ
  | halt (code : Nat) : Proc ρ
  | print (text : String) (k : Proc ρ) : Proc ρ
  | delay (ticks : Nat) (k : Proc ρ) : Proc ρ
  | send (msg : Nat) (k : Proc ρ) : Proc ρ
  | receive (k : Nat → Proc ρ) : Proc ρ

/-- The constant `Robotstone::handshakeMsgStep1`. -/
def handshakeMsgStep1 : Nat := 666

/-- The constant `Robotstone::handshakeMsgStep2`. -/
def handshakeMsgStep2 : Nat := 667

/-- The method `Robotstone::HandshakeSend` (lines 81-113); `period` is
`Timer::GetPeriod()` and `message` the 16 bit value pointed to by the argument. -/
def HandshakeSend (period message : Nat) : Proc Unit :=
  .delay (period / 5) <|
  .send handshakeMsgStep1 <|
  .receive fun resMsg =>
    if resMsg ≠ handshakeMsgStep1 then
      .print "Handshake Send Error: invalid response message in step 1.\n" (.halt 1)
    else
      .delay (period / 5) <|
      .send message <|
      .receive fun resMsg =>
        if resMsg ≠ handshakeMsgStep2 then
          .print "Handshake Send Error: invalid response message in step 2.\n" (.halt 1)
        else
          .delay period (.ret ())

/-- The method `Robotstone::HandshakeReceive` (lines 123-150); the result is the value
stored through the argument pointer. -/
def HandshakeReceive (period : Nat) : Proc Nat :=
  .receive fun resMsg =>
    if resMsg ≠ handshakeMsgStep1 then
      .print "Handshake Receive Error: invalid response message in step 1.\n" (.halt 1)
    else
      .delay (period / 5) <|
      .send resMsg <|
      .receive fun message =>
        .delay (period / 5) <|
        .send handshakeMsgStep2 <|
        .ret message

/-- How a procedure run against a given sequence of deliveries ends. -/
inductive Outcome (ρ : Type) where
  | returned (r : ρ) : Outcome ρ
  | exited (code : Nat) : Outcome ρ
  | blocked : Outcome ρ
deriving DecidableEq

/-- What a procedure did when run against a given sequence of deliveries: the values
it published, the lines it printed, and how it ended. -/
structure RunResult (ρ : Type) where
  published : List Nat
  printed : List String
  outcome : Outcome ρ
deriving DecidableEq

/-- Run a procedure alone; `inbox` lists the values its subscriber delivers, in order. -/
def Proc.run {ρ : Type} : Proc ρ → List Nat → RunResult ρ
  | .ret r, _ => { published := [], printed := [], outcome := .returned r }
  | .halt code, _ => { published := [], printed := [], outcome := .exited code }
  | .print text k, inbox =>
    let r := k.run inbox
    { r with printed := text :: r.printed }
  | .delay _ k, inbox => k.run inbox
  | .send msg k, inbox =>
    let r := k.run inbox
    { r with published := msg :: r.published }
  | .receive _, [] => { published := [], printed := [], outcome := .blocked }
  | .receive k, v :: rest => (k v).run rest

/-- One atomic action of a procedure whose subscriber queue holds `inbox`: the
continuation, the remaining queue and the values published.  A procedure that has
returned or exited, or that waits on an empty queue, has no action. -/
def Proc.step {ρ : Type} : Proc ρ → List Nat → Option (Proc ρ × List Nat × List Nat)
  | .ret _, _ => none
  | .halt _, _ => none
  | .print _ k, inbox => some (k, inbox, [])
  | .delay _ k, inbox => some (k, inbox, [])
  | .send msg k, inbox => some (k, inbox, [msg])
  | .receive _, [] => none
  | .receive k, v :: rest => some (k v, rest, [])

/-- Whether the procedure has reached `exit`. -/
def Proc.halted {ρ : Type} : Proc ρ → Bool
  | .halt _ => true
  | _ => false

/-- Two management tasks joined by the two management topics, each topic delivering
reliably and in order: `toReceiver` holds what the sending peer published and the
receiving peer has not yet taken, `toSender` the opposite direction. -/
structure Link where
  sender : Proc Unit
  receiver : Proc Nat
  toReceiver : List Nat
  toSender : List Nat

/-- The sending peer performs its next action. -/
def Link.stepSender (s : Link) : Option Link :=
  match s.sender.step s.toSender with
  | none => none
  | some (k, inbox, out) =>
    some { s with sender := k, toSender := inbox, toReceiver := s.toReceiver ++ out }

/-- The receiving peer performs its next action. -/
def Link.stepReceiver (s : Link) : Option Link :=
  match s.receiver.step s.toReceiver with
  | none => none
  | some (k, inbox, out) =>
    some { s with receiver := k, toReceiver := inbox, toSender := s.toSender ++ out }

/-- The states that follow `s` by one action of either peer. -/
def Link.succs (s : Link) : List Link :=
  s.stepSender.toList ++ s.stepReceiver.toList

/-- Every element of the list satisfies `P`. -/
def Link.each (P : Link → Prop) : List Link → Prop
  | [] => True
  | s :: rest => P s ∧ Link.each P rest

/-- Every interleaving of the two peers from `s` stops within `fuel` actions, no peer
ever reaches `exit`, and the state in which both peers have stopped satisfies `P`. -/
def Link.allRuns (P : Link → Prop) : Nat → Link → Prop
  | 0, _ => False
  | fuel + 1, s =>
    s.sender.halted = false ∧ s.receiver.halted = false ∧
      (s.succs = [] → P s) ∧ Link.each (Link.allRuns P fuel) s.succs

/-- One peer runs `HandshakeSend(message)` and the other `HandshakeReceive`, both
management topics empty. -/
def handshakeStart (period message : Nat) : Link :=
  { sender := HandshakeSend period message, receiver := HandshakeReceive period,
    toReceiver := [], toSender := [] }

/-- The state `s'` is reached from `s` by finitely many actions of the two peers. -/
inductive Link.Reaches : Link → Link → Prop where
  | refl (s : Link) : Link.Reaches s s
  | step {s s' s'' : Link} : s' ∈ s.succs → Link.Reaches s' s'' → Link.Reaches s s''

/-- Both peers have returned, the receiving one with `out`, and both topics are empty. -/
def handshakeDone (out : Nat) : Link :=
  { sender := .ret (), receiver := .ret out, toReceiver := [], toSender := [] }

/-! ## Double precision arithmetic

The management code computes workloads, periods and message sizes in `double`.  A
finite non-negative binary64 value is embedded as the natural number of units of
`2^-1074` (the smallest positive binary64 value) that it holds, so every operation is
exact integer arithmetic followed by one rounding to nearest, ties to even.  No
operation is contracted into a fused multiply-add. -/

/-- The value one of a `double`, in units of `2^-1074`. -/
def f64Unit : Nat := 2 ^ 1074

/-- Greedy search, over the decreasing step sizes `ks`, of the largest `e` with
`2 ^ (52 + e) ≤ n`, starting from `e`. -/
def f64ShiftAux (n : Nat) : List Nat → Nat → Nat
  | [], e => e
  | k :: ks, e =>
    if 2 ^ (52 + e + k) ≤ n then f64ShiftAux n ks (e + k) else f64ShiftAux n ks e

/-- Exponent of the unit in the last place of the binary64 values around `n` units:
the largest `e` with `2 ^ (52 + e) ≤ n`, and `0` when `n` is below `2 ^ 53`
(subnormal values and the first binade of normal ones). -/
def f64Shift (n : Nat) : Nat :=
  f64ShiftAux n [2048, 1024, 512, 256, 128, 64, 32, 16, 8, 4, 2, 1] 0

/-- The binary64 value nearest to the rational `p / q` (in units of `2^-1074`), ties to
even, 53 bit significand.  Overflow to infinity is not represented: the operands
used here are products and quotients of integers below `2^64`, far from `2^1024`. -/
def f64Round (p q : Nat) : Nat :=
  let e := f64Shift (p / q)
  let d := q * 2 ^ e
  let m := p / d
  let r := p % d
  if 2 * r < d then m * 2 ^ e
  else if d < 2 * r then (m + 1) * 2 ^ e
  else if m % 2 = 0 then m * 2 ^ e
  else (m + 1) * 2 ^ e

/-- Conversion of an unsigned integer to `double`. -/
def f64OfNat (n : Nat) : Nat := f64Round (n * f64Unit) 1

/-- The `double` denoted by the decimal literal of value `num / den`. -/
def f64Lit (num den : Nat) : Nat := f64Round (num * f64Unit) den

/-- Product of two `double` values. -/
def f64Mul (a b : Nat) : Nat := f64Round (a * b) f64Unit

/-- Sum of two `double` values. -/
def f64Add (a b : Nat) : Nat := f64Round (a + b) 1

/-- Quotient of two `double` values; `none` when the divisor is zero and the quotient
is not a finite value. -/
def f64Div (a b : Nat) : Option Nat :=
  if b = 0 then none else some (f64Round (a * f64Unit) b)

/-- Conversion of a `double` to an unsigned integer with modulus `w`: truncation
toward zero, undefined when the integer part does not fit. -/
def f64ToUInt (w a : Nat) : Option Nat := floatToUInt w (a / f64Unit)

/-! ## `Robotstone.hpp`: constants -/

/-- Number of values of `size_t` on the target (32 bit ARM, Raspbian). -/
def sizeMod : Nat := 2 ^ 32

/-- The macro `RAW_SPEED`. -/
def RAW_SPEED : Nat := 413500

/-- The array `uniBaselineFrequency`. -/
def uniBaselineFrequency : List Nat := [63, 30, 14, 10, 6]

/-- The array `distBaselineFrequency`. -/
def distBaselineFrequency : List Nat := [7, 5, 3]

/-- The constant `Robotstone::exp1`. -/
def exp1 : Nat := 1

/-- The constant `Robotstone::exp3`. -/
def exp3 : Nat := 3

/-- The constant `Robotstone::exp7`. -/
def exp7 : Nat := 7

/-- The constant `Robotstone::isFinished`. -/
def isFinished : Nat := 1

/-- The constant `Robotstone::isStarted`. -/
def isStarted : Nat := 0

/-- The constant `Robotstone::isRun`. -/
def isRun : Nat := 2

/-- The constant `Robotstone::deadlineHandshake`. -/
def deadlineHandshake : Nat := 777

/-- The constant `Robotstone::baselineNumberExpUni`. -/
def baselineNumberExpUni : Nat := 5

/-- The constant `Robotstone::baselineNumberExpDist`. -/
def baselineNumberExpDist : Nat := 3

/-- The constant `Robotstone::baselineMessageSizeExpDist`, `sizeof(size_t)`. -/
def baselineMessageSizeExpDist : Nat := 4

/-- The constant `Robotstone::baselinePriorityExpUni`. -/
def baselinePriorityExpUni : Nat := 2

/-- The constant `Robotstone::baselinePriorityExpDist`. -/
def baselinePriorityExpDist : Nat := 2

/-- The constant `Robotstone::testPeriod`. -/
def testPeriod : Nat := 10000000000

/-! ## `RobotTask.cpp`: configuration methods -/

/-- The method `RobotTask::SetKWIPP` (lines 118-121): a `size_t` stored in the
`uint32_t` field `workload`. -/
def RobotTask.SetKWIPP (t : RobotTask) (kwipp : Nat) : RobotTask :=
  { t with workload := kwipp % uint32Mod }

/-- The method `RobotTask::SetFrequency` (lines 105-110); `frequency` is a `double`.
The period is `periodSec * (double)Timer::GetPeriod()` converted to `timeCount_t`. -/
def RobotTask.SetFrequency (t : RobotTask) (frequency ticksPerSecond : Nat) :
    Option RobotTask :=
  match f64Div (f64OfNat 1) frequency with
  | none => none
  | some periodSec =>
    match f64ToUInt timeCountMod (f64Mul periodSec (f64OfNat ticksPerSecond)) with
    | none => none
    | some period =>
      some { t with periodSec := periodSec, period := period, frequency := frequency }

/-- The method `RobotTask::Start` (lines 199-202), `task->Start()`. -/
def RobotTask.Start (t : RobotTask) : RobotTask := { t with starts := t.starts + 1 }

/-- The value returned by `Communic::PublishingRequest(topic, msgSize)`
(`communic.cpp`, lines 782-862): `NULL` on every failure path, otherwise the handle
built by `Publisher(GetValidPubID(topicHandler), topic, msgSize, topicHandler)`.
`fresh` is `none` on the failure paths and the identifier drawn otherwise. -/
def Communic.PublishingRequest (fresh : Option Nat) (topic msgSize : Nat) :
    Option Publisher :=
  fresh.map fun id => { id := id, topic := topic, messageSize := msgSize }

/-- The value returned by `Communic::SubscribingRequest(topic, msgSize)`: `NULL` on
every failure path, otherwise the handle built by
`Subscriber(GetValidSubID(topicHandler), topic, msgSize)`. -/
def Communic.SubscribingRequest (fresh : Option Nat) (topic msgSize : Nat) :
    Option Subscriber :=
  fresh.map fun id => { id := id, topic := topic, messageSize := msgSize }

/-- The method `RobotTask::PublishingRequest` (lines 133-144): the handle returned by
the communication layer is stored in `pub`.  The status it returns is ignored by
every caller. -/
def RobotTask.PublishingRequest (t : RobotTask) (fresh : Option Nat)
    (topic msgSize : Nat) : RobotTask :=
  { t with pub := Communic.PublishingRequest fresh topic msgSize }

/-- The method `RobotTask::SubscribingRequest` (lines 156-167). -/
def RobotTask.SubscribingRequest (t : RobotTask) (fresh : Option Nat)
    (topic msgSize : Nat) : RobotTask :=
  { t with sub := Communic.SubscribingRequest fresh topic msgSize }

/-- The method `RobotTask::LeavePubTopic` (lines 175-179): `Communic::LeaveTopic`
reads through `pub`, which is undefined for `NULL`; the handle is freed and the field
keeps the old pointer until the next request overwrites it. -/
def RobotTask.LeavePubTopic (t : RobotTask) : Option RobotTask :=
  match t.pub with
  | none => none
  | some _ => some t

/-- The method `RobotTask::LeaveSubTopic` (lines 187-191). -/
def RobotTask.LeaveSubTopic (t : RobotTask) : Option RobotTask :=
  match t.sub with
  | none => none
  | some _ => some t

/-- The method `RobotTask::GetPubTopic` (lines 443-446); undefined without a handle. -/
def RobotTask.GetPubTopic (t : RobotTask) : Option Nat := t.pub.map fun p => p.topic

/-- The method `RobotTask::GetSubTopic` (lines 453-456). -/
def RobotTask.GetSubTopic (t : RobotTask) : Option Nat := t.sub.map fun s => s.topic

/-- The method `RobotTask::GetPubMessageSize` (lines 423-426), a `uint32_t`. -/
def RobotTask.GetPubMessageSize (t : RobotTask) : Option Nat :=
  t.pub.map fun p => p.messageSize % uint32Mod

/-- The method `RobotTask::GetSubMessageSize` (lines 433-436), a `uint32_t`. -/
def RobotTask.GetSubMessageSize (t : RobotTask) : Option Nat :=
  t.sub.map fun s => s.messageSize % uint32Mod

/-! ## `list.hpp`: iteration over the task list -/

/-- The loop `for(l.InitIteration(); !l.IsEnd(); ++l) body(l.GetValue())` of
`list.hpp` (lines 433-444 and 490-506) from the element at position `i` on: the
body runs on the element, and `operator++` ends the iteration when that element
compares equal to the tail, which for `RobotTask` is equality of the ids
(`tailId` is the id of the tail).  The body `f` gets the number of elements visited
before, the loop counter of the callers. -/
def forEachAux (tailId : Nat) (f : Nat → RobotTask → Option RobotTask) :
    Nat → List RobotTask → Option (List RobotTask)
  | _, [] => some []
  | i, t :: ts =>
    match f i t with
    | none => none
    | some u =>
      if t.id = tailId then some (u :: ts)
      else (forEachAux tailId f (i + 1) ts).map fun us => u :: us

/-- An iteration over the whole list `rstoneTasks`; nothing runs on an empty list. -/
def forEachTask (f : Nat → RobotTask → Option RobotTask) (tasks : List RobotTask) :
    Option (List RobotTask) :=
  match tasks.getLast? with
  | none => some []
  | some tl => forEachAux tl.id f 0 tasks

/-- The tasks an iteration visits: the list up to the first task whose id is the id
of the tail. -/
def visitedAux (tailId : Nat) : List RobotTask → List RobotTask
  | [] => []
  | t :: ts => if t.id = tailId then [t] else t :: visitedAux tailId ts

/-- The tasks visited by an iteration over the whole list. -/
def visited (tasks : List RobotTask) : List RobotTask :=
  match tasks.getLast? with
  | none => []
  | some tl => visitedAux tl.id tasks

/-- The methods `RobotMaster::CalculateDeadlineMiss` (lines 611-619) and
`RobotSlave::CalculateDeadlineMiss` (lines 415-424): the value left in
`actualDeadlineMiss`, a `size_t` sum. -/
def CalculateDeadlineMiss (tasks : List RobotTask) : Nat :=
  (visited tasks).foldl (fun acc t => wrapAdd sizeMod acc t.deadlineMiss) 0

/-- The methods `RobotMaster::StartTasks` (lines 177-183) and
`RobotSlave::StartTasks` (lines 127-133). -/
def StartTasks (tasks : List RobotTask) : Option (List RobotTask) :=
  forEachTask (fun _ t => some t.Start) tasks

/-! ## `RobotMaster.cpp`, `RobotSlave.cpp`: the task sets

The functions of this section are the parts of the management functions that act on
the task list `rstoneTasks`.  `none` is undefined behaviour (a `double` out of the
range of the integer it is converted to, an array read past its end, a placement
`new` on `NULL`) or `exit(1)`. -/

/-- The local `baselineTaskKWIPS` of the constructors (`RobotMaster.cpp` lines 64 and
71, `RobotSlave.cpp` line 63): `(this->rawSpeed * 0.15) / n` in `double`, assigned to
a `uint64_t`. -/
def baselineTaskKWIPS (rawSpeed n : Nat) : Option Nat :=
  match f64Div (f64Mul (f64OfNat rawSpeed) (f64Lit 15 100)) (f64OfNat n) with
  | none => none
  | some q => f64ToUInt timeCountMod q

/-- The loops of the constructors: `baselineTaskKWIPS / frequency[i]`, a `uint64_t`
quotient stored in a `size_t`. -/
def baselineWorkload (rawSpeed n : Nat) (frequency : List Nat) : Option (List Nat) :=
  (baselineTaskKWIPS rawSpeed n).map fun k => frequency.map fun f => (k / f) % sizeMod

/-- The array `uniBaselineWorkload` as the constructor `RobotMaster::RobotMaster`
(lines 64-69) fills it. -/
def uniBaselineWorkload (rawSpeed : Nat) : Option (List Nat) :=
  baselineWorkload rawSpeed 5 uniBaselineFrequency

/-- The array `distBaselineWorkload` as the constructors `RobotMaster::RobotMaster`
(lines 71-75) and `RobotSlave::RobotSlave` (lines 63-68) fill it. -/
def distBaselineWorkload (rawSpeed : Nat) : Option (List Nat) :=
  baselineWorkload rawSpeed 3 distBaselineFrequency

/-- The argument of `SetKWIPP` in `UpdateExp1` and `UpdateExp4`:
`baseline * (1 + ((double)test)*0.1)`, a `double` converted to `size_t`. -/
def scaledWorkload (baseline test : Nat) : Option Nat :=
  f64ToUInt sizeMod
    (f64Mul (f64OfNat baseline) (f64Add (f64OfNat 1) (f64Mul (f64OfNat test) (f64Lit 1 10))))

/-- The macro `rstoneEXP5_UPDATE_VALUE(test)`, `pow(2,test+1)`, converted to the
`size_t` parameter `msgSize`.  `test+1` is a `size_t`; `pow` of the C library returns
the power of two exactly. -/
def rstoneEXP5_UPDATE_VALUE (test : Nat) : Option Nat :=
  floatToUInt sizeMod (2 ^ ((test + 1) % sizeMod))

/-- The body of the loop of `RobotMaster::SetExperimentUniBaseline` (lines 334-356)
for index `i`; `heap i` tells whether `Heap::Alloc` returned memory for the task. -/
def RobotMaster.uniBaselineTask (workload : List Nat) (ticksPerSecond : Nat)
    (heap : Nat → Bool) (i : Nat) : Option RobotTask :=
  if heap i = false then none
  else
    match workload.get? i, uniBaselineFrequency.get? i with
    | some w, some f =>
      ((RobotTask.new (i + 1) (baselinePriorityExpUni + (baselineNumberExpUni - (i + 1)))
          ticksPerSecond).SetKWIPP w).SetFrequency (f64OfNat f) ticksPerSecond
    | _, _ => none

/-- Appends to `tasks`, in order, the tasks `mk i` for the indices `i` of `is`
(`InsertTail`), unless one of them is undefined. -/
def insertAll (mk : Nat → Option RobotTask) : List Nat → List RobotTask →
    Option (List RobotTask)
  | [], tasks => some tasks
  | i :: is, tasks =>
    match mk i with
    | none => none
    | some t => insertAll mk is (tasks ++ [t])

/-- The method `RobotMaster::SetExperimentUniBaseline` (lines 334-356). -/
def RobotMaster.SetExperimentUniBaseline (workload : List Nat) (ticksPerSecond : Nat)
    (heap : Nat → Bool) (tasks : List RobotTask) : Option (List RobotTask) :=
  insertAll (RobotMaster.uniBaselineTask workload ticksPerSecond heap)
    (List.range baselineNumberExpUni) tasks

/-- The body of the loop of `RobotMaster::SetExperimentDistBaseline` (lines 362-393)
for index `i`; `heap i` tells whether both allocations returned memory (`exit(1)`
without the task name), `fresh i` is the outcome of the publishing request. -/
def RobotMaster.distBaselineTask (workload : List Nat) (ticksPerSecond : Nat)
    (heap : Nat → Bool) (fresh : Nat → Option Nat) (i : Nat) : Option RobotTask :=
  if heap i = false then none
  else
    match workload.get? i, distBaselineFrequency.get? i with
    | some w, some f =>
      (((RobotTask.new (i + 1) (baselinePriorityExpDist + (baselineNumberExpDist - (i + 1)))
          ticksPerSecond).SetKWIPP w).SetFrequency (f64OfNat f) ticksPerSecond).map
        fun t => t.PublishingRequest (fresh i) (i + 2) baselineMessageSizeExpDist
    | _, _ => none

/-- The method `RobotMaster::SetExperimentDistBaseline` (lines 362-393). -/
def RobotMaster.SetExperimentDistBaseline (workload : List Nat) (ticksPerSecond : Nat)
    (heap : Nat → Bool) (fresh : Nat → Option Nat) (tasks : List RobotTask) :
    Option (List RobotTask) :=
  insertAll (RobotMaster.distBaselineTask workload ticksPerSecond heap fresh)
    (List.range baselineNumberExpDist) tasks

/-- The task part of `RobotMaster::InitExperiment` (lines 109-121). -/
def RobotMaster.InitExperimentTasks (actualExp : Nat) (uniWorkload distWorkload : List Nat)
    (ticksPerSecond : Nat) (heap : Nat → Bool) (fresh : Nat → Option Nat)
    (tasks : List RobotTask) : Option (List RobotTask) :=
  match
    (if actualExp > exp3 then
      RobotMaster.SetExperimentDistBaseline distWorkload ticksPerSecond heap fresh tasks
    else
      RobotMaster.SetExperimentUniBaseline uniWorkload ticksPerSecond heap tasks) with
  | none => none
  | some ts => StartTasks ts

/-- The body of the loop of `RobotSlave::SetExperimentBaseline` (lines 225-253) for
index `i`; without memory the function prints and calls `exit(1)`. -/
def RobotSlave.baselineTask (workload : List Nat) (ticksPerSecond : Nat)
    (heap : Nat → Bool) (fresh : Nat → Option Nat) (i : Nat) : Option RobotTask :=
  if heap i = false then none
  else
    match workload.get? i, distBaselineFrequency.get? i with
    | some w, some f =>
      (((RobotTask.new (i + 1) (baselinePriorityExpDist + (baselineNumberExpDist - (i + 1)))
          ticksPerSecond).SetKWIPP w).SetFrequency (f64OfNat f) ticksPerSecond).map
        fun t => t.SubscribingRequest (fresh i) (i + 2) baselineMessageSizeExpDist
    | _, _ => none

/-- The method `RobotSlave::SetExperimentBaseline` (lines 225-253). -/
def RobotSlave.SetExperimentBaseline (workload : List Nat) (ticksPerSecond : Nat)
    (heap : Nat → Bool) (fresh : Nat → Option Nat) (tasks : List RobotTask) :
    Option (List RobotTask) :=
  insertAll (RobotSlave.baselineTask workload ticksPerSecond heap fresh)
    (List.range baselineNumberExpDist) tasks

/-- The loop of `UpdateExp1` and `UpdateExp4`: the `i`-th task visited gets the
workload `baseline[i] * (1 + ((double)test)*0.1)`, clears its measurements and is
started. -/
def updateWorkloads (baseline : List Nat) (ticksPerSecond test : Nat)
    (tasks : List RobotTask) : Option (List RobotTask) :=
  forEachTask
    (fun i t =>
      match baseline.get? i with
      | none => none
      | some b =>
        (scaledWorkload b test).map fun kwipp =>
          ((t.SetKWIPP kwipp).ClearMeasurements ticksPerSecond).Start)
    tasks

/-- The method `RobotMaster::UpdateExp1` (lines 436-448), on `uniBaselineWorkload`. -/
def RobotMaster.UpdateExp1Tasks (uniWorkload : List Nat) (ticksPerSecond test : Nat)
    (tasks : List RobotTask) : Option (List RobotTask) :=
  updateWorkloads uniWorkload ticksPerSecond test tasks

/-- The loop of `RobotMaster::UpdateExp4` (lines 515-522), on `distBaselineWorkload`;
it follows the handshakes of the function. -/
def RobotMaster.UpdateExp4Tasks (distWorkload : List Nat) (ticksPerSecond test : Nat)
    (tasks : List RobotTask) : Option (List RobotTask) :=
  updateWorkloads distWorkload ticksPerSecond test tasks

/-- The loop of `RobotSlave::UpdateExp4` (lines 294-300), on `distBaselineWorkload`;
it follows the handshakes of the function. -/
def RobotSlave.UpdateExp4Tasks (distWorkload : List Nat) (ticksPerSecond test : Nat)
    (tasks : List RobotTask) : Option (List RobotTask) :=
  updateWorkloads distWorkload ticksPerSecond test tasks

/-- The loops of `UpdateExp3` and `UpdateExp7`: every task visited clears its
measurements and is started. -/
def restartTasks (ticksPerSecond : Nat) (tasks : List RobotTask) :
    Option (List RobotTask) :=
  forEachTask (fun _ t => some (t.ClearMeasurements ticksPerSecond).Start) tasks

/-- The method `RobotMaster::UpdateExp3` (lines 476-499).  `i` is the value of the
function's `static int i` on entry, the second component of the result its value on
return; `alloc` tells whether `Heap::Alloc` returned memory (the result is not
tested before the placement `new`). -/
def RobotMaster.UpdateExp3Tasks (uniWorkload : List Nat) (ticksPerSecond : Nat)
    (alloc : Bool) (i : Nat) (tasks : List RobotTask) : Option (List RobotTask × Nat) :=
  if alloc = false then none
  else
    match uniWorkload.get? 2, uniBaselineFrequency.get? 2 with
    | some w, some f =>
      match ((RobotTask.new (5 + i) (baselinePriorityExpUni + 2) ticksPerSecond).SetKWIPP
              w).SetFrequency (f64OfNat f) ticksPerSecond with
      | none => none
      | some t => (restartTasks ticksPerSecond (tasks ++ [t])).map fun ts => (ts, i + 1)
    | _, _ => none

/-- The fields of a task that `TaskCode` writes while the task runs (`RobotTask.cpp`,
lines 518-582): the values a test step leaves in them. -/
structure Measurements where
  responseTime : Nat
  avgResponseJitter : Nat
  wcrt : Nat
  bcrt : Nat
  deadlineMiss : Nat
  deadlineMet : Nat
  deadlineSkip : Nat
deriving DecidableEq

/-- The task `t` after a test step that has left the measurements `m` in it. -/
def RobotTask.measured (t : RobotTask) (m : Measurements) : RobotTask :=
  { t with responseTime := m.responseTime, avgResponseJitter := m.avgResponseJitter,
           wcrt := m.wcrt, bcrt := m.bcrt, deadlineMiss := m.deadlineMiss,
           deadlineMet := m.deadlineMet, deadlineSkip := m.deadlineSkip }

/-- The calls of `RobotMaster::UpdateExp3` made by the loop of `StartUniExperiment` (line
250), the allocations succeeding: `j` times, the tasks run a test step, which leaves
the measurements `ran k id` in the task `id` when the static counter of `UpdateExp3` is
`k`, and `UpdateExp3` is called. -/
def RobotMaster.UpdateExp3Calls (uniWorkload : List Nat) (ticksPerSecond : Nat)
    (ran : Nat → Nat → Measurements) :
    Nat → Nat → List RobotTask → Option (List RobotTask × Nat)
  | 0, i, tasks => some (tasks, i)
  | j + 1, i, tasks =>
    match RobotMaster.UpdateExp3Calls uniWorkload ticksPerSecond ran j i tasks with
    | none => none
    | some (ts, k) =>
      RobotMaster.UpdateExp3Tasks uniWorkload ticksPerSecond true k
        (ts.map fun t => t.measured (ran k t.id))

/-- The first loop of `RobotMaster::UpdateExp5` (lines 535-539). -/
def RobotMaster.UpdateExp5Leave (ticksPerSecond : Nat) (tasks : List RobotTask) :
    Option (List RobotTask) :=
  forEachTask (fun _ t => t.LeavePubTopic.map fun u => u.ClearMeasurements ticksPerSecond)
    tasks

/-- The second loop of `RobotMaster::UpdateExp5` (lines 544-550): `topic_i` starts at
`2` and is incremented per task; `fresh i` is the outcome of the request of the
`i`-th task visited. -/
def RobotMaster.UpdateExp5Rejoin (fresh : Nat → Option Nat) (test : Nat)
    (tasks : List RobotTask) : Option (List RobotTask) :=
  forEachTask
    (fun i t =>
      (rstoneEXP5_UPDATE_VALUE test).map fun msgSize =>
        (t.PublishingRequest (fresh i) ((2 + i) % sizeMod) msgSize).Start)
    tasks

/-- The task part of `RobotMaster::UpdateExp5` (lines 530-551): the two loops, which
the handshakes of the function separate. -/
def RobotMaster.UpdateExp5Tasks (ticksPerSecond : Nat) (fresh : Nat → Option Nat)
    (test : Nat) (tasks : List RobotTask) : Option (List RobotTask) :=
  match RobotMaster.UpdateExp5Leave ticksPerSecond tasks with
  | none => none
  | some ts => RobotMaster.UpdateExp5Rejoin fresh test ts

/-- The first loop of `RobotSlave::UpdateExp5` (lines 314-319). -/
def RobotSlave.UpdateExp5Leave (ticksPerSecond : Nat) (tasks : List RobotTask) :
    Option (List RobotTask) :=
  forEachTask (fun _ t => t.LeaveSubTopic.map fun u => u.ClearMeasurements ticksPerSecond)
    tasks

/-- The second loop of `RobotSlave::UpdateExp5` (lines 325-331). -/
def RobotSlave.UpdateExp5Rejoin (fresh : Nat → Option Nat) (test : Nat)
    (tasks : List RobotTask) : Option (List RobotTask) :=
  forEachTask
    (fun i t =>
      (rstoneEXP5_UPDATE_VALUE test).map fun msgSize =>
        (t.SubscribingRequest (fresh i) ((2 + i) % sizeMod) msgSize).Start)
    tasks

/-- The task part of `RobotSlave::UpdateExp5` (lines 309-332). -/
def RobotSlave.UpdateExp5Tasks (ticksPerSecond : Nat) (fresh : Nat → Option Nat)
    (test : Nat) (tasks : List RobotTask) : Option (List RobotTask) :=
  match RobotSlave.UpdateExp5Leave ticksPerSecond tasks with
  | none => none
  | some ts => RobotSlave.UpdateExp5Rejoin fresh test ts

/-- What `RobotSlave::UpdateExp7` leaves behind: the task list, the static `taskId`,
the flag `experimentReachLimit` and the message `resMsg` it sends to the Master. -/
structure Exp7Result where
  tasks : List RobotTask
  taskId : Nat
  experimentReachLimit : Nat
  resMsg : Nat
deriving DecidableEq

/-- The method `RobotSlave::UpdateExp7` (lines 364-409) without its handshakes.
`alloc` tells whether `Heap::Alloc` returned memory, `taskId` is the function's
`static size_t taskId` on entry, `reachLimit` the flag `experimentReachLimit` on
entry and `fresh` the outcome of the subscribing request. -/
def RobotSlave.UpdateExp7Tasks (distWorkload : List Nat) (ticksPerSecond : Nat)
    (alloc : Bool) (fresh : Option Nat) (taskId reachLimit : Nat)
    (tasks : List RobotTask) : Option Exp7Result :=
  if alloc = false then
    some { tasks := tasks, taskId := taskId, experimentReachLimit := 1, resMsg := 1 }
  else
    match distWorkload.get? 1, distBaselineFrequency.get? 1 with
    | some w, some f =>
      match ((RobotTask.new taskId (baselinePriorityExpDist + 1) ticksPerSecond).SetKWIPP
              w).SetFrequency (f64OfNat f) ticksPerSecond with
      | none => none
      | some t =>
        (restartTasks ticksPerSecond
            (tasks ++ [t.SubscribingRequest fresh 3 baselineMessageSizeExpDist])).map
          fun ts =>
            { tasks := ts, taskId := wrapAdd sizeMod taskId 1,
              experimentReachLimit := reachLimit, resMsg := 0 }
    | _, _ => none

/-! ## `RobotMaster.cpp`, `RobotSlave.cpp`: the management tasks

The management functions are embedded a second time as the trees of their handshakes.
By the handshake protocol above, a call of `HandshakeSend` on one node and a call of
`HandshakeReceive` on the other return together, the receiver with the sender's
message; a node of a tree is one such call.  The state carried along holds the fields
the control flow reads and the list of the other operations performed, in order.
What the control flow reads from the task list and from the heap is a parameter. -/

/-- An operation of a management task other than a handshake.  `WaitTasksFinish` is
the delay of one timer period followed by `joinTasks`, the loop that joins (on the
Slave, unblocks and joins) every task. -/
inductive Event where
  | suspend : Event
  | initExperiment : Event
  | calculeRawSpeed : Event
  | requestTopics : Event
  | print (text : String) : Event
  | delay (ticks : Nat) : Event
  | signalizeBroad : Event
  | setInitialTime : Event
  | setStopCond (value : Nat) : Event
  | joinTasks : Event
  | getWorstCase (test : Nat) : Event
  | printReport (test : Nat) : Event
  | leaveTopics (test : Nat) : Event
  | updateTasks (test : Nat) : Event
deriving DecidableEq

/-- A management function as the tree of its handshakes: `ret` is the return of the
function, `halt code` is `exit(code)`, `send msg k` a call of `HandshakeSend` with
the message `msg` and `receive k` a call of `HandshakeReceive`. -/
inductive Hs (ρ : Type) where
  | ret (r : ρ) : Hs ρ
  | halt (code : Nat) : Hs ρ
  | send (msg : Nat) (k : Hs ρ) : Hs ρ
  | receive (k : Nat → Hs ρ) : Hs ρ

/-- Sequential composition of management functions. -/
def Hs.bind {α β : Type} : Hs α → (α → Hs β) → Hs β
  | .ret r, f => f r
  | .halt code, _ => .halt code
  | .send msg k, f => .send msg (k.bind f)
  | .receive k, f => .receive fun v => (k v).bind f

instance : Monad Hs where
  pure := Hs.ret
  bind := Hs.bind

/-- A call `HandshakeSend(&message)`; messages are `uint16_t`. -/
def handshakeSend (message : Nat) : Hs Unit := .send (message % 2 ^ 16) (.ret ())

/-- A call `HandshakeReceive(&message)`, returning the value stored in `message`. -/
def handshakeReceive : Hs Nat := .receive fun v => .ret (v % 2 ^ 16)

/-- The fields of `class RobotMaster` that the control flow of its management task
reads, and the operations performed so far. -/
structure RobotMaster where
  actualExp : Nat
  experimentReachLimit : Nat
  actualDeadlineMiss : Nat
  actualSlaveDeadlines : Nat
  events : List Event
deriving DecidableEq

/-- The fields of `class RobotSlave` that the control flow of its management task
reads, and the operations performed so far. -/
structure RobotSlave where
  actualExp : Nat
  experimentReachLimit : Nat
  actualDeadlineMiss : Nat
  events : List Event
deriving DecidableEq

/-- What the Master's management task finds outside its own fields: `tasksAfter test`
is the task list as `CalculateDeadlineMiss` reads it in test step `test`, and
`nameAllocFails` tells whether `Heap::Alloc` returns `NULL` for a task name in
`SetExperimentDistBaseline`. -/
structure MasterEnv where
  tasksAfter : Nat → List RobotTask
  nameAllocFails : Bool

/-- What the Slave's management task finds outside its own fields: `tasksAfter test`
is the task list as `CalculateDeadlineMiss` reads it in test step `test`,
`baselineAllocFails` tells whether `Heap::Alloc` returns `NULL` in
`SetExperimentBaseline`, `allocFails test` whether it does in `UpdateExp7(test)`, and
`stale test` is the content of the uninitialised `resMsg` that `UpdateExp4(test)` and
`UpdateExp6(test)` send. -/
structure SlaveEnv where
  tasksAfter : Nat → List RobotTask
  baselineAllocFails : Bool
  allocFails : Nat → Bool
  stale : Nat → Nat

/-- Records operations of the Master's management task. -/
def RobotMaster.log (m : RobotMaster) (es : List Event) : RobotMaster :=
  { m with events := m.events ++ es }

/-- An assignment to the field `actualDeadlineMiss`. -/
def RobotMaster.setActualDeadlineMiss (m : RobotMaster) (v : Nat) : RobotMaster :=
  { m with actualDeadlineMiss := v }

/-- An assignment to the field `actualSlaveDeadlines`. -/
def RobotMaster.setActualSlaveDeadlines (m : RobotMaster) (v : Nat) : RobotMaster :=
  { m with actualSlaveDeadlines := v }

/-- An assignment to the field `experimentReachLimit`. -/
def RobotMaster.setExperimentReachLimit (m : RobotMaster) (v : Nat) : RobotMaster :=
  { m with experimentReachLimit := v }

/-- Records operations of the Slave's management task. -/
def RobotSlave.log (s : RobotSlave) (es : List Event) : RobotSlave :=
  { s with events := s.events ++ es }

/-- An assignment to the field `actualDeadlineMiss`. -/
def RobotSlave.setActualDeadlineMiss (s : RobotSlave) (v : Nat) : RobotSlave :=
  { s with actualDeadlineMiss := v }

/-- An assignment to the field `experimentReachLimit`. -/
def RobotSlave.setExperimentReachLimit (s : RobotSlave) (v : Nat) : RobotSlave :=
  { s with experimentReachLimit := v }

/-- An assignment to the low 16 bits of the field `actualExp`. -/
def RobotSlave.setActualExpLow (s : RobotSlave) (v : Nat) : RobotSlave :=
  { s with actualExp := s.actualExp / 2 ^ 16 * 2 ^ 16 + v % 2 ^ 16 }

/-- The state of a `RobotMaster` when `RequestExperiment(experiment)` (lines 93-103)
has resumed its management task: the constructors zero the flags and counters. -/
def RobotMaster.requested (experiment : Nat) : RobotMaster :=
  { actualExp := experiment % 2 ^ 8, experimentReachLimit := 0, actualDeadlineMiss := 0,
    actualSlaveDeadlines := 0, events := [] }

/-- The state of a `RobotSlave` after its constructors. -/
def RobotSlave.constructed : RobotSlave :=
  { actualExp := 0, experimentReachLimit := 0, actualDeadlineMiss := 0, events := [] }

/-- The method `RobotMaster::ExperimentDeadlineMiss` (lines 325-328). -/
def RobotMaster.ExperimentDeadlineMiss (m : RobotMaster) : Nat :=
  wrapAdd sizeMod m.actualDeadlineMiss m.actualSlaveDeadlines

/-- The method `RobotMaster::WaitDeadlinesFromSlave` (lines 639-648). -/
def RobotMaster.WaitDeadlinesFromSlave (m : RobotMaster) : Hs RobotMaster := do
  let _ ← handshakeReceive
  let res ← handshakeReceive
  pure (m.setActualSlaveDeadlines res)

/-- The method `RobotMaster::StartReport` (lines 627-634). -/
def RobotMaster.StartReport (env : MasterEnv) (test : Nat) (m : RobotMaster) :
    Hs RobotMaster := do
  let m := m.setActualDeadlineMiss (CalculateDeadlineMiss (env.tasksAfter test))
  let m ← m.WaitDeadlinesFromSlave
  pure (m.log [.printReport test])

/-- The method `RobotMaster::SendExperimentStatus` (lines 204-209). -/
def RobotMaster.SendExperimentStatus (status : Nat) : Hs Unit :=
  handshakeSend status

/-- The method `RobotMaster::UpdateExp4` (lines 507-523): the handshakes and then the
loop over the tasks. -/
def RobotMaster.UpdateExp4 (test : Nat) (m : RobotMaster) : Hs RobotMaster := do
  let resMsg ← handshakeReceive
  handshakeSend resMsg
  pure (m.log [.updateTasks test])

/-- The method `RobotMaster::UpdateExp5` (lines 530-551): the first loop, the
handshakes and the second loop. -/
def RobotMaster.UpdateExp5 (test : Nat) (m : RobotMaster) : Hs RobotMaster := do
  let m := m.log [.leaveTopics test]
  let resMsg ← handshakeReceive
  handshakeSend resMsg
  pure (m.log [.updateTasks test])

/-- The method `RobotMaster::UpdateExp6` (lines 559-575). -/
def RobotMaster.UpdateExp6 (test : Nat) (m : RobotMaster) : Hs RobotMaster := do
  let resMsg ← handshakeReceive
  handshakeSend resMsg
  pure (m.log [.updateTasks test])

/-- The method `RobotMaster::UpdateExp7` (lines 583-605). -/
def RobotMaster.UpdateExp7 (test : Nat) (m : RobotMaster) : Hs RobotMaster := do
  let resMsg ← handshakeReceive
  if resMsg = 1 then
    let m := m.setExperimentReachLimit 1
    let m := m.log [.print "\n\nExperiment reach limit: Impossible create more receivers tasks!!!\n\n"]
    handshakeSend resMsg
    pure (m.log [.print "Experiment finished!!!\n", .print "Experiment deadlines: %d.\n!!!\n"])
  else
    handshakeSend resMsg
    pure (m.log [.updateTasks test])

/-- The method `RobotMaster::UpdateExperiment` (lines 401-428).  `UpdateExp1`,
`UpdateExp2` and `UpdateExp3` perform no handshake. -/
def RobotMaster.UpdateExperiment (test : Nat) (m : RobotMaster) : Hs RobotMaster :=
  match m.actualExp with
  | 1 => pure (m.log [.updateTasks test])
  | 2 => pure (m.log [.updateTasks test])
  | 3 => pure (m.log [.updateTasks test])
  | 4 => m.UpdateExp4 test
  | 5 => m.UpdateExp5 test
  | 6 => m.UpdateExp6 test
  | 7 => m.UpdateExp7 test
  | _ => pure m

/-- The method `RobotMaster::StartUniExperiment` (lines 220-252), the loop of the PD
experiments, from the iteration with test number `test` on.  The first argument bounds
the number of iterations followed; the result holds the test number with which the
loop was left, `none` when the bound is reached first. -/
def RobotMaster.StartUniExperiment (env : MasterEnv) (ticksPerSecond : Nat) :
    Nat → Nat → RobotMaster → Hs (RobotMaster × Option Nat)
  | 0, _, m => pure (m, none)
  | fuel + 1, test, m => do
    let m := m.log [.delay ((ticksPerSecond * 3) % timeCountMod), .signalizeBroad,
      .setInitialTime, .delay testPeriod, .setStopCond 1, .delay ticksPerSecond, .joinTasks,
      .setStopCond 0]
    let m := m.setActualDeadlineMiss (CalculateDeadlineMiss (env.tasksAfter test))
    let m := m.log [.printReport test]
    if m.ExperimentDeadlineMiss ≠ 0 ∨ m.experimentReachLimit ≠ 0 then
      pure (m.log [.print "Experiment finished!!!\n"], some test)
    else
      let test := wrapAdd sizeMod test 1
      let m ← m.UpdateExperiment test
      RobotMaster.StartUniExperiment env ticksPerSecond fuel test m

/-- The method `RobotMaster::StartDistributedExperiment` (lines 263-317), the loop of
the PCD experiments, from the iteration with test number `test` on.  The first
argument bounds the number of iterations followed; the result holds the test number
with which the loop was left, `none` when the bound is reached first. -/
def RobotMaster.StartDistributedExperiment (env : MasterEnv) (ticksPerSecond : Nat) :
    Nat → Nat → RobotMaster → Hs (RobotMaster × Option Nat)
  | 0, _, m => pure (m, none)
  | fuel + 1, test, m => do
    let handMsg ← handshakeReceive
    let m := m.log [.delay ((ticksPerSecond * 4) % timeCountMod), .setInitialTime,
      .signalizeBroad, .delay testPeriod]
    handshakeSend handMsg
    let m := m.log [.setStopCond 1, .delay ticksPerSecond, .joinTasks]
    let m ← m.WaitDeadlinesFromSlave
    let m := m.log [.setStopCond 0, .getWorstCase test]
    if m.ExperimentDeadlineMiss ≠ 0 then
      let m ← m.StartReport env test
      RobotMaster.SendExperimentStatus isFinished
      pure (m.log [.print "Experiment finished!!!\n",
        .print "Experiment deadlines: %d.\n!!!\n"], some test)
    else
      let m ← m.StartReport env test
      RobotMaster.SendExperimentStatus isRun
      let test := wrapAdd sizeMod test 1
      let m ← m.UpdateExperiment test
      if m.experimentReachLimit ≠ 0 then pure (m, some test)
      else RobotMaster.StartDistributedExperiment env ticksPerSecond fuel test m

/-- Lines 146-163 of `RobotMaster::ManTask`: the branch of the PCD experiments, the
connection with the Slave followed by the loop. -/
def RobotMaster.connect (env : MasterEnv) (ticksPerSecond fuel : Nat) (m : RobotMaster) :
    Hs (RobotMaster × Option Nat) := do
  let m := m.log [.requestTopics, .print "Master ready to begin connection with Slave!\n"]
  let hsMsg ← handshakeReceive
  if hsMsg ≠ isStarted then
    .halt 1
  else
    handshakeSend m.actualExp
    RobotMaster.StartDistributedExperiment env ticksPerSecond fuel 1 m

/-- The control part of `RobotMaster::InitExperiment` (lines 109-121): `exit(1)` when
a task name cannot be allocated in `SetExperimentDistBaseline`. -/
def RobotMaster.InitExperiment (env : MasterEnv) (m : RobotMaster) : Hs RobotMaster :=
  if m.actualExp > exp3 ∧ env.nameAllocFails = true then .halt 1
  else pure (m.log [.initExperiment])

/-- The method `RobotMaster::ManTask` (lines 127-172), from the suspension on.  The
result is the state on return, with the test number the loop was left with; the
experiments end with `exit(0)`. -/
def RobotMaster.ManTask (env : MasterEnv) (ticksPerSecond fuel : Nat) (m : RobotMaster) :
    Hs (RobotMaster × Option Nat) := do
  let m := m.log [.suspend]
  let m ← m.InitExperiment env
  if m.actualExp < exp1 ∨ m.actualExp > exp7 then
    pure (m.log [.calculeRawSpeed,
      .print "Raw speed in Kilo-Whetstone Instructions Per Second (KWIPS): %lld\n\n"], none)
  else
    let r ←
      if m.actualExp > exp3 then m.connect env ticksPerSecond fuel
      else RobotMaster.StartUniExperiment env ticksPerSecond fuel 1 m
    match r.2 with
    | none => pure r
    | some _ => .halt 0

/-- The method `RobotSlave::SignalDeadlineToMaster` (lines 444-454). -/
def RobotSlave.SignalDeadlineToMaster (env : SlaveEnv) (test : Nat) (s : RobotSlave) :
    Hs RobotSlave := do
  handshakeSend deadlineHandshake
  let s := s.setActualDeadlineMiss (CalculateDeadlineMiss (env.tasksAfter test))
  handshakeSend s.actualDeadlineMiss
  pure s

/-- The method `RobotSlave::StartReport` (lines 432-439). -/
def RobotSlave.StartReport (env : SlaveEnv) (test : Nat) (s : RobotSlave) :
    Hs RobotSlave := do
  let s := s.setActualDeadlineMiss (CalculateDeadlineMiss (env.tasksAfter test))
  let s ← s.SignalDeadlineToMaster env test
  pure (s.log [.printReport test])

/-- The method `RobotSlave::IsFinishedByMaster` (lines 155-166). -/
def RobotSlave.IsFinishedByMaster : Hs Bool := do
  let res ← handshakeReceive
  pure (decide (res = isFinished))

/-- The method `RobotSlave::UpdateExp4` (lines 286-301). -/
def RobotSlave.UpdateExp4 (env : SlaveEnv) (test : Nat) (s : RobotSlave) :
    Hs RobotSlave := do
  handshakeSend (env.stale test)
  let _ ← handshakeReceive
  pure (s.log [.updateTasks test])

/-- The method `RobotSlave::UpdateExp5` (lines 309-332). -/
def RobotSlave.UpdateExp5 (test : Nat) (s : RobotSlave) : Hs RobotSlave := do
  let s := s.log [.leaveTopics test]
  handshakeSend 0
  let _ ← handshakeReceive
  pure (s.log [.updateTasks test])

/-- The method `RobotSlave::UpdateExp6` (lines 340-356). -/
def RobotSlave.UpdateExp6 (env : SlaveEnv) (test : Nat) (s : RobotSlave) :
    Hs RobotSlave := do
  handshakeSend (env.stale test)
  let _ ← handshakeReceive
  pure (s.log [.updateTasks test])

/-- The method `RobotSlave::UpdateExp7` (lines 364-409). -/
def RobotSlave.UpdateExp7 (env : SlaveEnv) (test : Nat) (s : RobotSlave) :
    Hs RobotSlave := do
  if env.allocFails test = true then
    let s := s.setExperimentReachLimit 1
    let s := s.log [.print "\n\nExperiment reach limit: Impossible create more tasks!!!\n\n"]
    handshakeSend 1
    let _ ← handshakeReceive
    pure (s.log [.print "Experiment finished!!!\n"])
  else
    let s := s.log [.updateTasks test]
    handshakeSend 0
    let _ ← handshakeReceive
    pure s

/-- The method `RobotSlave::UpdateExperiment` (lines 261-278). -/
def RobotSlave.UpdateExperiment (env : SlaveEnv) (test : Nat) (s : RobotSlave) :
    Hs RobotSlave :=
  match s.actualExp with
  | 4 => s.UpdateExp4 env test
  | 5 => s.UpdateExp5 test
  | 6 => s.UpdateExp6 env test
  | 7 => s.UpdateExp7 env test
  | _ => pure s

/-- The method `RobotSlave::StartExperiment` (lines 174-207), from the iteration with
test number `test` and handshake message `handMsg` on.  The first argument bounds the
number of iterations followed; the result holds the test number with which the loop
was left, `none` when the bound is reached first. -/
def RobotSlave.StartExperiment (env : SlaveEnv) (ticksPerSecond : Nat) :
    Nat → Nat → Nat → RobotSlave → Hs (RobotSlave × Option Nat)
  | 0, _, _, s => pure (s, none)
  | fuel + 1, test, handMsg, s => do
    handshakeSend handMsg
    let handMsg ← handshakeReceive
    let s := s.log [.delay ticksPerSecond, .joinTasks]
    let s ← s.SignalDeadlineToMaster env test
    let s := s.log [.getWorstCase test]
    let s ← s.StartReport env test
    let finished ← RobotSlave.IsFinishedByMaster
    if finished = true then
      pure (s.log [.print "Experiment finished!!!\n"], some test)
    else
      let test := wrapAdd sizeMod test 1
      let s ← s.UpdateExperiment env test
      if s.experimentReachLimit ≠ 0 then pure (s, some test)
      else RobotSlave.StartExperiment env ticksPerSecond fuel test handMsg s

/-- The control part of `RobotSlave::InitExperiment` (lines 91-95): `exit(1)` when a
task cannot be allocated in `SetExperimentBaseline`. -/
def RobotSlave.InitExperiment (env : SlaveEnv) (s : RobotSlave) : Hs RobotSlave :=
  if env.baselineAllocFails = true then
    .halt 1
  else pure (s.log [.initExperiment])

/-- The method `RobotSlave::ManTask` (lines 101-123).  `HandshakeReceive` writes the
low 16 bits of `actualExp`. -/
def RobotSlave.ManTask (env : SlaveEnv) (ticksPerSecond fuel : Nat) (s : RobotSlave) :
    Hs (RobotSlave × Option Nat) := do
  handshakeSend isStarted
  let msg ← handshakeReceive
  let s := s.setActualExpLow msg
  let s := s.log [.print "Connection established with Master!\n",
    .print "Experiment %d will be performed...\n"]
  let s ← s.InitExperiment env
  RobotSlave.StartExperiment env ticksPerSecond fuel 1 isStarted s

/-- The direction of a handshake call. -/
inductive Dir where
  | send : Dir
  | receive : Dir
deriving DecidableEq

/-- The call that completes a call of the given direction on the other node. -/
def Dir.mirror : Dir → Dir
  | .send => .receive
  | .receive => .send

/-- How a management task stands when the joint run of the two nodes can go no
further: it has returned, it has called `exit`, or it is blocked in a handshake call
that the other node does not complete. -/
inductive Ending (ρ : Type) where
  | returned (r : ρ) : Ending ρ
  | exited (code : Nat) : Ending ρ
  | blocked (d : Dir) : Ending ρ

/-- The standing of a management task that is at the root of its tree. -/
def Hs.ending {ρ : Type} : Hs ρ → Ending ρ
  | .ret r => .returned r
  | .halt code => .exited code
  | .send _ _ => .blocked .send
  | .receive _ => .blocked .receive

/-- The joint run of the two management tasks: the handshake calls each of them
completed, in order, and how each of them ends. -/
structure Joint (α β : Type) where
  opsA : List Dir
  opsB : List Dir
  endA : Ending α
  endB : Ending β

/-- The joint run of two management tasks.  A handshake call completes when the
other node is in the call of the opposite direction; the message passes from the
sender to the receiver. -/
def Hs.sync {α β : Type} : Hs α → Hs β → Joint α β
  | .send msg k, .receive k2 =>
    let r := Hs.sync k (k2 msg)
    { r with opsA := .send :: r.opsA, opsB := .receive :: r.opsB }
  | .receive k, .send msg k2 =>
    let r := Hs.sync (k msg) k2
    { r with opsA := .receive :: r.opsA, opsB := .send :: r.opsB }
  | a, b => { opsA := [], opsB := [], endA := a.ending, endB := b.ending }

/-- How the two management tasks end in their joint run. -/
def Hs.ends {α β : Type} (a : Hs α) (b : Hs β) : Ending α × Ending β :=
  ((Hs.sync a b).endA, (Hs.sync a b).endB)

/-- The task list in place when the `n`-th operation `stop` of a management task is
performed, from the operations `events` of the task: `initExperiment` runs `init`
and `updateTasks test` runs `update test` on the list.  `cur` is the list before the
first of `events`. -/
def tasksAt (init : List RobotTask → Option (List RobotTask))
    (update : Nat → List RobotTask → Option (List RobotTask)) (stop : Event) :
    List Event → Nat → Option (List RobotTask) → Option (List RobotTask)
  | [], _, _ => none
  | e :: es, n, cur =>
    if e = stop then
      if n ≤ 1 then cur else tasksAt init update stop es (n - 1) cur
    else
      match e with
      | .initExperiment => tasksAt init update stop es n (cur.bind init)
      | .updateTasks test => tasksAt init update stop es n (cur.bind (update test))
      | _ => tasksAt init update stop es n cur

/-- The value a management function returns when it performs no handshake. -/
def Hs.result {ρ : Type} : Hs ρ → Option ρ
  | .ret r => some r
  | _ => none

/-- The test number with which a management loop was left, when its function has
returned: `some none` when the bound on the iterations was reached first. -/
def Ending.left {ρ : Type} : Ending (ρ × Option Nat) → Option (Option Nat)
  | .returned r => some r.2
  | _ => none

/-- The timer period of the target in ticks per second, `Timer::GetPeriod()`
(`timer.cpp`, line 46) for a clock resolution of one nanosecond. -/
def nsPerSecond : Nat := 1000000000

/-- A task that has counted `n` missed deadlines. -/
def missedTask (n : Nat) : RobotTask := { RobotTask.new 1 4 nsPerSecond with deadlineMiss := n }

/-- A Master whose only task misses three deadlines in test step 1 and none later. -/
def lateMasterEnv : MasterEnv :=
  { tasksAfter := fun test => if test = 1 then [missedTask 3] else [missedTask 0],
    nameAllocFails := false }

/-- A Master whose tasks miss no deadline. -/
def quietMasterEnv : MasterEnv :=
  { tasksAfter := fun _ => [missedTask 0], nameAllocFails := false }

/-- A Slave whose tasks miss no deadline and whose allocations succeed. -/
def quietSlaveEnv : SlaveEnv :=
  { tasksAfter := fun _ => [missedTask 0], baselineAllocFails := false,
    allocFails := fun _ => false, stale := fun _ => 0 }

/-- The state of the Master's management task when it enters the loop of a PD
experiment: `ManTask` has been resumed and has run `InitExperiment`. -/
def RobotMaster.initialised (experiment : Nat) : RobotMaster :=
  ((RobotMaster.requested experiment).log [.suspend]).log [.initExperiment]

/-- The configuration of a task: its id, priority, workload, frequency, period in
seconds and period in ticks. -/
def RobotTask.parameters (t : RobotTask) : Nat × Nat × Nat × Nat × Nat × Nat :=
  (t.id, t.priority, t.workload, t.frequency, t.periodSec, t.period)

/-- The value with which a management function has returned. -/
def Ending.result {ρ : Type} : Ending ρ → Option ρ
  | .returned r => some r
  | _ => none

/-- The started baseline tasks of the PD experiments on the target: every allocation
succeeds. -/
def samplePDTasks : List RobotTask :=
  (RobotMaster.InitExperimentTasks 3 [196, 413, 886, 1240, 2067] [2953, 4135, 6891]
    nsPerSecond (fun _ => true) (fun _ => none) []).getD []

/-- The baseline tasks of the Master in the PCD experiments on the target: every
allocation and every publishing request succeeds, with identifiers `100`, `101`, `102`. -/
def sampleMasterTasks : List RobotTask :=
  (RobotMaster.SetExperimentDistBaseline [2953, 4135, 6891] nsPerSecond (fun _ => true)
    (fun i => some (100 + i)) []).getD []

/-- The baseline tasks of the Slave in the PCD experiments on the target: every
allocation and every subscribing request succeeds, with identifiers `200`, `201`, `202`. -/
def sampleSlaveTasks : List RobotTask :=
  (RobotSlave.SetExperimentBaseline [2953, 4135, 6891] nsPerSecond (fun _ => true)
    (fun i => some (200 + i)) []).getD []

/-- A test step that leaves measurements other than zero in every task: in the task
`id`, with the static counter of `UpdateExp3` at `k`, `100 * k + id` deadlines met and
`id` missed. -/
def busyStep (k id : Nat) : Measurements :=
  { responseTime := 1000 * id + k, avgResponseJitter := 10 * id, wcrt := 2000 * id + k,
    bcrt := 500 * id, deadlineMiss := id, deadlineMet := 100 * k + id, deadlineSkip := id }

/-- The baseline tasks of the PD experiments on the target after a test step that has
left counters other than zero in every task. -/
def ranPDTasks : List RobotTask :=
  samplePDTasks.map fun t => t.measured (busyStep 1 t.id)

/-- The baseline tasks of the Master in the PCD experiments on the target after a test
step that has left counters other than zero in every task. -/
def ranMasterTasks : List RobotTask :=
  sampleMasterTasks.map fun t => t.measured (busyStep 1 t.id)

/-- The baseline tasks of the Slave in the PCD experiments on the target after a test
step that has left counters other than zero in every task. -/
def ranSlaveTasks : List RobotTask :=
  sampleSlaveTasks.map fun t => t.measured (busyStep 1 t.id)

/-! ## `RobotTask.cpp`, `Robotstone.cpp`: the reported times and the worst case -/

/-- The method `RobotTask::GetWCRT` (lines 329-332), `(double)((wcrt)/(Timer::GetPeriod()))`:
the quotient is formed on the two `timeCount_t` operands and the conversion to `double`
is applied to it.  `ticksPerSecond` is `Timer::GetPeriod()`; dividing by zero is
undefined. -/
def RobotTask.GetWCRT (t : RobotTask) (ticksPerSecond : Nat) : Option Nat :=
  if ticksPerSecond = 0 then none else some (f64OfNat (t.wcrt / ticksPerSecond))

/-- The method `RobotTask::GetResponseTime` (lines 349-352),
`((double)responseTime)/((double)Timer::GetPeriod())`. -/
def RobotTask.GetResponseTime (t : RobotTask) (ticksPerSecond : Nat) : Option Nat :=
  f64Div (f64OfNat t.responseTime) (f64OfNat ticksPerSecond)

/-- The type `worstCaseScenario_t` (`Robotstone.hpp`, lines 42-48); `wcrt` and
`averageResp` are `double` values, `taskID` is a `uint8_t` and `test` a `uint32_t`. -/
structure worstCaseScenario_t where
  wcrt : Nat
  averageResp : Nat
  taskID : Nat
  test : Nat
deriving DecidableEq

/-- The record `worstScenario` as the constructor `Robotstone::Robotstone` leaves it
(lines 55-58). -/
def worstScenarioInit : worstCaseScenario_t :=
  { wcrt := 0, averageResp := 0, taskID := 0, test := 0 }

/-- The expression `this->worstScenario.wcrt/this->worstScenario.averageResp` of
`GetWorstCase` (line 200), evaluated only when `averageResp` is not zero. -/
def worstCaseScenario_t.ratio (ws : worstCaseScenario_t) : Nat :=
  f64Round (ws.wcrt * f64Unit) ws.averageResp

/-- The comparison `w / r > ws.wcrt / ws.averageResp` of line 199 on `double` values,
for a stored record with `averageResp` not zero.  A quotient by zero is `+inf` when the
dividend is positive, which exceeds every finite value, and NaN for `0/0`, which
compares false. -/
def exceedsWorst (w r : Nat) (ws : worstCaseScenario_t) : Bool :=
  if r = 0 then decide (w ≠ 0) else decide (ws.ratio < f64Round (w * f64Unit) r)

/-- The body of the loop of `Robotstone::GetWorstCase` (lines 198-206) for the task the
iteration stands on. -/
def worstCaseUpdate (ticksPerSecond test : Nat) (ws : worstCaseScenario_t)
    (t : RobotTask) : Option worstCaseScenario_t :=
  match t.GetWCRT ticksPerSecond, t.GetResponseTime ticksPerSecond with
  | some w, some r =>
    if ws.averageResp = 0 ∨ exceedsWorst w r ws = true then
      some { wcrt := w, averageResp := r, taskID := t.id % 2 ^ 8, test := test % uint32Mod }
    else some ws
  | _, _ => none

/-- The method `Robotstone::GetWorstCase` (lines 194-208): the record `worstScenario`
after the iteration over `rstoneTasks`. -/
def GetWorstCase (ticksPerSecond test : Nat) (tasks : List RobotTask)
    (ws : worstCaseScenario_t) : Option worstCaseScenario_t :=
  (visited tasks).foldlM (worstCaseUpdate ticksPerSecond test) ws

/-- The quotient `GetWCRT()/GetResponseTime()` of a task whose reported average is not
zero (line 199). -/
def RobotTask.worstRatio (t : RobotTask) (ticksPerSecond : Nat) : Option Nat :=
  match t.GetWCRT ticksPerSecond, t.GetResponseTime ticksPerSecond with
  | some w, some r => some (f64Round (w * f64Unit) r)
  | _, _ => none

/-- The record `GetWorstCase` stores for a task. -/
def RobotTask.worstRecord (t : RobotTask) (ticksPerSecond test : Nat) :
    Option worstCaseScenario_t :=
  match t.GetWCRT ticksPerSecond, t.GetResponseTime ticksPerSecond with
  | some w, some r =>
    some { wcrt := w, averageResp := r, taskID := t.id % 2 ^ 8, test := test % uint32Mod }
  | _, _ => none

/-- A task whose worst response is 0.75 s and whose average response is 0.5 s. -/
def slowTask : RobotTask :=
  { RobotTask.new 1 4 nsPerSecond with wcrt := 750000000, responseTime := 500000000 }

/-- A task whose worst response is 0.9 s, whose average response is 0.1 s and whose best
response is 0.05 s. -/
def briefTask : RobotTask :=
  { RobotTask.new 1 4 nsPerSecond with
    wcrt := 900000000, responseTime := 100000000, bcrt := 50000000 }

/-- A task whose worst response is 1 s, whose average response is 0.9 s and whose best
response is 0.8 s. -/
def steadyTask : RobotTask :=
  { RobotTask.new 2 3 nsPerSecond with
    wcrt := 1000000000, responseTime := 900000000, bcrt := 800000000 }

/-! ## `list.hpp` -/

/-- The class template `List<T,U>` of `list.hpp` (lines 63-97), a doubly linked list.
`nodes` are the values of the chain from `head` to `tail` (the links `next` and
`previous` of the nodes are the order of this list), `actual` is the chain that starts
at the node the iteration stands on (`[]` is `NULL`), `size`, `isBegin` and `isEnd` are
the fields of those names. -/
structure DList (α : Type) where
  nodes : List α
  actual : List α
  size : Nat
  isBegin : Bool
  isEnd : Bool
deriving DecidableEq

/-- The constructor `List<T,U>::List` (lines 136-141). -/
def DList.new {α : Type} : DList α :=
  { nodes := [], actual := [], size := 0, isBegin := true, isEnd := true }

/-- The method `List<T,U>::InsertTail` (lines 143-168). -/
def DList.InsertTail {α : Type} (l : DList α) (value : α) : DList α :=
  { l with actual := [],
           nodes := if l.size = 0 then [value] else l.nodes ++ [value],
           size := wrapAdd sizeMod l.size 1 }

/-- The method `List<T,U>::Remove(T* value)` (lines 198-252) for a value that is not
`NULL`; `key` is what `operator ==` of the element class compares.  The node freed is
the first one that compares equal. -/
def DList.Remove {α : Type} (key : α → Nat) (l : DList α) (value : α) : DList α :=
  if l.size = 1 then
    match l.nodes with
    | h :: _ =>
      if key h = key value then { l with actual := [], nodes := [], size := 0 }
      else { l with actual := [] }
    | [] => { l with actual := [] }
  else if l.nodes.any (fun x => decide (key x = key value)) then
    { l with actual := [],
             nodes := l.nodes.eraseP (fun x => decide (key x = key value)),
             size := wrapSub sizeMod l.size 1 }
  else { l with actual := [] }

/-- The method `List<T,U>::HasKey` (lines 372-383). -/
def DList.HasKey {α : Type} (key : α → Nat) (l : DList α) (k : Nat) : Bool :=
  l.nodes.any fun x => decide (key x = k)

/-- The method `List<T,U>::InitIteration(void)` (lines 432-444). -/
def DList.InitIteration {α : Type} (l : DList α) : DList α :=
  { l with isEnd := decide (l.size = 0), actual := l.nodes }

/-- The method `List<T,U>::IsEnd` (lines 477-481). -/
def DList.IsEnd {α : Type} (l : DList α) : Bool := l.isEnd

/-- The method `List<T,U>::GetValue(void)` (lines 414-418), `actual->GetValue()`:
undefined when `actual` is `NULL`. -/
def DList.GetValue {α : Type} (l : DList α) : Option α := l.actual.head?

/-- The method `List<T,U>::operator ++` (lines 489-506): the list and the value
returned (`none` is `NULL`).  The outer `none` is a read through `NULL`. -/
def DList.increment {α : Type} (key : α → Nat) (l : DList α) : Option (DList α × Option α) :=
  match l.actual with
  | [] => some (l, none)
  | a :: rest =>
    match l.nodes.getLast? with
    | none => none
    | some tl =>
      if key a = key tl then some ({ l with actual := [], isEnd := true }, none)
      else
        match rest with
        | [] => none
        | b :: _ => some ({ l with actual := rest }, some b)

/-- The statement `for(; !l.IsEnd(); ++l) visit(l.GetValue())` run for at most `fuel`
tests of `IsEnd`: the values passed to `visit`, in order, and the list at the exit.
`none` is a read through `NULL`, or a loop that has not ended when the fuel is used up. -/
def DList.loop {α : Type} (key : α → Nat) : Nat → DList α → Option (List α × DList α)
  | 0, _ => none
  | fuel + 1, l =>
    if l.IsEnd = true then some ([], l)
    else
      match l.GetValue with
      | none => none
      | some v =>
        match l.increment key with
        | none => none
        | some (l', _) => (DList.loop key fuel l').map fun r => (v :: r.1, r.2)

/-- The list obtained from the empty one by `InsertTail` of the values `xs`, in order. -/
def DList.build {α : Type} (xs : List α) : DList α :=
  xs.foldl DList.InsertTail DList.new

/-! ## `communic.cpp`: topics and the topic table

The topic table `topicsList` of a process and the objects shared by all processes
(the queue, heap and mutex named `topic_<id>` and the counter `*tasksNumber` kept in
that heap) are explicit state.  The calls of the Xenomai services on `comMutex` and on
the shared objects of a topic are recorded in a trace, in the order the code makes
them.  The private queue of a subscriber, the gatekeeper task body and the blocks of
the global heap are not part of the state. -/

/-- The constant `RealTime::ok`. -/
def RealTime.ok : Nat := 0

/-- The constant `RealTime::fail`. -/
def RealTime.fail : Nat := 1

/-- Number of values of `uint8_t`. -/
def uint8Mod : Nat := 2 ^ 8

/-- Number of values of `uint16_t`. -/
def uint16Mod : Nat := 2 ^ 16

/-- The macro `MAX_TOPICS`, the length of `topicsList`. -/
def MAX_TOPICS : Nat := 256

/-- The fields of `class Topic` (`communic.hpp`, lines 134-147) that are private to the
process; `*tasksNumber` lives in the shared heap of the topic. -/
structure Topic where
  messageLen : Nat
  subsList : DList Subscriber
  pubsList : DList Publisher
  topicID : Nat
  pubNumber : Nat
  subNumber : Nat
deriving DecidableEq

/-- A call of a Xenomai service on `comMutex` or on the shared objects of the topic
`id`, a construction of a `Topic`, or the start or the end of its gatekeeper task.
`topicCreate` is the branch of `Topic::Init` that creates the mutex, the queue and the
heap, `topicBind` the branch that binds to them, `taskJoin` is `Unblock` followed by
`Join`; the others are the services `rt_queue_delete`, `rt_heap_free`,
`rt_heap_delete`, `rt_mutex_delete`, `rt_queue_unbind`, `rt_heap_unbind` and
`rt_mutex_unbind`. -/
inductive CommEvent where
  | mutexAcquire : CommEvent
  | mutexRelease : CommEvent
  | topicNew (topic messageSize : Nat) : CommEvent
  | topicCreate (id : Nat) : CommEvent
  | topicBind (id : Nat) : CommEvent
  | taskStart (id : Nat) : CommEvent
  | taskJoin (id : Nat) : CommEvent
  | queueDelete (id : Nat) : CommEvent
  | heapFree (id : Nat) : CommEvent
  | heapDelete (id : Nat) : CommEvent
  | mutexDelete (id : Nat) : CommEvent
  | queueUnbind (id : Nat) : CommEvent
  | heapUnbind (id : Nat) : CommEvent
  | mutexUnbind (id : Nat) : CommEvent
deriving DecidableEq

/-- The communication subsystem as one process sees it: its table `topicsList` (`none` is
`NULL`), for every topic id the value of the shared counter `*tasksNumber` when the
shared objects of that name exist, and the trace of the calls made so far. -/
structure CommState where
  topicsList : Nat → Option Topic
  shared : Nat → Option Nat
  trace : List CommEvent

/-- Append calls to the trace. -/
def CommState.log (st : CommState) (es : List CommEvent) : CommState :=
  { topicsList := st.topicsList, shared := st.shared, trace := st.trace ++ es }

/-- The assignment `topicsList[topic] = entry`. -/
def CommState.setTopic (st : CommState) (topic : Nat) (entry : Option Topic) : CommState :=
  { topicsList := fun i => if i = topic then entry else st.topicsList i,
    shared := st.shared, trace := st.trace }

/-- A change of the shared objects of the topic `id`: `some c` stores `c` in the
counter, `none` deletes them. -/
def CommState.setShared (st : CommState) (id : Nat) (c : Option Nat) : CommState :=
  { topicsList := st.topicsList,
    shared := fun i => if i = id then c else st.shared i, trace := st.trace }

/-- What the environment decides in one request: whether `Heap::Alloc` returns a block
for the `Topic` and for the handle, whether `Topic::Init` and `Subscriber::Init` find
the Xenomai services they call successful, and the values that the successive calls of
`Timer::GetRandomValue` compute before the conversion to `uint8_t`. -/
structure RequestEnv where
  topicAlloc : Bool
  topicInit : Bool
  handleAlloc : Bool
  handleInit : Bool
  randomValues : List Nat

/-- The constructor `Topic::Topic(uint8_t topic, size_t messageSize)` (lines 336-344). -/
def Topic.new (topic messageSize : Nat) : Topic :=
  { messageLen := messageSize % uint32Mod, subsList := DList.new, pubsList := DList.new,
    topicID := topic % uint8Mod, pubNumber := 0, subNumber := 0 }

/-- The method `Topic::Init` (lines 352-446) when every service it calls succeeds: the
shared objects are created, with the counter set to zero, if no queue of the name
exists, and bound otherwise; the gatekeeper task is started.  `none` is the result
`RealTime::fail`, returned before `tasksNumber` is assigned.  The block that holds the
name and the `Task` object of the gatekeeper are not part of the state. -/
def Topic.Init (services : Bool) (T : Topic) (st : CommState) : Option CommState :=
  if services = false then none
  else
    match st.shared T.topicID with
    | none =>
      some ((st.setShared T.topicID (some 0)).log
        [.topicCreate T.topicID, .taskStart T.topicID])
    | some _ => some (st.log [.topicBind T.topicID, .taskStart T.topicID])

/-- The destructor `Topic::~Topic` (lines 451-470).  The difference
`*tasksNumber - subNumber - pubNumber` is formed in `int` and stored in the `uint16_t`
counter.  Writing through `tasksNumber` is undefined when the shared heap does not
exist. -/
def Topic.destructor (T : Topic) (st : CommState) : Option CommState :=
  match st.shared T.topicID with
  | none => none
  | some c =>
    let c' := (c + 2 * uint16Mod - (T.subNumber + T.pubNumber)) % uint16Mod
    if c' = 0 then
      some ((st.setShared T.topicID none).log
        [.taskJoin T.topicID, .queueDelete T.topicID, .heapFree T.topicID,
         .heapDelete T.topicID, .mutexDelete T.topicID])
    else
      some ((st.setShared T.topicID (some c')).log
        [.taskJoin T.topicID, .queueUnbind T.topicID, .mutexUnbind T.topicID])

/-- Lines 504-505 of `Topic::AddSubscriber`, the part that changes the topic object. -/
def Topic.insertSubscriber (T : Topic) (sub : Subscriber) : Topic :=
  { T with subsList := T.subsList.InsertTail sub,
           subNumber := wrapAdd uint8Mod T.subNumber 1 }

/-- Lines 520-521 of `Topic::AddPublisher`. -/
def Topic.insertPublisher (T : Topic) (pub : Publisher) : Topic :=
  { T with pubsList := T.pubsList.InsertTail pub,
           pubNumber := wrapAdd uint8Mod T.pubNumber 1 }

/-- Lines 536-537 of `Topic::RemoveSubscriber`; `Subscriber::operator ==` compares the
identifiers. -/
def Topic.removeSubscriber (T : Topic) (sub : Subscriber) : Topic :=
  { T with subsList := T.subsList.Remove Subscriber.id sub,
           subNumber := wrapSub uint8Mod T.subNumber 1 }

/-- Lines 552-553 of `Topic::RemovePublisher`. -/
def Topic.removePublisher (T : Topic) (pub : Publisher) : Topic :=
  { T with pubsList := T.pubsList.Remove Publisher.id pub,
           pubNumber := wrapSub uint8Mod T.pubNumber 1 }

/-- The method `Topic::AddSubscriber` (lines 502-508): the topic object and the shared
counter after the call.  The write through `tasksNumber` is undefined when the shared
heap does not exist. -/
def Topic.AddSubscriber (T : Topic) (sub : Subscriber) (st : CommState) :
    Option (Topic × CommState) :=
  match st.shared T.topicID with
  | none => none
  | some c =>
    some (T.insertSubscriber sub, st.setShared T.topicID (some (wrapAdd uint16Mod c 1)))

/-- The method `Topic::AddPublisher` (lines 518-524). -/
def Topic.AddPublisher (T : Topic) (pub : Publisher) (st : CommState) :
    Option (Topic × CommState) :=
  match st.shared T.topicID with
  | none => none
  | some c =>
    some (T.insertPublisher pub, st.setShared T.topicID (some (wrapAdd uint16Mod c 1)))

/-- The method `Topic::RemoveSubscriber` (lines 534-540). -/
def Topic.RemoveSubscriber (T : Topic) (sub : Subscriber) (st : CommState) :
    Option (Topic × CommState) :=
  match st.shared T.topicID with
  | none => none
  | some c =>
    some (T.removeSubscriber sub, st.setShared T.topicID (some (wrapSub uint16Mod c 1)))

/-- The method `Topic::RemovePublisher` (lines 550-556). -/
def Topic.RemovePublisher (T : Topic) (pub : Publisher) (st : CommState) :
    Option (Topic × CommState) :=
  match st.shared T.topicID with
  | none => none
  | some c =>
    some (T.removePublisher pub, st.setShared T.topicID (some (wrapSub uint16Mod c 1)))

/-- The method `Topic::GetObjectsNumLocal` (lines 585-588). -/
def Topic.GetObjectsNumLocal (T : Topic) : Nat := T.subNumber + T.pubNumber

/-- The method `Topic::HasSubID` (lines 590-593). -/
def Topic.HasSubID (T : Topic) (id : Nat) : Bool := T.subsList.HasKey Subscriber.id id

/-- The method `Topic::HasPubID` (lines 595-598). -/
def Topic.HasPubID (T : Topic) (id : Nat) : Bool := T.pubsList.HasKey Publisher.id id

/-- The function `Communic::GetValidSubID` (lines 939-949): `Timer::GetRandomValue`
(`timer.cpp`, lines 77-83) converts each value to `uint8_t`, and the loop draws until the
identifier is not in the subscriber list.  `none`: every value given is in use, the
loop has not ended. -/
def RealTime.Communic.GetValidSubID (T : Topic) : List Nat → Option Nat
  | [] => none
  | v :: vs =>
    if T.HasSubID (v % uint8Mod) = true then RealTime.Communic.GetValidSubID T vs
    else some (v % uint8Mod)

/-- The function `Communic::GetValidPubID` (lines 951-960). -/
def RealTime.Communic.GetValidPubID (T : Topic) : List Nat → Option Nat
  | [] => none
  | v :: vs =>
    if T.HasPubID (v % uint8Mod) = true then RealTime.Communic.GetValidPubID T vs
    else some (v % uint8Mod)

/-- The function `Communic::Init` (lines 662-681) in a system whose shared objects are
`shared`: every entry of the table is `NULL`. -/
def RealTime.Communic.Init (shared : Nat → Option Nat) : CommState :=
  { topicsList := fun _ => none, shared := shared, trace := [] }

/-- How the common first part of the two requests ends: with `NULL` returned after the
release of `comMutex`, or with the topic at hand and `newTopicFlag`. -/
inductive Opened where
  | failed (st : CommState) : Opened
  | ready (newTopicFlag : Bool) (T : Topic) (st : CommState) : Opened

/-- Lines 700-730 of `SubscribingRequest`, the same as lines 790-820 of
`PublishingRequest`: the topic is looked up in the table and created when the entry is
`NULL`.  When `Topic::Init` fails the code runs the destructor on a topic whose
`tasksNumber` is still `NULL`, which is undefined. -/
def RealTime.Communic.openTopic (env : RequestEnv) (topic msgSize : Nat) (st : CommState) :
    Option Opened :=
  match st.topicsList topic with
  | some T => some (.ready false T st)
  | none =>
    if env.topicAlloc = false then some (.failed (st.log [.mutexRelease]))
    else
      let T := Topic.new topic (msgSize % sizeMod)
      match T.Init env.topicInit (st.log [.topicNew topic (msgSize % sizeMod)]) with
      | none => none
      | some st => some (.ready true T (st.setTopic topic (some T)))

/-- The failure paths that follow the lookup (lines 735-743 and 751-764, and the same
in `PublishingRequest`): a topic created by this call is taken out of the table and
destroyed, `comMutex` is released and `NULL` is returned. -/
def RealTime.Communic.giveUp (newTopicFlag : Bool) (topic : Nat) (T : Topic)
    (st : CommState) : Option CommState :=
  if newTopicFlag = true then
    (T.destructor (st.setTopic topic none)).map fun st => st.log [.mutexRelease]
  else some (st.log [.mutexRelease])

/-- The function `Communic::SubscribingRequest(size_t topic, uint64_t msgSize)` (lines
692-771): the state after the call and the handle returned (`none` is `NULL`).  The
outer `none` is undefined behaviour (an index outside `topicsList`, a write through
`NULL`) or a call that has not returned with the random values given. -/
def RealTime.Communic.SubscribingRequest (env : RequestEnv) (topic msgSize : Nat)
    (st : CommState) : Option (CommState × Option Subscriber) :=
  if MAX_TOPICS ≤ topic then none
  else
    match RealTime.Communic.openTopic env topic msgSize (st.log [.mutexAcquire]) with
    | none => none
    | some (.failed st) => some (st, none)
    | some (.ready newTopicFlag T st) =>
      if env.handleAlloc = false then
        (RealTime.Communic.giveUp newTopicFlag topic T st).map fun st => (st, none)
      else
        match RealTime.Communic.GetValidSubID T env.randomValues with
        | none => none
        | some id =>
          if env.handleInit = false then
            (RealTime.Communic.giveUp newTopicFlag topic T st).map fun st => (st, none)
          else
            let sub : Subscriber := { id := id, topic := topic, messageSize := msgSize % sizeMod }
            match T.AddSubscriber sub st with
            | none => none
            | some (T, st) =>
              some ((st.setTopic topic (some T)).log [.mutexRelease], some sub)

/-- The function `Communic::PublishingRequest(size_t topic, uint64_t msgSize)` (lines
782-864).  `Publisher::Init` returns `RealTime::ok` always, so the path of lines
842-858 is never taken. -/
def RealTime.Communic.PublishingRequest (env : RequestEnv) (topic msgSize : Nat)
    (st : CommState) : Option (CommState × Option Publisher) :=
  if MAX_TOPICS ≤ topic then none
  else
    match RealTime.Communic.openTopic env topic msgSize (st.log [.mutexAcquire]) with
    | none => none
    | some (.failed st) => some (st, none)
    | some (.ready newTopicFlag T st) =>
      if env.handleAlloc = false then
        (RealTime.Communic.giveUp newTopicFlag topic T st).map fun st => (st, none)
      else
        match RealTime.Communic.GetValidPubID T env.randomValues with
        | none => none
        | some id =>
          let pub : Publisher := { id := id, topic := topic, messageSize := msgSize % sizeMod }
          match T.AddPublisher pub st with
          | none => none
          | some (T, st) =>
            some ((st.setTopic topic (some T)).log [.mutexRelease], some pub)

/-- Lines 890-898 and 928-936 of the two `LeaveTopic` functions: the topic is taken out
of the table and destroyed when no publisher and no subscriber of the process is
counted on it, `comMutex` is released and `RealTime::ok` is returned. -/
def RealTime.Communic.closeTopic (topic : Nat) (T : Topic) (st : CommState) :
    Option (CommState × Nat) :=
  if T.GetObjectsNumLocal = 0 then
    (T.destructor (st.setTopic topic none)).map fun st =>
      (st.log [.mutexRelease], RealTime.ok)
  else some ((st.setTopic topic (some T)).log [.mutexRelease], RealTime.ok)

/-- The function `Communic::LeaveTopic(Subscriber* subHandler)` (lines 909-937) for a
handle that points to a live `Subscriber`: the state after the call and the value
returned. -/
def RealTime.Communic.LeaveTopicSub (subHandler : Subscriber) (st : CommState) :
    Option (CommState × Nat) :=
  if MAX_TOPICS ≤ subHandler.topic then none
  else
    let st := st.log [.mutexAcquire]
    match st.topicsList subHandler.topic with
    | none => some (st, RealTime.fail)
    | some T =>
      match T.RemoveSubscriber subHandler st with
      | none => none
      | some (T, st) => RealTime.Communic.closeTopic subHandler.topic T st

/-- The function `Communic::LeaveTopic(Publisher* pubHandler)` (lines 874-899) for a
handle that points to a live `Publisher`. -/
def RealTime.Communic.LeaveTopicPub (pubHandler : Publisher) (st : CommState) :
    Option (CommState × Nat) :=
  if MAX_TOPICS ≤ pubHandler.topic then none
  else
    let st := st.log [.mutexAcquire]
    match st.topicsList pubHandler.topic with
    | none => some (st, RealTime.fail)
    | some T =>
      match T.RemovePublisher pubHandler st with
      | none => none
      | some (T, st) => RealTime.Communic.closeTopic pubHandler.topic T st

/-- A call of the communication subsystem by a task of the process. -/
inductive CommCall where
  | subscribe (env : RequestEnv) (topic msgSize : Nat) : CommCall
  | publish (env : RequestEnv) (topic msgSize : Nat) : CommCall
  | leaveSub (subHandler : Subscriber) : CommCall
  | leavePub (pubHandler : Publisher) : CommCall

/-- The topic a call is about. -/
def CommCall.topic : CommCall → Nat
  | .subscribe _ topic _ => topic
  | .publish _ topic _ => topic
  | .leaveSub h => h.topic
  | .leavePub h => h.topic

/-- The state after a successful call: a request that returns a handle, or a
`LeaveTopic` that returns `RealTime::ok` for a handle that is in the list of its
topic (a handle obtained from a request and not left since). -/
def CommState.call (st : CommState) : CommCall → Option CommState
  | .subscribe env topic msgSize =>
    match RealTime.Communic.SubscribingRequest env topic msgSize st with
    | some (st, some _) => some st
    | _ => none
  | .publish env topic msgSize =>
    match RealTime.Communic.PublishingRequest env topic msgSize st with
    | some (st, some _) => some st
    | _ => none
  | .leaveSub h =>
    match st.topicsList h.topic with
    | none => none
    | some T =>
      if h ∈ T.subsList.nodes then
        match RealTime.Communic.LeaveTopicSub h st with
        | some (st, r) => if r = RealTime.ok then some st else none
        | none => none
      else none
  | .leavePub h =>
    match st.topicsList h.topic with
    | none => none
    | some T =>
      if h ∈ T.pubsList.nodes then
        match RealTime.Communic.LeaveTopicPub h st with
        | some (st, r) => if r = RealTime.ok then some st else none
        | none => none
      else none

/-- Whether the lists of a topic of the table hold at most `limit` handles each. -/
def CommState.sized (st : CommState) (limit topic : Nat) : Bool :=
  match st.topicsList topic with
  | none => true
  | some T =>
    decide (T.subsList.nodes.length ≤ limit) && decide (T.pubsList.nodes.length ≤ limit)

/-- The state after a sequence of successful calls, each of which leaves at most
`limit` subscribers and at most `limit` publishers on its topic; `none` when the
sequence is not of that kind. -/
def CommState.run (limit : Nat) (st : CommState) : List CommCall → Option CommState
  | [] => some st
  | c :: cs =>
    match st.call c with
    | none => none
    | some st1 => if st1.sized limit c.topic = true then st1.run limit cs else none

/-- The value of the shared counter of a topic, zero when the shared objects do not
exist. -/
def CommState.counter (st : CommState) (id : Nat) : Nat := (st.shared id).getD 0

/-- An environment in which every allocation and every service succeeds and the
random values are `0, 1, 2, ...`. -/
def plainEnv : RequestEnv :=
  { topicAlloc := true, topicInit := true, handleAlloc := true, handleInit := true,
    randomValues := List.range 256 }

/-- A system without shared objects: no process holds a topic. -/
def noShared : Nat → Option Nat := fun _ => none

/-- The requests of `n` tasks that subscribe to topic 2 with messages of 4 bytes, one
after the other; the random value of the request number `i` is `i`. -/
def manySubscribers (n : Nat) : List CommCall :=
  (List.range n).map fun i => .subscribe { plainEnv with randomValues := [i] } 2 4

/-- The state after a call, the state itself when the call is not successful. -/
def CommState.after (st : CommState) (c : CommCall) : CommState := (st.call c).getD st

/-- A process in which one task publishes on topic 2, messages of 4 bytes. -/
def onePublisher : CommState :=
  (RealTime.Communic.Init noShared).after (.publish plainEnv 2 4)

/-- A system in which another process holds one handle on topic 2. -/
def peerShared : Nat → Option Nat := fun i => if i = 2 then some 1 else none

/-- Whether a call is a request. -/
def CommCall.isRequest : CommCall → Bool
  | .subscribe _ _ _ => true
  | .publish _ _ _ => true
  | .leaveSub _ => false
  | .leavePub _ => false

/-- The counters of the topic at an index of the table agree with its lists and with
the shared counter: `subNumber` and `pubNumber` are the numbers of nodes of the two
lists, which hold at most 255 handles each and whose `size` is the number of their
nodes, the topic stands at the index of its id, and the shared counter is the local
count plus `base`, the handles held on the topic by the other processes.  For a topic
that is not in the table the shared counter is `base`. -/
def CommState.consistentAt (base : Nat → Nat) (st : CommState) (topic : Nat) : Prop :=
  match st.topicsList topic with
  | some T =>
    T.topicID = topic ∧
    T.subsList.size = T.subsList.nodes.length ∧ T.pubsList.size = T.pubsList.nodes.length ∧
    T.subsList.nodes.length ≤ 255 ∧ T.pubsList.nodes.length ≤ 255 ∧
    T.subNumber = T.subsList.nodes.length ∧ T.pubNumber = T.pubsList.nodes.length ∧
    st.shared topic = some (base topic + T.subNumber + T.pubNumber)
  | none => st.counter topic = base topic

/-- The counters of every topic agree with the lists and with the shared counters. -/
def CommState.consistent (base : Nat → Nat) (st : CommState) : Prop :=
  ∀ topic, st.consistentAt base topic

/-- The topic 2 of the process `onePublisher`. -/
def onePublisherTopic : Topic := (Topic.new 2 4).insertPublisher ⟨0, 2, 4⟩
/-! ## Lemmas on machine arithmetic -/

theorem wrapAdd_of_lt {w x y : Nat} (h : x + y < w) : wrapAdd w x y = x + y := by
  unfold wrapAdd
  exact Nat.mod_eq_of_lt h

theorem wrapSub_of_le {w x y : Nat} (hxy : y ≤ x) (hx : x < w) : wrapSub w x y = x - y := by
  unfold wrapSub
  have hy : y % w = y := Nat.mod_eq_of_lt (lt_of_le_of_lt hxy hx)
  rw [hy]
  have h1 : x + (w - y) = (x - y) + w := by omega
  rw [h1, Nat.add_mod_right]
  exact Nat.mod_eq_of_lt (by omega)

theorem wrapAdd_lt {w : Nat} (hw : 0 < w) (x y : Nat) : wrapAdd w x y < w :=
  Nat.mod_lt _ hw

theorem wrapSub_lt {w : Nat} (hw : 0 < w) (x y : Nat) : wrapSub w x y < w :=
  Nat.mod_lt _ hw

/-- The value of `CEILING` on a positive period: no operation wraps. -/
theorem CEILING_of_pos (r p : Nat) (hr : r < timeCountMod) (hp : 0 < p) :
    CEILING r p = some (if r = 0 then 1 else 1 + (r - 1) / p) := by
  unfold CEILING
  by_cases h0 : r = 0
  · simp [h0]
  · have hp0 : p ≠ 0 := Nat.pos_iff_ne_zero.mp hp
    have hsub : wrapSub timeCountMod r 1 = r - 1 :=
      wrapSub_of_le (Nat.one_le_iff_ne_zero.mpr h0) hr
    have hdiv : (r - 1) / p ≤ r - 1 := Nat.div_le_self _ _
    have hadd : wrapAdd timeCountMod 1 ((r - 1) / p) = 1 + (r - 1) / p :=
      wrapAdd_of_lt (by omega)
    simp [h0, hp0, hsub, hadd]

/-- C1. For every response time `r` and period `p > 0` (both `timeCount_t`), the macro
`CEILING(r, p)` used by the task loop yields `1` when `r = 0` and
`1 + (r - 1) / p` (integer division) otherwise. -/
theorem CEILING_spec (r p : Nat) (hr : r < timeCountMod) (hp : 0 < p) :
    CEILING r p = some (if r = 0 then 1 else 1 + (r - 1) / p) :=
  CEILING_of_pos r p hr hp

/-- Witness for C1: response 25 ticks, period 10 ticks, multiplier 3. -/
theorem CEILING_spec_witness :
    CEILING 25 10 = some (if 25 = 0 then 1 else 1 + (25 - 1) / 10) :=
  CEILING_spec 25 10 (by decide) (by decide)

/-- C2. With activation `timerMAX_DELAY - 7` and completion `5` (completion before
activation) the task loop computes `timerMAX_DELAY - 5 + activation`, which is
`2^64 - 14`, and not the wrap-safe interval `timerMAX_DELAY - activation + 5 = 12`. -/
theorem actualResponseTime_wrap_swapped :
    actualResponseTime (timerMAX_DELAY - 7) 5 = 2 ^ 64 - 14 ∧
      actualResponseTime (timerMAX_DELAY - 7) 5 ≠ timerMAX_DELAY - (timerMAX_DELAY - 7) + 5 := by
  decide

/-! ## Lemmas on single precision rounding -/

theorem f32Shift_of_lt (fuel : Nat) {n : Nat} (h : n < 2 ^ 24) : f32Shift fuel n = 0 := by
  cases fuel with
  | zero => rfl
  | succ f => rw [f32Shift, if_pos h]

theorem f32Shift_succ_of_ge (fuel : Nat) {n : Nat} (h : 2 ^ 24 ≤ n) :
    f32Shift (fuel + 1) n = f32Shift fuel (n / 2) + 1 := by
  rw [f32Shift, if_neg (Nat.not_lt.mpr h)]

theorem f32Round_of_lt {n : Nat} (h : n < 2 ^ 24) : f32Round n = n := by
  simp [f32Round, f32Shift_of_lt 128 h, Nat.mod_one]

theorem f32Round_dvd (n : Nat) : 2 ^ f32Shift 128 n ∣ f32Round n := by
  unfold f32Round
  simp only []
  split_ifs <;> exact Dvd.intro_left _ rfl

theorem f32Round_eq_one_iff (n : Nat) : f32Round n = 1 ↔ n = 1 := by
  constructor
  · intro h
    by_cases hn : n < 2 ^ 24
    · rw [f32Round_of_lt hn] at h
      exact h
    · exfalso
      have hge : 2 ^ 24 ≤ n := Nat.not_lt.mp hn
      have hd := f32Round_dvd n
      rw [h, f32Shift_succ_of_ge 127 hge, pow_succ] at hd
      have h2 : (2 : Nat) ∣ 1 := Dvd.dvd.trans (Dvd.intro_left _ rfl) hd
      omega
  · intro h
    subst h
    decide

/-! ## Lemmas on `CEILING` -/

theorem CEILING_eq_one_iff {r p k : Nat} (hr : r < timeCountMod) (hp : 0 < p)
    (hk : CEILING r p = some k) : k = 1 ↔ r ≤ p := by
  rw [CEILING_of_pos r p hr hp] at hk
  by_cases h0 : r = 0
  · simp [h0] at hk
    omega
  · simp [h0] at hk
    subst hk
    constructor
    · intro h
      have hz : (r - 1) / p = 0 := by omega
      have := (Nat.div_eq_zero_iff hp).mp hz
      omega
    · intro h
      have hz : (r - 1) / p = 0 := Nat.div_eq_of_lt (by omega)
      omega

theorem actualResponseTime_lt (a c : Nat) : actualResponseTime a c < timeCountMod := by
  unfold actualResponseTime
  split_ifs
  · exact wrapSub_lt (by decide) _ _
  · exact wrapAdd_lt (by decide) _ _

/-! ## One iteration of the superloop -/

/-- Case analysis of a completed iteration of `jobMeasure`. -/
theorem jobMeasure_some {t t' : RobotTask} {l l' : TaskLocals} {c : Nat}
    (h : jobMeasure t l c = some (t', l')) :
    ∃ k act, CEILING (actualResponseTime l.activationTime c) l.taskPeriod = some k ∧
      nextActivation l.activationTime (f32Round k) l.taskPeriod = some act ∧
      l' = { l with activationTime := act,
                    beforeResponseTime := actualResponseTime l.activationTime c } ∧
      t'.responseTime =
        wrapAdd timeCountMod t.responseTime (actualResponseTime l.activationTime c) ∧
      t'.avgResponseJitter =
        jitterUpdate t.avgResponseJitter l.numberOfExecs
          (actualResponseTime l.activationTime c) l.beforeResponseTime ∧
      t'.wcrt = (if actualResponseTime l.activationTime c > t.wcrt
                  then actualResponseTime l.activationTime c else t.wcrt) ∧
      t'.bcrt = (if actualResponseTime l.activationTime c < t.bcrt
                  then actualResponseTime l.activationTime c else t.bcrt) ∧
      t'.period = t.period ∧
      ((k = 1 ∧ t'.deadlineMet = wrapAdd uint32Mod t.deadlineMet 1 ∧
          t'.deadlineMiss = t.deadlineMiss ∧ t'.deadlineSkip = t.deadlineSkip) ∨
       (k ≠ 1 ∧ t'.deadlineMet = t.deadlineMet ∧
          t'.deadlineMiss = wrapAdd uint32Mod t.deadlineMiss 1 ∧
          skipUpdate t.deadlineSkip (f32Round k) = some t'.deadlineSkip)) := by
  unfold jobMeasure at h
  dsimp only at h
  cases hk : CEILING (actualResponseTime l.activationTime c) l.taskPeriod with
  | none =>
    rw [hk] at h
    exact absurd h (by simp)
  | some k =>
    rw [hk] at h
    cases hact : nextActivation l.activationTime (f32Round k) l.taskPeriod with
    | none =>
      dsimp only at h
      rw [hact] at h
      exact absurd h (by simp)
    | some act =>
      dsimp only at h
      rw [hact] at h
      dsimp only at h
      refine ⟨k, act, rfl, hact, ?_⟩
      by_cases h1 : f32Round k = 1
      · rw [if_pos h1] at h
        simp only [Option.some.injEq, Prod.mk.injEq] at h
        obtain ⟨ht, hl⟩ := h
        subst ht
        subst hl
        exact ⟨rfl, rfl, rfl, rfl, rfl, rfl,
          Or.inl ⟨(f32Round_eq_one_iff k).mp h1, rfl, rfl, rfl⟩⟩
      · rw [if_neg h1] at h
        cases hskip : skipUpdate t.deadlineSkip (f32Round k) with
        | none =>
          rw [hskip] at h
          exact absurd h (by simp)
        | some skip =>
          rw [hskip] at h
          simp only [Option.some.injEq, Prod.mk.injEq] at h
          obtain ⟨ht, hl⟩ := h
          subst ht
          subst hl
          exact ⟨rfl, rfl, rfl, rfl, rfl, rfl,
            Or.inr ⟨fun hk1 => h1 ((f32Round_eq_one_iff k).mpr hk1), rfl, rfl, rfl⟩⟩

/-- C3. For a completed job with response `r` and period `p > 0`, the task loop
counts a met deadline (`deadlineMet` plus one, `deadlineMiss` and `deadlineSkip`
unchanged) exactly when `r ≤ p`; otherwise it counts a missed deadline
(`deadlineMiss` plus one, `deadlineMet` unchanged) and the multiplier exceeds 1. -/
theorem job_deadline_classification (t t' : RobotTask) (l l' : TaskLocals) (c : Nat)
    (hp : 0 < l.taskPeriod)
    (hmet : t.deadlineMet + 1 < uint32Mod) (hmiss : t.deadlineMiss + 1 < uint32Mod)
    (h : jobMeasure t l c = some (t', l')) :
    (actualResponseTime l.activationTime c ≤ l.taskPeriod ↔
        (t'.deadlineMet = t.deadlineMet + 1 ∧ t'.deadlineMiss = t.deadlineMiss ∧
          t'.deadlineSkip = t.deadlineSkip)) ∧
      (l.taskPeriod < actualResponseTime l.activationTime c →
        t'.deadlineMiss = t.deadlineMiss + 1 ∧ t'.deadlineMet = t.deadlineMet ∧
          ∃ k, CEILING (actualResponseTime l.activationTime c) l.taskPeriod = some k ∧
            1 < k) := by
  obtain ⟨k, act, hk, -, -, -, -, -, -, -, hcase⟩ := jobMeasure_some h
  have hiff := CEILING_eq_one_iff (actualResponseTime_lt _ _) hp hk
  have hk0 : k ≠ 0 := by
    rw [CEILING_of_pos _ _ (actualResponseTime_lt _ _) hp] at hk
    intro hk0
    subst hk0
    split_ifs at hk <;> simp at hk
  rcases hcase with ⟨hk1, h1, h2, h3⟩ | ⟨hk1, h1, h2, -⟩
  · have hle := hiff.mp hk1
    rw [wrapAdd_of_lt hmet] at h1
    exact ⟨⟨fun _ => ⟨h1, h2, h3⟩, fun _ => hle⟩, fun hlt => absurd hle (Nat.not_le.mpr hlt)⟩
  · have hnle : ¬ actualResponseTime l.activationTime c ≤ l.taskPeriod :=
      fun hle => hk1 (hiff.mpr hle)
    rw [wrapAdd_of_lt hmiss] at h2
    refine ⟨⟨fun hle => absurd hle hnle, fun hh => ?_⟩, fun _ => ⟨h2, h1, k, hk, by omega⟩⟩
    exfalso
    have h3 := hh.2.1
    rw [h2] at h3
    omega

/-- Witness for C3: period 10; a job activated at 0 that completes at 15 is a miss. -/
theorem job_deadline_classification_witness :
    (actualResponseTime 0 15 ≤ 10 ↔
        ((0 : Nat) = 0 + 1 ∧ (1 : Nat) = 0 ∧ (2 : Nat) = 0)) ∧
      (10 < actualResponseTime 0 15 →
        (1 : Nat) = 0 + 1 ∧ (0 : Nat) = 0 ∧
          ∃ k, CEILING (actualResponseTime 0 15) 10 = some k ∧ 1 < k) :=
  job_deadline_classification
    { period := 10, responseTime := 0, avgResponseJitter := 0, wcrt := 0, bcrt := 100000,
      deadlineMiss := 0, deadlineMet := 0, deadlineSkip := 0, workload := 0,
      messageSize := 0, priority := 2, id := 1 }
    { period := 10, responseTime := 15, avgResponseJitter := 0, wcrt := 15, bcrt := 15,
      deadlineMiss := 1, deadlineMet := 0, deadlineSkip := 2, workload := 0,
      messageSize := 0, priority := 2, id := 1 }
    { activationTime := 0, beforeResponseTime := 0, numberOfExecs := 1, taskPeriod := 10 }
    { activationTime := 20, beforeResponseTime := 15, numberOfExecs := 1, taskPeriod := 10 }
    15 (by decide) (by decide) (by decide) (by decide)

/-! ## The superloop as a whole -/

theorem superloop_cons {t : RobotTask} {l : TaskLocals} {c : Nat} {cs : List Nat}
    {res : RobotTask × Nat} (h : superloop t l (c :: cs) = some res) :
    ∃ t' l', jobMeasure t (startJob l) c = some (t', l') ∧ superloop t' l' cs = some res ∧
      jobRecords t l (c :: cs) =
        { response := actualResponseTime l.activationTime c,
          multiplier := (CEILING (actualResponseTime l.activationTime c) l.taskPeriod).getD 0,
          activation := l'.activationTime } :: jobRecords t' l' cs := by
  rw [superloop] at h
  cases hj : jobMeasure t (startJob l) c with
  | none =>
    rw [hj] at h
    exact absurd h (by simp)
  | some r =>
    obtain ⟨t', l'⟩ := r
    rw [hj] at h
    refine ⟨t', l', rfl, h, ?_⟩
    rw [jobRecords, hj]

theorem superloop_nil {t : RobotTask} {l : TaskLocals} {res : RobotTask × Nat}
    (h : superloop t l [] = some res) :
    wrapSub uint32Mod (wrapAdd uint32Mod l.numberOfExecs 1) 1 ≠ 0 ∧
      res.2 = wrapAdd uint32Mod l.numberOfExecs 1 ∧
      res.1 = { t with
        responseTime :=
          t.responseTime / wrapSub uint32Mod (wrapAdd uint32Mod l.numberOfExecs 1) 1,
        avgResponseJitter :=
          t.avgResponseJitter / wrapSub uint32Mod (wrapAdd uint32Mod l.numberOfExecs 1) 1 } := by
  rw [superloop] at h
  unfold finalize startJob at h
  dsimp only at h
  by_cases hd : wrapSub uint32Mod (wrapAdd uint32Mod l.numberOfExecs 1) 1 = 0
  · rw [if_pos hd] at h
    exact absurd h (by simp)
  · rw [if_neg hd] at h
    simp only [Option.map_some', Option.some.injEq] at h
    subst h
    exact ⟨hd, rfl, rfl⟩

theorem startJob_fields (l : TaskLocals) :
    (startJob l).activationTime = l.activationTime ∧
      (startJob l).beforeResponseTime = l.beforeResponseTime ∧
      (startJob l).taskPeriod = l.taskPeriod ∧
      (startJob l).numberOfExecs = wrapAdd uint32Mod l.numberOfExecs 1 :=
  ⟨rfl, rfl, rfl, rfl⟩

/-- Length invariant of the superloop: the number of jobs started and the number of
job records. -/
theorem superloop_length (cs : List Nat) :
    ∀ (t : RobotTask) (l : TaskLocals) (tf : RobotTask) (n : Nat),
      superloop t l cs = some (tf, n) →
      l.numberOfExecs + cs.length + 1 < uint32Mod →
      n = l.numberOfExecs + cs.length + 1 ∧ (jobRecords t l cs).length = cs.length := by
  induction cs with
  | nil =>
    intro t l tf n h hn
    obtain ⟨-, h2, -⟩ := superloop_nil h
    simp only at h2
    rw [wrapAdd_of_lt (by simpa using hn)] at h2
    exact ⟨by simpa using h2, rfl⟩
  | cons c cs ih =>
    intro t l tf n h hn
    obtain ⟨t', l', hj, hs, hrec⟩ := superloop_cons h
    obtain ⟨k, act, -, -, hl', -, -, -, -, -, -⟩ := jobMeasure_some hj
    simp only [List.length_cons] at hn ⊢
    have hne : l'.numberOfExecs = l.numberOfExecs + 1 := by
      rw [hl']
      show wrapAdd uint32Mod l.numberOfExecs 1 = _
      exact wrapAdd_of_lt (by omega)
    obtain ⟨r1, r3⟩ := ih t' l' tf n hs (by omega)
    refine ⟨by omega, ?_⟩
    rw [hrec, List.length_cons, r3]

/-- Counting invariant of the superloop: every completed job is classified once. -/
theorem superloop_counts (cs : List Nat) :
    ∀ (t : RobotTask) (l : TaskLocals) (tf : RobotTask) (n : Nat),
      superloop t l cs = some (tf, n) →
      t.deadlineMet + t.deadlineMiss + cs.length < uint32Mod →
      tf.deadlineMet + tf.deadlineMiss = t.deadlineMet + t.deadlineMiss + cs.length := by
  induction cs with
  | nil =>
    intro t l tf n h _
    obtain ⟨-, -, h3⟩ := superloop_nil h
    simp only at h3
    subst h3
    rfl
  | cons c cs ih =>
    intro t l tf n h hc
    obtain ⟨t', l', hj, hs, -⟩ := superloop_cons h
    obtain ⟨k, act, -, -, -, -, -, -, -, -, hcase⟩ := jobMeasure_some hj
    simp only [List.length_cons] at hc ⊢
    have hsum : t'.deadlineMet + t'.deadlineMiss = t.deadlineMet + t.deadlineMiss + 1 := by
      rcases hcase with ⟨-, h1, h2, -⟩ | ⟨-, h1, h2, -⟩
      · rw [h1, h2, wrapAdd_of_lt (by omega)]
        omega
      · rw [h1, h2, wrapAdd_of_lt (by omega)]
        omega
    have := ih t' l' tf n hs (by omega)
    omega

/-- C5. When a synthetic task leaves its superloop after having started `n` jobs
(`n = numberOfExecs`, counters cleared at the step start), `deadlineMet +
deadlineMiss = n - 1`: every job but the interrupted last one is counted once. -/
theorem met_plus_miss_eq_jobs_minus_one (t : RobotTask) (initTime : Nat) (cs : List Nat)
    (tf : RobotTask) (n : Nat)
    (hmet : t.deadlineMet = 0) (hmiss : t.deadlineMiss = 0)
    (hlen : cs.length + 1 < uint32Mod)
    (h : TaskCode t initTime cs = some (tf, n)) :
    n = cs.length + 1 ∧ tf.deadlineMet + tf.deadlineMiss = n - 1 := by
  unfold TaskCode at h
  obtain ⟨h1, -⟩ := superloop_length cs t (entryLocals t initTime) tf n h
    (by simpa [entryLocals] using hlen)
  have h2 := superloop_counts cs t (entryLocals t initTime) tf n h (by rw [hmet, hmiss]; omega)
  simp only [entryLocals, Nat.zero_add] at h1
  rw [hmet, hmiss] at h2
  exact ⟨h1, by omega⟩

/-- The skip counter is exact while its value stays below `2^24`. -/
theorem skipUpdate_exact {s k : Nat} (h : s + k < 2 ^ 24) :
    skipUpdate s (f32Round k) = some (s + k) := by
  have hs : s < 2 ^ 24 := by omega
  have hk : k < 2 ^ 24 := by omega
  unfold skipUpdate floatToUInt
  rw [f32Round_of_lt hs, f32Round_of_lt hk, f32Round_of_lt h, if_pos]
  unfold uint32Mod
  omega

theorem missedMultipliers_cons (r : JobRecord) (rs : List JobRecord) :
    missedMultipliers (r :: rs) =
      if r.multiplier ≠ 1 then r.multiplier :: missedMultipliers rs
      else missedMultipliers rs := by
  unfold missedMultipliers
  by_cases h : r.multiplier ≠ 1
  · rw [if_pos h, List.filter_cons_of_pos (by simpa using h), List.map_cons]
  · rw [if_neg h, List.filter_cons_of_neg (by simpa using h)]

/-- Skip invariant of the superloop: `deadlineSkip` grows by the multiplier of every
missed job. -/
theorem superloop_skip (cs : List Nat) :
    ∀ (t : RobotTask) (l : TaskLocals) (tf : RobotTask) (n : Nat),
      superloop t l cs = some (tf, n) →
      t.deadlineSkip + (missedMultipliers (jobRecords t l cs)).sum < 2 ^ 24 →
      tf.deadlineSkip = t.deadlineSkip + (missedMultipliers (jobRecords t l cs)).sum := by
  induction cs with
  | nil =>
    intro t l tf n h _
    obtain ⟨-, -, h3⟩ := superloop_nil h
    simp only at h3
    subst h3
    simp [jobRecords, missedMultipliers]
  | cons c cs ih =>
    intro t l tf n h hb
    obtain ⟨t', l', hj, hs, hrec⟩ := superloop_cons h
    obtain ⟨k, act, hk, -, -, -, -, -, -, -, hcase⟩ := jobMeasure_some hj
    rw [(startJob_fields l).1, (startJob_fields l).2.2.1] at hk
    rw [hrec, missedMultipliers_cons] at hb ⊢
    simp only [hk, Option.getD_some] at hb ⊢
    rcases hcase with ⟨hk1, -, -, h3⟩ | ⟨hk1, -, -, h3⟩
    · rw [if_neg (by simpa using hk1)] at hb ⊢
      rw [ih t' l' tf n hs (by rw [h3]; exact hb), h3]
    · rw [if_pos hk1, List.sum_cons] at hb ⊢
      rw [skipUpdate_exact (by omega)] at h3
      have h4 : t'.deadlineSkip = t.deadlineSkip + k := (Option.some.inj h3).symm
      rw [ih t' l' tf n hs (by rw [h4]; omega), h4]
      omega

/-- C4 (as amended). At the end of a test step a task's `deadlineSkip` equals the sum
of the multipliers `k_i` of the jobs it missed in that step (not of `k_i - 1`), as
long as that sum stays below `2^24`, where the `float` accumulation is exact. -/
theorem deadlineSkip_eq_sum_multipliers (t : RobotTask) (initTime : Nat) (cs : List Nat)
    (tf : RobotTask) (n : Nat)
    (hclr : t.deadlineSkip = 0)
    (hsmall : (missedMultipliers (jobRecords t (entryLocals t initTime) cs)).sum < 2 ^ 24)
    (h : TaskCode t initTime cs = some (tf, n)) :
    tf.deadlineSkip = (missedMultipliers (jobRecords t (entryLocals t initTime) cs)).sum := by
  have := superloop_skip cs t (entryLocals t initTime) tf n h (by rw [hclr]; omega)
  rw [this, hclr, Nat.zero_add]

theorem wrapSub_wrapAdd {w j a b : Nat} (hba : b ≤ a) (hb : b < w) (h : j + (a - b) < w) :
    wrapSub w (wrapAdd w j a) b = j + (a - b) := by
  unfold wrapSub wrapAdd
  rw [Nat.mod_eq_of_lt hb, Nat.mod_add_mod]
  have h1 : j + a + (w - b) = j + (a - b) + w := by omega
  rw [h1, Nat.add_mod_right]
  exact Nat.mod_eq_of_lt h

theorem jitterUpdate_exact {j n actual before : Nat} (hn : n ≠ 1)
    (ha : actual < timeCountMod) (hb : before < timeCountMod)
    (h : j + (if actual > before then actual - before else before - actual) < timeCountMod) :
    jitterUpdate j n actual before =
      j + (if actual > before then actual - before else before - actual) := by
  unfold jitterUpdate
  rw [if_pos hn]
  by_cases hgt : actual > before
  · rw [if_pos hgt, if_pos hgt]
    rw [if_pos hgt] at h
    exact wrapSub_wrapAdd (Nat.le_of_lt hgt) hb h
  · rw [if_neg hgt, if_neg hgt]
    rw [if_neg hgt] at h
    exact wrapSub_wrapAdd (Nat.not_lt.mp hgt) ha h

/-- Response invariant of the superloop: `responseTime` holds the exact sum of the
responses, which is divided by `numberOfExecs - 1` on exit. -/
theorem superloop_response_sum (cs : List Nat) :
    ∀ (t : RobotTask) (l : TaskLocals) (tf : RobotTask) (n : Nat),
      superloop t l cs = some (tf, n) →
      l.numberOfExecs + cs.length + 1 < uint32Mod →
      t.responseTime + (responsesOf (jobRecords t l cs)).sum < timeCountMod →
      tf.responseTime = (t.responseTime + (responsesOf (jobRecords t l cs)).sum) / (n - 1) := by
  induction cs with
  | nil =>
    intro t l tf n h hn _
    obtain ⟨-, h2, h3⟩ := superloop_nil h
    simp only at h2 h3
    simp only [List.length_nil, Nat.add_zero] at hn
    rw [wrapAdd_of_lt hn, wrapSub_of_le (by omega) hn] at h3
    rw [wrapAdd_of_lt hn] at h2
    subst h3
    subst h2
    simp [jobRecords, responsesOf]
  | cons c cs ih =>
    intro t l tf n h hn hsum
    obtain ⟨t', l', hj, hs, hrec⟩ := superloop_cons h
    obtain ⟨k, act, -, -, hl', hresp, -, -, -, -, -⟩ := jobMeasure_some hj
    simp only [List.length_cons] at hn
    rw [(startJob_fields l).1] at hresp
    have hne : l'.numberOfExecs = l.numberOfExecs + 1 := by
      rw [hl']
      show wrapAdd uint32Mod l.numberOfExecs 1 = _
      exact wrapAdd_of_lt (by omega)
    rw [hrec] at hsum ⊢
    simp only [responsesOf, List.map_cons, List.sum_cons] at hsum ⊢
    simp only [responsesOf] at ih
    rw [wrapAdd_of_lt (by omega)] at hresp
    rw [ih t' l' tf n hs (by omega) (by rw [hresp]; omega), hresp, Nat.add_assoc]

/-- Jitter invariant of the superloop: `avgResponseJitter` holds the exact sum of the
absolute response differences, which is divided by `numberOfExecs - 1` on exit. -/
theorem superloop_jitter_sum (cs : List Nat) :
    ∀ (t : RobotTask) (l : TaskLocals) (tf : RobotTask) (n : Nat),
      superloop t l cs = some (tf, n) →
      l.numberOfExecs + cs.length + 1 < uint32Mod →
      l.beforeResponseTime < timeCountMod →
      t.avgResponseJitter + pendingJitter l (responsesOf (jobRecords t l cs)) < timeCountMod →
      tf.avgResponseJitter =
        (t.avgResponseJitter + pendingJitter l (responsesOf (jobRecords t l cs))) / (n - 1) := by
  induction cs with
  | nil =>
    intro t l tf n h hn _ _
    obtain ⟨-, h2, h3⟩ := superloop_nil h
    simp only at h2 h3
    simp only [List.length_nil, Nat.add_zero] at hn
    rw [wrapAdd_of_lt hn, wrapSub_of_le (by omega) hn] at h3
    rw [wrapAdd_of_lt hn] at h2
    subst h3
    subst h2
    simp [jobRecords, responsesOf, pendingJitter, jitterSum, jitterSumFrom]
  | cons c cs ih =>
    intro t l tf n h hn hbef hjit
    obtain ⟨t', l', hj, hs, hrec⟩ := superloop_cons h
    obtain ⟨k, act, -, -, hl', -, hjitter, -, -, -, -⟩ := jobMeasure_some hj
    simp only [List.length_cons] at hn
    rw [(startJob_fields l).1] at hjitter
    rw [(startJob_fields l).2.1, (startJob_fields l).2.2.2, wrapAdd_of_lt (by omega)] at hjitter
    have hr := actualResponseTime_lt l.activationTime c
    have hne : l'.numberOfExecs = l.numberOfExecs + 1 := by
      rw [hl']
      show wrapAdd uint32Mod l.numberOfExecs 1 = _
      exact wrapAdd_of_lt (by omega)
    have hbe : l'.beforeResponseTime = actualResponseTime l.activationTime c := by
      rw [hl']
      rfl
    have hpend : pendingJitter l' (responsesOf (jobRecords t' l' cs)) =
        jitterSumFrom (actualResponseTime l.activationTime c)
          (responsesOf (jobRecords t' l' cs)) := by
      unfold pendingJitter
      rw [if_neg (by omega), hbe]
    rw [hrec] at hjit ⊢
    simp only [responsesOf, List.map_cons] at hjit ⊢
    simp only [responsesOf] at hpend ih
    have hj' : t'.avgResponseJitter + jitterSumFrom (actualResponseTime l.activationTime c)
          (List.map JobRecord.response (jobRecords t' l' cs)) =
        t.avgResponseJitter + pendingJitter l
          (actualResponseTime l.activationTime c ::
            List.map JobRecord.response (jobRecords t' l' cs)) := by
      unfold pendingJitter at hjit ⊢
      by_cases h0 : l.numberOfExecs = 0
      · rw [if_pos h0] at hjit ⊢
        rw [hjitter, h0]
        simp [jitterUpdate, jitterSum]
      · rw [if_neg h0] at hjit ⊢
        simp only [jitterSumFrom] at hjit ⊢
        rw [hjitter, jitterUpdate_exact (by omega) hr hbef (by omega)]
        omega
    have := ih t' l' tf n hs (by omega) (by rw [hbe]; exact hr)
      (by rw [hpend, hj']; exact hjit)
    rw [hpend, hj'] at this
    exact this

/-- Extremes invariant of the superloop: `wcrt` dominates and `bcrt` is dominated by
every response of the run. -/
theorem superloop_bounds (cs : List Nat) :
    ∀ (t : RobotTask) (l : TaskLocals) (tf : RobotTask) (n : Nat),
      superloop t l cs = some (tf, n) →
      (t.wcrt ≤ tf.wcrt ∧ tf.bcrt ≤ t.bcrt) ∧
        ∀ r ∈ responsesOf (jobRecords t l cs), r ≤ tf.wcrt ∧ tf.bcrt ≤ r := by
  induction cs with
  | nil =>
    intro t l tf n h
    obtain ⟨-, -, h3⟩ := superloop_nil h
    simp only at h3
    subst h3
    simp [jobRecords, responsesOf]
  | cons c cs ih =>
    intro t l tf n h
    obtain ⟨t', l', hj, hs, hrec⟩ := superloop_cons h
    obtain ⟨k, act, -, -, -, -, -, hw, hb, -, -⟩ := jobMeasure_some hj
    rw [(startJob_fields l).1] at hw hb
    obtain ⟨⟨i1, i2⟩, i3⟩ := ih t' l' tf n hs
    have hw1 : t.wcrt ≤ t'.wcrt ∧ actualResponseTime l.activationTime c ≤ t'.wcrt := by
      rw [hw]
      split_ifs <;> omega
    have hb1 : t'.bcrt ≤ t.bcrt ∧ t'.bcrt ≤ actualResponseTime l.activationTime c := by
      rw [hb]
      split_ifs <;> omega
    refine ⟨⟨by omega, by omega⟩, ?_⟩
    intro r hr
    rw [hrec] at hr
    simp only [responsesOf, List.map_cons, List.mem_cons] at hr
    rcases hr with hr | hr
    · subst hr
      exact ⟨by omega, by omega⟩
    · exact i3 r hr

/-- C6. When the stop flag is observed during job `n ≥ 2`, with completed responses
`r_1..r_(n-1)`, the final `responseTime` is `(r_1 + ... + r_(n-1)) / (n - 1)` and the
final `avgResponseJitter` is `(sum over i = 2..n-1 of |r_i - r_(i-1)|) / (n - 1)`;
the interrupted job `n` contributes to neither.  The sums are those of the step
(accumulators cleared) and fit in a `timeCount_t`. -/
theorem final_averages (t : RobotTask) (initTime : Nat) (cs : List Nat)
    (tf : RobotTask) (n : Nat)
    (hresp : t.responseTime = 0) (hjit : t.avgResponseJitter = 0)
    (hlen : cs.length + 1 < uint32Mod)
    (hsum : (responsesOf (jobRecords t (entryLocals t initTime) cs)).sum < timeCountMod)
    (hjs : jitterSum (responsesOf (jobRecords t (entryLocals t initTime) cs)) < timeCountMod)
    (h : TaskCode t initTime cs = some (tf, n)) :
    2 ≤ n ∧ (responsesOf (jobRecords t (entryLocals t initTime) cs)).length = n - 1 ∧
      tf.responseTime =
        (responsesOf (jobRecords t (entryLocals t initTime) cs)).sum / (n - 1) ∧
      tf.avgResponseJitter =
        jitterSum (responsesOf (jobRecords t (entryLocals t initTime) cs)) / (n - 1) := by
  unfold TaskCode at h
  have hcs : cs ≠ [] := by
    intro h0
    subst h0
    obtain ⟨h1, -, -⟩ := superloop_nil h
    exact h1 (by simp [entryLocals, wrapAdd, wrapSub, uint32Mod])
  have hpos : 0 < cs.length := List.length_pos.mpr hcs
  obtain ⟨h1, h3⟩ := superloop_length cs t (entryLocals t initTime) tf n h
    (by simpa [entryLocals] using hlen)
  simp only [entryLocals, Nat.zero_add] at h1
  have hs1 := superloop_response_sum cs t (entryLocals t initTime) tf n h
    (by simpa [entryLocals] using hlen) (by rw [hresp, Nat.zero_add]; exact hsum)
  have hs2 := superloop_jitter_sum cs t (entryLocals t initTime) tf n h
    (by simpa [entryLocals] using hlen) (by simp [entryLocals, timeCountMod])
    (by rw [hjit, Nat.zero_add]; simpa [pendingJitter, entryLocals] using hjs)
  rw [hresp, Nat.zero_add] at hs1
  rw [hjit, Nat.zero_add] at hs2
  refine ⟨by omega, ?_, hs1, ?_⟩
  · rw [responsesOf, List.length_map, h3, h1]
    omega
  · rw [hs2]
    simp [pendingJitter, entryLocals]

/-- C7. For every step in which the task completed at least one job before observing
the stop flag (response sum cleared at the step start and fitting a `timeCount_t`),
after the superloop exits `wcrt ≥ responseTime` (the finalized average) `≥ bcrt`. -/
theorem wcrt_ge_average_ge_bcrt (t : RobotTask) (initTime : Nat) (cs : List Nat)
    (tf : RobotTask) (n : Nat)
    (hresp : t.responseTime = 0)
    (hlen : cs.length + 1 < uint32Mod)
    (hsum : (responsesOf (jobRecords t (entryLocals t initTime) cs)).sum < timeCountMod)
    (h : TaskCode t initTime cs = some (tf, n)) :
    cs ≠ [] ∧ tf.responseTime ≤ tf.wcrt ∧ tf.bcrt ≤ tf.responseTime := by
  unfold TaskCode at h
  have hcs : cs ≠ [] := by
    intro h0
    subst h0
    obtain ⟨h1, -, -⟩ := superloop_nil h
    exact h1 (by simp [entryLocals, wrapAdd, wrapSub, uint32Mod])
  have hpos : 0 < cs.length := List.length_pos.mpr hcs
  obtain ⟨h1, h3⟩ := superloop_length cs t (entryLocals t initTime) tf n h
    (by simpa [entryLocals] using hlen)
  simp only [entryLocals, Nat.zero_add] at h1
  have hs1 := superloop_response_sum cs t (entryLocals t initTime) tf n h
    (by simpa [entryLocals] using hlen) (by rw [hresp, Nat.zero_add]; exact hsum)
  rw [hresp, Nat.zero_add] at hs1
  obtain ⟨-, hb⟩ := superloop_bounds cs t (entryLocals t initTime) tf n h
  have hlenr : (responsesOf (jobRecords t (entryLocals t initTime) cs)).length = n - 1 := by
    rw [responsesOf, List.length_map, h3, h1]
    omega
  have hn1 : 0 < n - 1 := by omega
  have hup : (responsesOf (jobRecords t (entryLocals t initTime) cs)).sum ≤
      (n - 1) * tf.wcrt := by
    have := List.sum_le_card_nsmul _ tf.wcrt (fun r hr => (hb r hr).1)
    rwa [hlenr, smul_eq_mul] at this
  have hlo : (n - 1) * tf.bcrt ≤
      (responsesOf (jobRecords t (entryLocals t initTime) cs)).sum := by
    have := List.card_nsmul_le_sum _ tf.bcrt (fun r hr => (hb r hr).2)
    rwa [hlenr, smul_eq_mul] at this
  refine ⟨hcs, ?_, ?_⟩
  · rw [hs1]
    exact Nat.div_le_of_le_mul hup
  · rw [hs1]
    exact (Nat.le_div_iff_mul_le hn1).mpr (by rw [Nat.mul_comm]; exact hlo)

/-! ## Sample runs and witnesses -/

theorem sample_run : TaskCode sampleTask 0 sampleCompletions = some (sampleFinal, 5) := by
  decide

/-- Witness for C5 on the sample run: five jobs started, two met and two missed. -/
theorem met_plus_miss_eq_jobs_minus_one_witness :
    5 = sampleCompletions.length + 1 ∧
      sampleFinal.deadlineMet + sampleFinal.deadlineMiss = 5 - 1 :=
  met_plus_miss_eq_jobs_minus_one sampleTask 0 sampleCompletions sampleFinal 5
    (by decide) (by decide) (by decide) sample_run

/-- C4 (counterexample). A single job of period 10 that responds after 15 ticks is
missed with multiplier 2; the step ends with `deadlineSkip = 2`, whereas the sum of
`k_i - 1` over the missed jobs is 1. -/
theorem deadlineSkip_single_miss :
    (TaskCode sampleTask 0 [15]).map (fun r => r.1.deadlineSkip) = some 2 ∧
      missedMultipliers (jobRecords sampleTask (entryLocals sampleTask 0) [15]) = [2] ∧
      ((missedMultipliers (jobRecords sampleTask (entryLocals sampleTask 0) [15])).map
        (fun k => k - 1)).sum = 1 ∧
      (TaskCode sampleTask 0 [15]).map (fun r => r.1.deadlineSkip) ≠
        some ((missedMultipliers (jobRecords sampleTask (entryLocals sampleTask 0) [15])).map
          (fun k => k - 1)).sum := by
  decide

/-- Witness for C4 (as amended) on the sample run: multipliers 2 and 4, skip 6. -/
theorem deadlineSkip_eq_sum_multipliers_witness :
    sampleFinal.deadlineSkip =
      (missedMultipliers (jobRecords sampleTask (entryLocals sampleTask 0)
        sampleCompletions)).sum :=
  deadlineSkip_eq_sum_multipliers sampleTask 0 sampleCompletions sampleFinal 5
    (by decide) (by decide) sample_run

/-- Witness for C6 on the sample run: responses 15, 3, 1, 35; average 54 / 4 and
jitter (12 + 2 + 34) / 4. -/
theorem final_averages_witness :
    2 ≤ 5 ∧
      (responsesOf (jobRecords sampleTask (entryLocals sampleTask 0)
        sampleCompletions)).length = 5 - 1 ∧
      sampleFinal.responseTime =
        (responsesOf (jobRecords sampleTask (entryLocals sampleTask 0)
          sampleCompletions)).sum / (5 - 1) ∧
      sampleFinal.avgResponseJitter =
        jitterSum (responsesOf (jobRecords sampleTask (entryLocals sampleTask 0)
          sampleCompletions)) / (5 - 1) :=
  final_averages sampleTask 0 sampleCompletions sampleFinal 5
    (by decide) (by decide) (by decide) (by decide) (by decide) sample_run

/-- Witness for C7 on the sample run: `35 ≥ 13 ≥ 1`. -/
theorem wcrt_ge_average_ge_bcrt_witness :
    sampleCompletions ≠ [] ∧ sampleFinal.responseTime ≤ sampleFinal.wcrt ∧
      sampleFinal.bcrt ≤ sampleFinal.responseTime :=
  wcrt_ge_average_ge_bcrt sampleTask 0 sampleCompletions sampleFinal 5
    (by decide) (by decide) (by decide) sample_run

/-- C8 (evaluation). A 30 Hz task (period 33333333 ns) released at
`initial_time = 10^12` ns whose first job completes 10 ms later has multiplier 1, yet
the activation passed to `DelayUntil` is 1000033353728 and not
`10^12 + 33333333 = 1000033333333`: the sum is formed in single precision.  The
offset from `initial_time` is not a multiple of the period. -/
theorem activation_not_aligned :
    (jobRecords driftTask (entryLocals driftTask 1000000000000) [1000010000000]).map
        (fun r => (r.multiplier, r.activation)) = [(1, 1000033353728)] ∧
      1000033353728 ≠ 1000000000000 + 33333333 * 1 ∧
      (1000033353728 - 1000000000000) % 33333333 ≠ 0 := by
  decide

/-! ## The handshake -/

theorem Link.each_iff (P : Link → Prop) (l : List Link) :
    Link.each P l ↔ ∀ s ∈ l, P s := by
  induction l with
  | nil => simp [Link.each]
  | cons s rest ih => simp [Link.each, ih]

/-- What `allRuns` gives for every reachable state. -/
theorem Link.allRuns_reaches {P : Link → Prop} {s s' : Link} (hr : Link.Reaches s s') :
    ∀ fuel, Link.allRuns P fuel s →
      s'.sender.halted = false ∧ s'.receiver.halted = false ∧ (s'.succs = [] → P s') := by
  induction hr with
  | refl s =>
    intro fuel h
    cases fuel with
    | zero => exact absurd h (by simp [Link.allRuns])
    | succ f =>
      obtain ⟨h1, h2, h3, -⟩ := h
      exact ⟨h1, h2, h3⟩
  | step hmem _ ih =>
    intro fuel h
    cases fuel with
    | zero => exact absurd h (by simp [Link.allRuns])
    | succ f =>
      obtain ⟨-, -, -, h4⟩ := h
      exact ih f ((Link.each_iff _ _).mp h4 _ hmem)

/-- C9. For every message `m`, when one peer runs `HandshakeSend(m)` and the other
`HandshakeReceive(out)` over the two management topics with reliable in-order
delivery, every interleaving stops within 13 actions, neither side reaches `exit`,
and when both have stopped the sender has returned and the receiver has returned
with `out = m`. -/
theorem handshake_delivers (period m : Nat) :
    Link.allRuns (fun s => s.sender = .ret () ∧ s.receiver = .ret m) 14
        (handshakeStart period m) ∧
      ∀ s, Link.Reaches (handshakeStart period m) s →
        s.sender.halted = false ∧ s.receiver.halted = false ∧
          (s.succs = [] → s.sender = .ret () ∧ s.receiver = .ret m) := by
  have h : Link.allRuns (fun s => s.sender = .ret () ∧ s.receiver = .ret m) 14
      (handshakeStart period m) := by
    simp [Link.allRuns, Link.each, Link.succs, Link.stepSender, Link.stepReceiver, Proc.step,
      Proc.halted, handshakeStart, HandshakeSend, HandshakeReceive, handshakeMsgStep1,
      handshakeMsgStep2]
  exact ⟨h, fun s hr => Link.allRuns_reaches hr 14 h⟩

/-- C10. `HandshakeSend` ends in `exit(1)` exactly when the first value it receives
differs from 666 or the second differs from 667, and `HandshakeReceive` exactly when
the first value it receives differs from 666; when `HandshakeSend` fails on the first
reply it has printed the step 1 diagnostic and published only the sentinel, never the
payload. -/
theorem handshake_exit_conditions (period message v1 v2 : Nat) (rest : List Nat) :
    (((HandshakeSend period message).run (v1 :: v2 :: rest)).outcome = .exited 1 ↔
        (v1 ≠ 666 ∨ v2 ≠ 667)) ∧
      (((HandshakeReceive period).run (v1 :: rest)).outcome = .exited 1 ↔ v1 ≠ 666) ∧
      (v1 ≠ 666 →
        (HandshakeSend period message).run (v1 :: rest) =
          { published := [666],
            printed := ["Handshake Send Error: invalid response message in step 1.\n"],
            outcome := .exited 1 }) := by
  refine ⟨?_, ?_, ?_⟩
  · by_cases h1 : v1 = 666
    · by_cases h2 : v2 = 667
      · simp [HandshakeSend, Proc.run, handshakeMsgStep1, handshakeMsgStep2, h1, h2]
      · simp [HandshakeSend, Proc.run, handshakeMsgStep1, handshakeMsgStep2, h1, h2]
    · simp [HandshakeSend, Proc.run, handshakeMsgStep1, handshakeMsgStep2, h1]
  · by_cases h1 : v1 = 666
    · subst h1
      cases rest <;> simp [HandshakeReceive, Proc.run, handshakeMsgStep1, handshakeMsgStep2]
    · simp [HandshakeReceive, Proc.run, handshakeMsgStep1, handshakeMsgStep2, h1]
  · intro h1
    simp [HandshakeSend, Proc.run, handshakeMsgStep1, handshakeMsgStep2, h1]

/-- Witness for C10: the peer answers 665 instead of 666. -/
theorem handshake_exit_conditions_witness :
    (HandshakeSend 1000000000 2).run [665] =
      { published := [666],
        printed := ["Handshake Send Error: invalid response message in step 1.\n"],
        outcome := .exited 1 } :=
  (handshake_exit_conditions 1000000000 2 665 0 []).2.2 (by decide)

/-- A complete run of the handshake with payload 42: the sender moves whenever it can. -/
theorem handshake_sample_run :
    Link.Reaches (handshakeStart 1000000000 42) (handshakeDone 42) := by
  repeat (refine Link.Reaches.step (List.Mem.head _) ?_)
  exact Link.Reaches.refl _

/-- Witness for C9: the state reached at the end of the sample run. -/
theorem handshake_delivers_witness :
    (handshakeDone 42).sender.halted = false ∧ (handshakeDone 42).receiver.halted = false ∧
      ((handshakeDone 42).succs = [] →
        (handshakeDone 42).sender = .ret () ∧ (handshakeDone 42).receiver = .ret 42) :=
  (handshake_delivers 1000000000 42).2 _ handshake_sample_run

/-! ## Definedness of one iteration -/

theorem f32Shift_bound (fuel : Nat) :
    ∀ n, f32Shift fuel n = 0 ∨ 2 ^ f32Shift fuel n * 2 ^ 23 ≤ n := by
  induction fuel with
  | zero => intro n; exact Or.inl rfl
  | succ f ih =>
    intro n
    by_cases h : n < 2 ^ 24
    · exact Or.inl (f32Shift_of_lt _ h)
    · right
      rw [f32Shift_succ_of_ge f (Nat.not_lt.mp h), pow_succ]
      rcases ih (n / 2) with h0 | h1
      · rw [h0]
        omega
      · omega

/-- Rounding to single precision at most doubles a non-negative integer. -/
theorem f32Round_le (n : Nat) : f32Round n ≤ 2 * n := by
  have hq : n / 2 ^ f32Shift 128 n * 2 ^ f32Shift 128 n ≤ n := Nat.div_mul_le_self _ _
  have hup : (n / 2 ^ f32Shift 128 n + 1) * 2 ^ f32Shift 128 n ≤ 2 * n ∨
      f32Shift 128 n = 0 := by
    rcases f32Shift_bound 128 n with h0 | h1
    · exact Or.inr h0
    · left
      have hpos : 0 < 2 ^ f32Shift 128 n := Nat.two_pow_pos _
      have : 2 ^ f32Shift 128 n ≤ n := by nlinarith
      rw [Nat.add_mul, Nat.one_mul]
      omega
  unfold f32Round
  dsimp only
  rcases hup with hup | h0
  · split_ifs <;> omega
  · rw [h0]
    simp only [pow_zero, Nat.mod_one, Nat.div_one, Nat.mul_one, Nat.mul_zero]
    split_ifs <;> omega

theorem CEILING_mul_le {r p k : Nat} (hr : r < timeCountMod) (hp : 0 < p)
    (hk : CEILING r p = some k) : k * p ≤ r + p ∧ k ≤ r + 1 := by
  rw [CEILING_of_pos r p hr hp] at hk
  by_cases h0 : r = 0
  · simp [h0] at hk
    subst hk
    omega
  · simp [h0] at hk
    subst hk
    have h1 : (r - 1) / p * p ≤ r - 1 := Nat.div_mul_le_self _ _
    have h2 : (r - 1) / p ≤ r - 1 := Nat.div_le_self _ _
    constructor
    · rw [Nat.add_mul, Nat.one_mul]
      omega
    · omega

/-- One iteration of the superloop is defined (no division by zero, no `float` out of
the range of its integer target) for a positive period when the instants and the
period are below `2^59` ticks, the job completes after its activation, and the skip
counter plus the response stays below `2^30 - 1`. -/
theorem jobMeasure_defined (t : RobotTask) (l : TaskLocals) (c : Nat)
    (hp : 0 < l.taskPeriod) (hpb : l.taskPeriod < 2 ^ 59)
    (hac : l.activationTime ≤ c) (hc : c < 2 ^ 59)
    (hskip : t.deadlineSkip + (c - l.activationTime) + 1 < 2 ^ 30) :
    ∃ t' l', jobMeasure t l c = some (t', l') := by
  have hr : actualResponseTime l.activationTime c = c - l.activationTime := by
    unfold actualResponseTime
    rw [if_pos hac]
    exact wrapSub_of_le hac (by unfold timeCountMod; omega)
  have hrlt := actualResponseTime_lt l.activationTime c
  obtain ⟨k, hk⟩ : ∃ k, CEILING (actualResponseTime l.activationTime c) l.taskPeriod = some k :=
    ⟨_, CEILING_of_pos _ _ hrlt hp⟩
  obtain ⟨hkp, hk1⟩ := CEILING_mul_le hrlt hp hk
  rw [hr] at hkp hk1
  have e1 := f32Round_le k
  have e2 := f32Round_le l.taskPeriod
  have e3 := f32Round_le (f32Round k * f32Round l.taskPeriod)
  have e4 := f32Round_le l.activationTime
  have e5 := f32Round_le (f32Round l.activationTime +
    f32Round (f32Round k * f32Round l.taskPeriod))
  have e6 : f32Round k * f32Round l.taskPeriod ≤ 2 * k * (2 * l.taskPeriod) :=
    Nat.mul_le_mul e1 e2
  have e7 : 2 * k * (2 * l.taskPeriod) = 4 * (k * l.taskPeriod) := by ring
  have hact : ∃ act, nextActivation l.activationTime (f32Round k) l.taskPeriod = some act := by
    unfold nextActivation floatToUInt
    rw [if_pos]
    · exact ⟨_, rfl⟩
    · unfold timeCountMod
      omega
  obtain ⟨act, hact⟩ := hact
  have e8 := f32Round_le t.deadlineSkip
  have e9 := f32Round_le (f32Round t.deadlineSkip + f32Round k)
  have hsk : ∃ skip, skipUpdate t.deadlineSkip (f32Round k) = some skip := by
    unfold skipUpdate floatToUInt
    rw [if_pos]
    · exact ⟨_, rfl⟩
    · unfold uint32Mod
      omega
  obtain ⟨skip, hsk⟩ := hsk
  unfold jobMeasure
  dsimp only
  rw [hk]
  dsimp only
  rw [hact]
  dsimp only
  rw [hsk]
  by_cases h1 : f32Round k = 1
  · rw [if_pos h1]
    exact ⟨_, _, rfl⟩
  · rw [if_neg h1]
    exact ⟨_, _, rfl⟩

set_option exponentiation.threshold 5000

/-! ## Lemmas on the trees of handshakes -/

theorem Hs.sync_mirror {α β : Type} (a : Hs α) : ∀ b : Hs β,
    (Hs.sync a b).opsB = (Hs.sync a b).opsA.map Dir.mirror := by
  induction a with
  | ret r => intro b; cases b <;> rfl
  | halt c => intro b; cases b <;> rfl
  | send msg k ih =>
    intro b
    cases b with
    | receive k2 =>
      show Dir.receive :: (Hs.sync k (k2 msg)).opsB = _
      rw [ih (k2 msg)]; rfl
    | ret r => rfl
    | halt c => rfl
    | send m2 k2 => rfl
  | receive k ih =>
    intro b
    cases b with
    | send msg k2 =>
      show Dir.send :: (Hs.sync (k msg) k2).opsB = _
      rw [ih msg k2]; rfl
    | ret r => rfl
    | halt c => rfl
    | receive k2 => rfl

theorem Hs.ends_send_receive {α β : Type} (msg : Nat) (k : Hs α) (k2 : Nat → Hs β) :
    Hs.ends (.send msg k) (.receive k2) = Hs.ends k (k2 msg) := rfl

theorem Hs.ends_receive_send {α β : Type} (msg : Nat) (k : Nat → Hs α) (k2 : Hs β) :
    Hs.ends (.receive k) (.send msg k2) = Hs.ends (k msg) k2 := rfl

theorem Hs.ends_ret_ret {α β : Type} (x : α) (y : β) :
    Hs.ends (.ret x : Hs α) (.ret y : Hs β) = (.returned x, .returned y) := rfl

theorem Hs.bind_ret {α β : Type} (x : α) (f : α → Hs β) : Hs.bind (.ret x) f = f x := rfl

theorem Hs.bind_send {α β : Type} (v : Nat) (k : Hs α) (f : α → Hs β) :
    Hs.bind (.send v k) f = .send v (Hs.bind k f) := rfl

theorem Hs.bind_receive {α β : Type} (k : Nat → Hs α) (f : α → Hs β) :
    Hs.bind (.receive k) f = .receive fun v => Hs.bind (k v) f := rfl

theorem Hs.bind_eq {α β : Type} (a : Hs α) (f : α → Hs β) : (a >>= f) = Hs.bind a f := rfl

theorem Hs.pure_eq {α : Type} (x : α) : (pure x : Hs α) = .ret x := rfl

/-! ### Fields of the management state -/

@[simp]
theorem RobotMaster.log_actualExp (m : RobotMaster) (es : List Event) :
    (m.log es).actualExp = m.actualExp := rfl
@[simp]
theorem RobotMaster.log_experimentReachLimit (m : RobotMaster) (es : List Event) :
    (m.log es).experimentReachLimit = m.experimentReachLimit := rfl
@[simp]
theorem RobotMaster.log_actualDeadlineMiss (m : RobotMaster) (es : List Event) :
    (m.log es).actualDeadlineMiss = m.actualDeadlineMiss := rfl
@[simp]
theorem RobotMaster.log_actualSlaveDeadlines (m : RobotMaster) (es : List Event) :
    (m.log es).actualSlaveDeadlines = m.actualSlaveDeadlines := rfl
@[simp]
theorem RobotMaster.log_events (m : RobotMaster) (es : List Event) :
    (m.log es).events = m.events ++ es := rfl

@[simp]
theorem RobotMaster.setActualDeadlineMiss_actualExp (m : RobotMaster) (v : Nat) :
    (m.setActualDeadlineMiss v).actualExp = m.actualExp := rfl
@[simp]
theorem RobotMaster.setActualDeadlineMiss_experimentReachLimit (m : RobotMaster)
    (v : Nat) : (m.setActualDeadlineMiss v).experimentReachLimit = m.experimentReachLimit := rfl
@[simp]
theorem RobotMaster.setActualDeadlineMiss_actualDeadlineMiss (m : RobotMaster)
    (v : Nat) : (m.setActualDeadlineMiss v).actualDeadlineMiss = v := rfl
@[simp]
theorem RobotMaster.setActualDeadlineMiss_actualSlaveDeadlines (m : RobotMaster)
    (v : Nat) : (m.setActualDeadlineMiss v).actualSlaveDeadlines = m.actualSlaveDeadlines := rfl
@[simp]
theorem RobotMaster.setActualDeadlineMiss_events (m : RobotMaster) (v : Nat) :
    (m.setActualDeadlineMiss v).events = m.events := rfl

@[simp]
theorem RobotMaster.setActualSlaveDeadlines_actualExp (m : RobotMaster) (v : Nat) :
    (m.setActualSlaveDeadlines v).actualExp = m.actualExp := rfl
@[simp]
theorem RobotMaster.setActualSlaveDeadlines_experimentReachLimit (m : RobotMaster)
    (v : Nat) : (m.setActualSlaveDeadlines v).experimentReachLimit = m.experimentReachLimit := rfl
@[simp]
theorem RobotMaster.setActualSlaveDeadlines_actualDeadlineMiss (m : RobotMaster)
    (v : Nat) : (m.setActualSlaveDeadlines v).actualDeadlineMiss = m.actualDeadlineMiss := rfl
@[simp]
theorem RobotMaster.setActualSlaveDeadlines_actualSlaveDeadlines (m : RobotMaster)
    (v : Nat) : (m.setActualSlaveDeadlines v).actualSlaveDeadlines = v := rfl
@[simp]
theorem RobotMaster.setActualSlaveDeadlines_events (m : RobotMaster) (v : Nat) :
    (m.setActualSlaveDeadlines v).events = m.events := rfl

@[simp]
theorem RobotMaster.setExperimentReachLimit_actualExp (m : RobotMaster) (v : Nat) :
    (m.setExperimentReachLimit v).actualExp = m.actualExp := rfl
@[simp]
theorem RobotMaster.setExperimentReachLimit_experimentReachLimit (m : RobotMaster)
    (v : Nat) : (m.setExperimentReachLimit v).experimentReachLimit = v := rfl
@[simp]
theorem RobotMaster.setExperimentReachLimit_actualDeadlineMiss (m : RobotMaster)
    (v : Nat) : (m.setExperimentReachLimit v).actualDeadlineMiss = m.actualDeadlineMiss := rfl
@[simp]
theorem RobotMaster.setExperimentReachLimit_actualSlaveDeadlines (m : RobotMaster)
    (v : Nat) :
    (m.setExperimentReachLimit v).actualSlaveDeadlines = m.actualSlaveDeadlines := rfl
@[simp]
theorem RobotMaster.setExperimentReachLimit_events (m : RobotMaster) (v : Nat) :
    (m.setExperimentReachLimit v).events = m.events := rfl

@[simp]
theorem RobotSlave.slave_log_actualExp (s : RobotSlave) (es : List Event) :
    (s.log es).actualExp = s.actualExp := rfl
@[simp]
theorem RobotSlave.slave_log_experimentReachLimit (s : RobotSlave) (es : List Event) :
    (s.log es).experimentReachLimit = s.experimentReachLimit := rfl
@[simp]
theorem RobotSlave.slave_log_actualDeadlineMiss (s : RobotSlave) (es : List Event) :
    (s.log es).actualDeadlineMiss = s.actualDeadlineMiss := rfl
@[simp]
theorem RobotSlave.slave_log_events (s : RobotSlave) (es : List Event) :
    (s.log es).events = s.events ++ es := rfl

@[simp]
theorem RobotSlave.slave_setActualDeadlineMiss_actualExp (s : RobotSlave) (v : Nat) :
    (s.setActualDeadlineMiss v).actualExp = s.actualExp := rfl
@[simp]
theorem RobotSlave.slave_setActualDeadlineMiss_experimentReachLimit (s : RobotSlave)
    (v : Nat) : (s.setActualDeadlineMiss v).experimentReachLimit = s.experimentReachLimit := rfl
@[simp]
theorem RobotSlave.slave_setActualDeadlineMiss_actualDeadlineMiss (s : RobotSlave)
    (v : Nat) : (s.setActualDeadlineMiss v).actualDeadlineMiss = v := rfl
@[simp]
theorem RobotSlave.slave_setActualDeadlineMiss_events (s : RobotSlave) (v : Nat) :
    (s.setActualDeadlineMiss v).events = s.events := rfl

@[simp]
theorem RobotSlave.slave_setExperimentReachLimit_actualExp (s : RobotSlave) (v : Nat) :
    (s.setExperimentReachLimit v).actualExp = s.actualExp := rfl
@[simp]
theorem RobotSlave.slave_setExperimentReachLimit_experimentReachLimit (s : RobotSlave)
    (v : Nat) : (s.setExperimentReachLimit v).experimentReachLimit = v := rfl
@[simp]
theorem RobotSlave.slave_setExperimentReachLimit_actualDeadlineMiss (s : RobotSlave)
    (v : Nat) : (s.setExperimentReachLimit v).actualDeadlineMiss = s.actualDeadlineMiss := rfl
@[simp]
theorem RobotSlave.slave_setExperimentReachLimit_events (s : RobotSlave) (v : Nat) :
    (s.setExperimentReachLimit v).events = s.events := rfl

@[simp]
theorem RobotSlave.slave_setActualExpLow_actualExp (s : RobotSlave) (v : Nat) :
    (s.setActualExpLow v).actualExp = s.actualExp / 2 ^ 16 * 2 ^ 16 + v % 2 ^ 16 := rfl
@[simp]
theorem RobotSlave.slave_setActualExpLow_experimentReachLimit (s : RobotSlave) (v : Nat) :
    (s.setActualExpLow v).experimentReachLimit = s.experimentReachLimit := rfl
@[simp]
theorem RobotSlave.slave_setActualExpLow_actualDeadlineMiss (s : RobotSlave) (v : Nat) :
    (s.setActualExpLow v).actualDeadlineMiss = s.actualDeadlineMiss := rfl
@[simp]
theorem RobotSlave.slave_setActualExpLow_events (s : RobotSlave) (v : Nat) :
    (s.setActualExpLow v).events = s.events := rfl

/-- The updaters of the two nodes, run jointly in front of any continuations, complete
their handshakes and return: the experiment numbers are kept and the reach-limit flags
are both set exactly when `UpdateExp7` cannot allocate on the Slave. -/
theorem joint_update {α β : Type} (envS : SlaveEnv) (e test : Nat) (he : 4 ≤ e ∧ e ≤ 7)
    (m : RobotMaster) (s : RobotSlave) (hme : m.actualExp = e) (hse : s.actualExp = e)
    (kM : RobotMaster → Hs α) (kS : RobotSlave → Hs β) :
    ∃ m2 s2,
      Hs.ends ((RobotMaster.UpdateExperiment test m).bind kM)
        ((RobotSlave.UpdateExperiment envS test s).bind kS) = Hs.ends (kM m2) (kS s2) ∧
      m2.actualExp = e ∧ s2.actualExp = e ∧
      m2.experimentReachLimit =
        (if e = 7 ∧ envS.allocFails test = true then 1 else m.experimentReachLimit) ∧
      s2.experimentReachLimit =
        (if e = 7 ∧ envS.allocFails test = true then 1 else s.experimentReachLimit) ∧
      m2.actualDeadlineMiss = m.actualDeadlineMiss ∧
      m2.actualSlaveDeadlines = m.actualSlaveDeadlines := by
  obtain ⟨h4, h7⟩ := he
  have hcases : e = 4 ∨ e = 5 ∨ e = 6 ∨ e = 7 := by omega
  rcases hcases with h | h | h | h
  · subst h
    refine ⟨m.log [.updateTasks test], s.log [.updateTasks test], ?_, by simpa using hme,
      by simpa using hse, by simp, by simp, by simp, by simp⟩
    simp only [RobotMaster.UpdateExperiment, RobotSlave.UpdateExperiment, hme, hse,
      RobotMaster.UpdateExp4, RobotSlave.UpdateExp4, handshakeSend, handshakeReceive,
      Hs.bind_eq, Hs.pure_eq, Hs.bind_ret, Hs.bind_send, Hs.bind_receive,
      Hs.ends_send_receive, Hs.ends_receive_send]
  · subst h
    refine ⟨(m.log [.leaveTopics test]).log [.updateTasks test],
      (s.log [.leaveTopics test]).log [.updateTasks test], ?_, by simpa using hme,
      by simpa using hse, by simp, by simp, by simp, by simp⟩
    simp only [RobotMaster.UpdateExperiment, RobotSlave.UpdateExperiment, hme, hse,
      RobotMaster.UpdateExp5, RobotSlave.UpdateExp5, handshakeSend, handshakeReceive,
      Hs.bind_eq, Hs.pure_eq, Hs.bind_ret, Hs.bind_send, Hs.bind_receive,
      Hs.ends_send_receive, Hs.ends_receive_send]
  · subst h
    refine ⟨m.log [.updateTasks test], s.log [.updateTasks test], ?_, by simpa using hme,
      by simpa using hse, by simp, by simp, by simp, by simp⟩
    simp only [RobotMaster.UpdateExperiment, RobotSlave.UpdateExperiment, hme, hse,
      RobotMaster.UpdateExp6, RobotSlave.UpdateExp6, handshakeSend, handshakeReceive,
      Hs.bind_eq, Hs.pure_eq, Hs.bind_ret, Hs.bind_send, Hs.bind_receive,
      Hs.ends_send_receive, Hs.ends_receive_send]
  · subst h
    by_cases ha : envS.allocFails test = true
    · refine ⟨((m.setExperimentReachLimit 1).log
          [.print "\n\nExperiment reach limit: Impossible create more receivers tasks!!!\n\n"]).log
          [.print "Experiment finished!!!\n", .print "Experiment deadlines: %d.\n!!!\n"],
        ((s.setExperimentReachLimit 1).log
          [.print "\n\nExperiment reach limit: Impossible create more tasks!!!\n\n"]).log
          [.print "Experiment finished!!!\n"], ?_, by simpa using hme,
        by simpa using hse, by simp [ha], by simp [ha], by simp, by simp⟩
      simp only [RobotMaster.UpdateExperiment, RobotSlave.UpdateExperiment, hme, hse,
        RobotMaster.UpdateExp7, RobotSlave.UpdateExp7, handshakeSend, handshakeReceive, ha,
        Hs.bind_eq, Hs.pure_eq, Hs.bind_ret, Hs.bind_send, Hs.bind_receive,
        Hs.ends_send_receive, Hs.ends_receive_send, if_true]
      norm_num [Hs.bind_send, Hs.bind_ret, Hs.bind_receive, Hs.ends_send_receive,
        Hs.ends_receive_send]
    · refine ⟨m.log [.updateTasks test], s.log [.updateTasks test], ?_, by simpa using hme,
        by simpa using hse, by simp [ha], by simp [ha], by simp, by simp⟩
      simp only [RobotMaster.UpdateExperiment, RobotSlave.UpdateExperiment, hme, hse,
        RobotMaster.UpdateExp7, RobotSlave.UpdateExp7, handshakeSend, handshakeReceive, ha,
        Hs.bind_eq, Hs.pure_eq, Hs.bind_ret, Hs.bind_send, Hs.bind_receive,
        Hs.ends_send_receive, Hs.ends_receive_send]
      norm_num [Hs.bind_send, Hs.bind_ret, Hs.bind_receive, Hs.ends_send_receive,
        Hs.ends_receive_send]

/-- One iteration of the two management loops run jointly.  The Master leaves its
loop in this iteration exactly when the sum of its field `actualDeadlineMiss` on entry
and of the count the Slave reports is not zero, and then the Slave leaves too;
otherwise both run their updaters and either leave together on reach-limit or go on
to the next iteration together. -/
theorem joint_step (envM : MasterEnv) (envS : SlaveEnv) (tps e : Nat) (he : 4 ≤ e ∧ e ≤ 7)
    (fuel test hm : Nat) (m : RobotMaster) (s : RobotSlave)
    (hme : m.actualExp = e) (hse : s.actualExp = e)
    (hmf : m.experimentReachLimit = 0) (hsf : s.experimentReachLimit = 0) :
    (wrapAdd sizeMod m.actualDeadlineMiss
        (CalculateDeadlineMiss (envS.tasksAfter test) % 2 ^ 16) ≠ 0 ∧
      ∃ m2 s2,
        Hs.ends (RobotMaster.StartDistributedExperiment envM tps (fuel + 1) test m)
          (RobotSlave.StartExperiment envS tps (fuel + 1) test hm s) =
          (.returned (m2, some test), .returned (s2, some test)) ∧
        m2.experimentReachLimit = 0 ∧ s2.experimentReachLimit = 0 ∧
        m2.actualDeadlineMiss = CalculateDeadlineMiss (envM.tasksAfter test) ∧
        m2.actualSlaveDeadlines = CalculateDeadlineMiss (envS.tasksAfter test) % 2 ^ 16) ∨
    (wrapAdd sizeMod m.actualDeadlineMiss
        (CalculateDeadlineMiss (envS.tasksAfter test) % 2 ^ 16) = 0 ∧
      ∃ m2 s2 hm2,
        m2.actualExp = e ∧ s2.actualExp = e ∧
        m2.actualDeadlineMiss = CalculateDeadlineMiss (envM.tasksAfter test) ∧
        m2.actualSlaveDeadlines = CalculateDeadlineMiss (envS.tasksAfter test) % 2 ^ 16 ∧
        ((e = 7 ∧ envS.allocFails (wrapAdd sizeMod test 1) = true) ∧
            m2.experimentReachLimit = 1 ∧ s2.experimentReachLimit = 1 ∧
            Hs.ends (RobotMaster.StartDistributedExperiment envM tps (fuel + 1) test m)
              (RobotSlave.StartExperiment envS tps (fuel + 1) test hm s) =
              (.returned (m2, some (wrapAdd sizeMod test 1)),
                .returned (s2, some (wrapAdd sizeMod test 1))) ∨
          ¬ (e = 7 ∧ envS.allocFails (wrapAdd sizeMod test 1) = true) ∧
            m2.experimentReachLimit = 0 ∧ s2.experimentReachLimit = 0 ∧
            Hs.ends (RobotMaster.StartDistributedExperiment envM tps (fuel + 1) test m)
              (RobotSlave.StartExperiment envS tps (fuel + 1) test hm s) =
              Hs.ends
                (RobotMaster.StartDistributedExperiment envM tps fuel (wrapAdd sizeMod test 1) m2)
                (RobotSlave.StartExperiment envS tps fuel (wrapAdd sizeMod test 1) hm2 s2))) := by
  simp only [RobotMaster.StartDistributedExperiment, RobotSlave.StartExperiment,
    handshakeSend, handshakeReceive, RobotMaster.WaitDeadlinesFromSlave,
    RobotSlave.SignalDeadlineToMaster, RobotSlave.StartReport, RobotMaster.StartReport,
    RobotSlave.IsFinishedByMaster, RobotMaster.SendExperimentStatus,
    RobotMaster.ExperimentDeadlineMiss,
    Hs.bind_eq, Hs.pure_eq, Hs.bind_ret, Hs.bind_send, Hs.bind_receive,
    Hs.ends_send_receive, Hs.ends_receive_send,
    RobotMaster.log_actualDeadlineMiss, RobotMaster.log_actualSlaveDeadlines,
    RobotMaster.setActualSlaveDeadlines_actualDeadlineMiss,
    RobotMaster.setActualSlaveDeadlines_actualSlaveDeadlines,
    RobotSlave.slave_setActualDeadlineMiss_actualDeadlineMiss, Nat.mod_mod]
  by_cases hc : wrapAdd sizeMod m.actualDeadlineMiss
      (CalculateDeadlineMiss (envS.tasksAfter test) % 2 ^ 16) = 0
  · right
    refine ⟨hc, ?_⟩
    rw [if_neg (not_not.mpr hc)]
    simp only [Hs.ends_receive_send, Hs.ends_send_receive]
    have hrun : ¬ (isRun % 2 ^ 16 % 2 ^ 16 = isFinished) := by decide
    simp only [hrun, decide_False, Bool.false_eq_true, if_false]
    generalize hm3 : RobotMaster.log _ [Event.printReport test] = m3
    generalize hs3 : RobotSlave.log _ [Event.printReport test] = s3
    have e1 : m3.actualExp = e := by rw [← hm3]; simpa using hme
    have e2 : s3.actualExp = e := by rw [← hs3]; simpa using hse
    have e3 : m3.experimentReachLimit = 0 := by rw [← hm3]; simpa using hmf
    have e4 : s3.experimentReachLimit = 0 := by rw [← hs3]; simpa using hsf
    have e5 : m3.actualDeadlineMiss = CalculateDeadlineMiss (envM.tasksAfter test) := by
      rw [← hm3]; simp
    have e6 : m3.actualSlaveDeadlines =
        CalculateDeadlineMiss (envS.tasksAfter test) % 2 ^ 16 := by
      rw [← hm3]; simp
    obtain ⟨m2, s2, hends, f1, f2, f3, f4, f5, f6⟩ :=
      joint_update envS e (wrapAdd sizeMod test 1) he m3 s3 e1 e2
        (fun m => if m.experimentReachLimit ≠ 0 then
            Hs.ret (m, some (wrapAdd sizeMod test 1))
          else RobotMaster.StartDistributedExperiment envM tps fuel (wrapAdd sizeMod test 1) m)
        (fun s => if s.experimentReachLimit ≠ 0 then
            Hs.ret (s, some (wrapAdd sizeMod test 1))
          else RobotSlave.StartExperiment envS tps fuel (wrapAdd sizeMod test 1)
            (hm % 2 ^ 16) s)
    refine ⟨m2, s2, hm % 2 ^ 16, f1, f2, by rw [f5, e5], by rw [f6, e6], ?_⟩
    rw [hends]
    by_cases ha : e = 7 ∧ envS.allocFails (wrapAdd sizeMod test 1) = true
    · left
      rw [if_pos ha] at f3 f4
      refine ⟨ha, f3, f4, ?_⟩
      simp only [f3, f4]
      rfl
    · right
      rw [if_neg ha, e3] at f3
      rw [if_neg ha, e4] at f4
      refine ⟨ha, f3, f4, ?_⟩
      simp only [f3, f4]
      rfl
  · left
    refine ⟨hc, ?_⟩
    rw [if_pos hc]
    simp only [Hs.ends_receive_send, Hs.ends_send_receive]
    have hfin : isFinished % 2 ^ 16 % 2 ^ 16 = isFinished := by decide
    simp only [hfin, decide_True, if_true, Hs.ends_ret_ret]
    exact ⟨_, _, rfl, by simpa using hmf, by simpa using hsf, by simp, by simp⟩

theorem joint_loop (envM : MasterEnv) (envS : SlaveEnv) (tps e : Nat) (he : 4 ≤ e ∧ e ≤ 7) :
    ∀ fuel test hm (m : RobotMaster) (s : RobotSlave),
      m.actualExp = e → s.actualExp = e →
      m.experimentReachLimit = 0 → s.experimentReachLimit = 0 →
      ∃ m2 s2 left,
        Hs.ends (RobotMaster.StartDistributedExperiment envM tps fuel test m)
          (RobotSlave.StartExperiment envS tps fuel test hm s) =
          (.returned (m2, left), .returned (s2, left)) := by
  intro fuel
  induction fuel with
  | zero =>
    intro test hm m s _ _ _ _
    exact ⟨m, s, none, rfl⟩
  | succ fuel ih =>
    intro test hm m s hme hse hmf hsf
    rcases joint_step envM envS tps e he fuel test hm m s hme hse hmf hsf with
      ⟨_, m2, s2, h, _⟩ | ⟨_, m2, s2, hm2, f1, f2, _, _, h⟩
    · exact ⟨m2, s2, _, h⟩
    · rcases h with ⟨_, _, _, h⟩ | ⟨_, g1, g2, h⟩
      · exact ⟨m2, s2, _, h⟩
      · rw [h]
        exact ih _ hm2 m2 s2 f1 f2 g1 g2

/-! ## Lemmas on the iteration over the task list -/

theorem forEachAux_total (tailId : Nat) (g : RobotTask → RobotTask) (tl : RobotTask)
    (htl : tl.id = tailId) :
    ∀ (ts : List RobotTask) (i : Nat), (∀ t ∈ ts, t.id ≠ tailId) →
      forEachAux tailId (fun _ t => some (g t)) i (ts ++ [tl]) = some ((ts ++ [tl]).map g) := by
  intro ts
  induction ts with
  | nil =>
    intro i _
    simp [forEachAux, htl]
  | cons t ts ih =>
    intro i h
    have ht : t.id ≠ tailId := h t (List.mem_cons_self _ _)
    have hts : ∀ u ∈ ts, u.id ≠ tailId := fun u hu => h u (List.mem_cons_of_mem _ hu)
    simp [forEachAux, ht, ih (i + 1) hts]

/-- An iteration whose body is defined on every task visits the whole list when the
ids are pairwise distinct. -/
theorem forEachTask_total (g : RobotTask → RobotTask) (ts : List RobotTask)
    (h : (ts.map RobotTask.id).Nodup) :
    forEachTask (fun _ t => some (g t)) ts = some (ts.map g) := by
  rcases List.eq_nil_or_concat ts with rfl | ⟨init, tl, rfl⟩
  · rfl
  · rw [List.concat_eq_append] at h ⊢
    have hlast : (init ++ [tl]).getLast? = some tl := by simp
    unfold forEachTask
    rw [hlast]
    apply forEachAux_total tl.id g tl rfl
    intro t ht hcontra
    rw [List.map_append, List.nodup_append] at h
    exact h.2.2 (List.mem_map_of_mem _ ht) (by simp [hcontra])

theorem restartTasks_eq (tps : Nat) (ts : List RobotTask) (h : (ts.map RobotTask.id).Nodup) :
    restartTasks tps ts = some (ts.map fun t => (t.ClearMeasurements tps).Start) :=
  forEachTask_total _ ts h

theorem StartTasks_eq (ts : List RobotTask) (h : (ts.map RobotTask.id).Nodup) :
    StartTasks ts = some (ts.map RobotTask.Start) :=
  forEachTask_total _ ts h

/-- `SetFrequency` depends on the task only through the fields it overwrites. -/
theorem SetFrequency_some (t u : RobotTask) (f tps : Nat)
    (h : t.SetFrequency f tps = some u) :
    u = { t with periodSec := u.periodSec, period := u.period, frequency := f } ∧
    ∀ v : RobotTask, v.SetFrequency f tps =
      some { v with periodSec := u.periodSec, period := u.period, frequency := f } := by
  unfold RobotTask.SetFrequency at h ⊢
  cases h1 : f64Div (f64OfNat 1) f with
  | none => rw [h1] at h; simp at h
  | some ps =>
    rw [h1] at h
    dsimp only at h ⊢
    cases h2 : f64ToUInt timeCountMod (f64Mul ps (f64OfNat tps)) with
    | none => rw [h2] at h; simp at h
    | some p =>
      rw [h2] at h
      dsimp only at h ⊢
      injection h with h
      subst h
      exact ⟨rfl, fun v => rfl⟩

theorem insertAll_some (mk : Nat → Option RobotTask) :
    ∀ (is : List Nat) (tasks r : List RobotTask), insertAll mk is tasks = some r →
      ∃ news, r = tasks ++ news ∧ List.Forall₂ (fun i t => mk i = some t) is news := by
  intro is
  induction is with
  | nil =>
    intro tasks r h
    simp only [insertAll, Option.some.injEq] at h
    exact ⟨[], by simp [h], List.Forall₂.nil⟩
  | cons i is ih =>
    intro tasks r h
    simp only [insertAll] at h
    cases hi : mk i with
    | none => rw [hi] at h; simp at h
    | some t =>
      rw [hi] at h
      obtain ⟨news, hr, hall⟩ := ih (tasks ++ [t]) r h
      exact ⟨t :: news, by simp [hr], List.Forall₂.cons hi hall⟩

/-- The tasks that `SetExperimentUniBaseline` creates for the workloads of the target. -/
theorem uniBaseline_some (tps : Nat) (heap : Nat → Bool) (base : List RobotTask)
    (h : RobotMaster.SetExperimentUniBaseline [196, 413, 886, 1240, 2067] tps heap [] =
      some base) :
    ∃ t0 t1 t2 t3 t4, base = [t0, t1, t2, t3, t4] ∧
      ((RobotTask.new 1 6 tps).SetKWIPP 196).SetFrequency (f64OfNat 63) tps = some t0 ∧
      ((RobotTask.new 2 5 tps).SetKWIPP 413).SetFrequency (f64OfNat 30) tps = some t1 ∧
      ((RobotTask.new 3 4 tps).SetKWIPP 886).SetFrequency (f64OfNat 14) tps = some t2 ∧
      ((RobotTask.new 4 3 tps).SetKWIPP 1240).SetFrequency (f64OfNat 10) tps = some t3 ∧
      ((RobotTask.new 5 2 tps).SetKWIPP 2067).SetFrequency (f64OfNat 6) tps = some t4 := by
  obtain ⟨news, hr, hall⟩ := insertAll_some _ _ _ _ h
  have hrange : List.range baselineNumberExpUni = [0, 1, 2, 3, 4] := by decide
  rw [hrange] at hall
  match news, hall with
  | [t0, t1, t2, t3, t4], .cons h0 (.cons h1 (.cons h2 (.cons h3 (.cons h4 .nil)))) =>
    refine ⟨t0, t1, t2, t3, t4, by simpa using hr, ?_, ?_, ?_, ?_, ?_⟩
    · unfold RobotMaster.uniBaselineTask at h0
      by_cases hh : heap 0 = false
      · simp [hh] at h0
      · simpa [hh, uniBaselineFrequency, baselinePriorityExpUni, baselineNumberExpUni] using h0
    · unfold RobotMaster.uniBaselineTask at h1
      by_cases hh : heap 1 = false
      · simp [hh] at h1
      · simpa [hh, uniBaselineFrequency, baselinePriorityExpUni, baselineNumberExpUni] using h1
    · unfold RobotMaster.uniBaselineTask at h2
      by_cases hh : heap 2 = false
      · simp [hh] at h2
      · simpa [hh, uniBaselineFrequency, baselinePriorityExpUni, baselineNumberExpUni] using h2
    · unfold RobotMaster.uniBaselineTask at h3
      by_cases hh : heap 3 = false
      · simp [hh] at h3
      · simpa [hh, uniBaselineFrequency, baselinePriorityExpUni, baselineNumberExpUni] using h3
    · unfold RobotMaster.uniBaselineTask at h4
      by_cases hh : heap 4 = false
      · simp [hh] at h4
      · simpa [hh, uniBaselineFrequency, baselinePriorityExpUni, baselineNumberExpUni] using h4

/-- The started baseline tasks of the PD experiments. -/
theorem InitExperimentTasks_uni (e tps : Nat) (he : ¬ e > exp3) (distW : List Nat)
    (heap : Nat → Bool) (fresh : Nat → Option Nat) (base : List RobotTask)
    (h : RobotMaster.InitExperimentTasks e [196, 413, 886, 1240, 2067] distW tps heap fresh [] =
      some base) :
    ∃ t0 t1 t2 t3 t4,
      base = [t0.Start, t1.Start, t2.Start, t3.Start, t4.Start] ∧
      RobotMaster.SetExperimentUniBaseline [196, 413, 886, 1240, 2067] tps heap [] =
        some [t0, t1, t2, t3, t4] ∧
      ((RobotTask.new 1 6 tps).SetKWIPP 196).SetFrequency (f64OfNat 63) tps = some t0 ∧
      ((RobotTask.new 2 5 tps).SetKWIPP 413).SetFrequency (f64OfNat 30) tps = some t1 ∧
      ((RobotTask.new 3 4 tps).SetKWIPP 886).SetFrequency (f64OfNat 14) tps = some t2 ∧
      ((RobotTask.new 4 3 tps).SetKWIPP 1240).SetFrequency (f64OfNat 10) tps = some t3 ∧
      ((RobotTask.new 5 2 tps).SetKWIPP 2067).SetFrequency (f64OfNat 6) tps = some t4 := by
  unfold RobotMaster.InitExperimentTasks at h
  rw [if_neg he] at h
  cases hb : RobotMaster.SetExperimentUniBaseline [196, 413, 886, 1240, 2067] tps heap [] with
  | none => rw [hb] at h; simp at h
  | some base0 =>
    rw [hb] at h
    dsimp only at h
    obtain ⟨t0, t1, t2, t3, t4, rfl, h0, h1, h2, h3, h4⟩ := uniBaseline_some tps heap base0 hb
    have i0 := (SetFrequency_some _ _ _ _ h0).1
    have i1 := (SetFrequency_some _ _ _ _ h1).1
    have i2 := (SetFrequency_some _ _ _ _ h2).1
    have i3 := (SetFrequency_some _ _ _ _ h3).1
    have i4 := (SetFrequency_some _ _ _ _ h4).1
    have d0 : t0.id = 1 := by rw [i0]; rfl
    have d1 : t1.id = 2 := by rw [i1]; rfl
    have d2 : t2.id = 3 := by rw [i2]; rfl
    have d3 : t3.id = 4 := by rw [i3]; rfl
    have d4 : t4.id = 5 := by rw [i4]; rfl
    rw [StartTasks_eq _ (by simp [d0, d1, d2, d3, d4])] at h
    simp only [List.map, Option.some.injEq] at h
    exact ⟨t0, t1, t2, t3, t4, h.symm, rfl, h0, h1, h2, h3, h4⟩

/-- After `j` test steps and calls of `UpdateExp3` on the started baseline tasks of the
PD experiments, whatever the steps have measured. -/
theorem UpdateExp3Calls_spec (tps : Nat) (ran : Nat → Nat → Measurements)
    (t0 t1 t2 t3 t4 : RobotTask)
    (h0 : ((RobotTask.new 1 6 tps).SetKWIPP 196).SetFrequency (f64OfNat 63) tps = some t0)
    (h1 : ((RobotTask.new 2 5 tps).SetKWIPP 413).SetFrequency (f64OfNat 30) tps = some t1)
    (h2 : ((RobotTask.new 3 4 tps).SetKWIPP 886).SetFrequency (f64OfNat 14) tps = some t2)
    (h3 : ((RobotTask.new 4 3 tps).SetKWIPP 1240).SetFrequency (f64OfNat 10) tps = some t3)
    (h4 : ((RobotTask.new 5 2 tps).SetKWIPP 2067).SetFrequency (f64OfNat 6) tps = some t4) :
    ∀ j, j ≤ 250 →
      ∃ ts,
        RobotMaster.UpdateExp3Calls [196, 413, 886, 1240, 2067] tps ran j 1
          [t0.Start, t1.Start, t2.Start, t3.Start, t4.Start] = some (ts, 1 + j) ∧
        ts.map RobotTask.parameters =
          [t0.Start, t1.Start, t2.Start, t3.Start, t4.Start].map RobotTask.parameters ++
            (List.range j).map
              (fun k => (6 + k, 4, 886, f64OfNat 14, t2.periodSec, t2.period)) ∧
        ts.map RobotTask.starts =
          List.replicate 5 (1 + j) ++ (List.range j).map (fun k => j - k) ∧
        (0 < j → ∀ t ∈ ts, t.deadlineMet = 0 ∧ t.deadlineMiss = 0 ∧ t.deadlineSkip = 0 ∧
          t.responseTime = 0 ∧ t.avgResponseJitter = 0 ∧ t.wcrt = 0 ∧
          t.bcrt = (tps * 100) % timeCountMod) := by
  have i0 := (SetFrequency_some _ _ _ _ h0).1
  have i1 := (SetFrequency_some _ _ _ _ h1).1
  have i2 := (SetFrequency_some _ _ _ _ h2).1
  have i3 := (SetFrequency_some _ _ _ _ h3).1
  have i4 := (SetFrequency_some _ _ _ _ h4).1
  have d0 : t0.id = 1 := by rw [i0]; rfl
  have d1 : t1.id = 2 := by rw [i1]; rfl
  have d2 : t2.id = 3 := by rw [i2]; rfl
  have d3 : t3.id = 4 := by rw [i3]; rfl
  have d4 : t4.id = 5 := by rw [i4]; rfl
  have s0 : t0.starts = 0 := by rw [i0]; rfl
  have s1 : t1.starts = 0 := by rw [i1]; rfl
  have s2 : t2.starts = 0 := by rw [i2]; rfl
  have s3 : t3.starts = 0 := by rw [i3]; rfl
  have s4 : t4.starts = 0 := by rw [i4]; rfl
  clear i0 i1 i2 i3 i4 h0 h1 h3 h4
  intro j
  induction j with
  | zero =>
    intro _
    refine ⟨_, rfl, by simp, ?_, fun h => absurd h (by omega)⟩
    simp [RobotTask.Start, s0, s1, s2, s3, s4, List.replicate]
  | succ j ih =>
    intro hj
    obtain ⟨ts, hcalls, hpar, hst, _⟩ := ih (by omega)
    have hids : ts.map RobotTask.id = [1, 2, 3, 4, 5] ++ (List.range j).map (fun k => 6 + k) := by
      have := congrArg (List.map Prod.fst) hpar
      simpa [RobotTask.parameters, RobotTask.Start, d0, d1, d2, d3, d4, Function.comp_def]
        using this
    have hid : (5 + (1 + j)) % 2 ^ 8 = 6 + j := by omega
    have hnew := (SetFrequency_some _ _ _ _ h2).2
      ((RobotTask.new (5 + (1 + j)) (baselinePriorityExpUni + 2) tps).SetKWIPP 886)
    generalize hu : (RobotTask.new (5 + (1 + j)) (baselinePriorityExpUni + 2) tps).SetKWIPP
      886 = u at hnew
    have hpu : u.parameters = (6 + j, 4, 886, 0, 0, 0) := by
      rw [← hu]
      simp [RobotTask.parameters, RobotTask.new, RobotTask.SetKWIPP,
        baselinePriorityExpUni, uint32Mod]
      omega
    have hus : u.starts = 0 := by rw [← hu]; rfl
    have huid : u.id = 6 + j := congrArg Prod.fst hpu
    generalize hv : some _ = v at hnew
    cases v with
    | none => exact absurd hv (by simp)
    | some v =>
    injection hv with hv
    have hpv : v.parameters = (6 + j, 4, 886, f64OfNat 14, t2.periodSec, t2.period) := by
      simp only [RobotTask.parameters, Prod.mk.injEq] at hpu ⊢
      rw [← hv]
      simp [hpu]
    have hvs : v.starts = 0 := by rw [← hv]; exact hus
    have hvid : v.id = 6 + j := congrArg Prod.fst hpv
    have hmid : (ts.map fun t => t.measured (ran (1 + j) t.id)).map RobotTask.id =
        ts.map RobotTask.id := by
      rw [List.map_map]; rfl
    have hmpar : (ts.map fun t => t.measured (ran (1 + j) t.id)).map RobotTask.parameters =
        ts.map RobotTask.parameters := by
      rw [List.map_map]; rfl
    have hmst : (ts.map fun t => t.measured (ran (1 + j) t.id)).map RobotTask.starts =
        ts.map RobotTask.starts := by
      rw [List.map_map]; rfl
    generalize hms : (ts.map fun t => t.measured (ran (1 + j) t.id)) = ms at hmid hmpar hmst
    have hnodup : ((ms ++ [v]).map RobotTask.id).Nodup := by
      rw [List.map_append, hmid, hids]
      simp only [List.map, hvid]
      rw [List.nodup_append]
      refine ⟨?_, by simp, ?_⟩
      · rw [List.nodup_append]
        refine ⟨by decide, ?_, ?_⟩
        · exact (List.nodup_range j).map (fun a b h => by omega)
        · intro a ha hb
          simp only [List.mem_map, List.mem_range] at hb
          obtain ⟨k, _, rfl⟩ := hb
          simp at ha
          omega
      · intro a ha hb
        simp only [List.mem_singleton] at hb
        subst hb
        simp only [List.mem_append, List.mem_map, List.mem_range] at ha
        rcases ha with ha | ⟨k, hk, hk2⟩
        · simp at ha
          omega
        · omega
    refine ⟨(ms ++ [v]).map fun t => (t.ClearMeasurements tps).Start, ?_, ?_, ?_, ?_⟩
    · simp only [RobotMaster.UpdateExp3Calls, hcalls, RobotMaster.UpdateExp3Tasks,
        List.get?, uniBaselineFrequency, hu, hnew, hms, restartTasks_eq tps _ hnodup,
        Option.map,
        Bool.true_eq_false, if_false]
      rfl
    · rw [List.map_map]
      have hcomp : (RobotTask.parameters ∘ fun t => (t.ClearMeasurements tps).Start) =
          RobotTask.parameters := by
        funext t; rfl
      rw [hcomp, List.map_append, hmpar, hpar, List.range_succ, List.map_append,
        List.append_assoc]
      simp [hpv]
    · rw [List.map_map]
      have hcomp : (RobotTask.starts ∘ fun t => (t.ClearMeasurements tps).Start) =
          (fun n => n + 1) ∘ RobotTask.starts := by
        funext t; rfl
      rw [hcomp, ← List.map_map, List.map_append, hmst, hst, List.range_succ]
      simp only [List.map_append, List.map_replicate, List.map_map, List.map_cons,
        List.map_nil, hvs, List.append_assoc]
      have e1 : 1 + j + 1 = 1 + (j + 1) := by omega
      have e2 : j + 1 - j = 0 + 1 := by omega
      have e3 : List.map ((fun n => n + 1) ∘ fun k => j - k) (List.range j) =
          List.map (fun k => j + 1 - k) (List.range j) := by
        apply List.map_congr_left
        intro k hk
        simp only [List.mem_range] at hk
        simp only [Function.comp]
        omega
      rw [e1, e2, e3]
    · intro _ t ht
      simp only [List.mem_map] at ht
      obtain ⟨u, _, rfl⟩ := ht
      exact ⟨rfl, rfl, rfl, rfl, rfl, rfl, rfl⟩

theorem rstoneEXP5_UPDATE_VALUE_eq (test : Nat) (ht : test ≤ 30) :
    rstoneEXP5_UPDATE_VALUE test = some (2 ^ (test + 1)) := by
  unfold rstoneEXP5_UPDATE_VALUE floatToUInt sizeMod
  have h1 : (test + 1) % 2 ^ 32 = test + 1 := Nat.mod_eq_of_lt (by omega)
  rw [h1, if_pos]
  exact Nat.pow_lt_pow_right (by norm_num) (by omega)

theorem UpdateExp5_master (tps test : Nat) (ht : test ≤ 30) (fresh : Nat → Option Nat)
    (a b c : RobotTask) (hab : a.id ≠ c.id) (hbc : b.id ≠ c.id)
    (pa pb pc : Publisher) (ha : a.pub = some pa) (hb : b.pub = some pb)
    (hc : c.pub = some pc) :
    RobotMaster.UpdateExp5Tasks tps fresh test [a, b, c] =
      some [((a.ClearMeasurements tps).PublishingRequest (fresh 0) 2 (2 ^ (test + 1))).Start,
        ((b.ClearMeasurements tps).PublishingRequest (fresh 1) 3 (2 ^ (test + 1))).Start,
        ((c.ClearMeasurements tps).PublishingRequest (fresh 2) 4 (2 ^ (test + 1))).Start] := by
  have hv := rstoneEXP5_UPDATE_VALUE_eq test ht
  simp [RobotMaster.UpdateExp5Tasks, RobotMaster.UpdateExp5Leave, RobotMaster.UpdateExp5Rejoin,
    forEachTask, List.getLast?, forEachAux, RobotTask.LeavePubTopic, ha, hb, hc, hab, hbc, hv,
    RobotTask.ClearMeasurements, sizeMod]

theorem UpdateExp5_slave (tps test : Nat) (ht : test ≤ 30) (fresh : Nat → Option Nat)
    (a b c : RobotTask) (hab : a.id ≠ c.id) (hbc : b.id ≠ c.id)
    (pa pb pc : Subscriber) (ha : a.sub = some pa) (hb : b.sub = some pb)
    (hc : c.sub = some pc) :
    RobotSlave.UpdateExp5Tasks tps fresh test [a, b, c] =
      some [((a.ClearMeasurements tps).SubscribingRequest (fresh 0) 2 (2 ^ (test + 1))).Start,
        ((b.ClearMeasurements tps).SubscribingRequest (fresh 1) 3 (2 ^ (test + 1))).Start,
        ((c.ClearMeasurements tps).SubscribingRequest (fresh 2) 4 (2 ^ (test + 1))).Start] := by
  have hv := rstoneEXP5_UPDATE_VALUE_eq test ht
  simp [RobotSlave.UpdateExp5Tasks, RobotSlave.UpdateExp5Leave, RobotSlave.UpdateExp5Rejoin,
    forEachTask, List.getLast?, forEachAux, RobotTask.LeaveSubTopic, ha, hb, hc, hab, hbc, hv,
    RobotTask.ClearMeasurements, sizeMod]

/-- The tasks that `RobotSlave::SetExperimentBaseline` creates for the workloads of the
target. -/
theorem slaveBaseline_some (tps : Nat) (heap : Nat → Bool) (fresh : Nat → Option Nat)
    (base : List RobotTask)
    (h : RobotSlave.SetExperimentBaseline [2953, 4135, 6891] tps heap fresh [] = some base) :
    ∃ t0 t1 t2,
      base = [t0.SubscribingRequest (fresh 0) 2 4, t1.SubscribingRequest (fresh 1) 3 4,
        t2.SubscribingRequest (fresh 2) 4 4] ∧
      ((RobotTask.new 1 4 tps).SetKWIPP 2953).SetFrequency (f64OfNat 7) tps = some t0 ∧
      ((RobotTask.new 2 3 tps).SetKWIPP 4135).SetFrequency (f64OfNat 5) tps = some t1 ∧
      ((RobotTask.new 3 2 tps).SetKWIPP 6891).SetFrequency (f64OfNat 3) tps = some t2 := by
  have hrange : List.range baselineNumberExpDist = [0, 1, 2] := by decide
  unfold RobotSlave.SetExperimentBaseline at h
  rw [hrange] at h
  simp only [insertAll] at h
  cases h0 : RobotSlave.baselineTask [2953, 4135, 6891] tps heap fresh 0 with
  | none => rw [h0] at h; simp at h
  | some s0 =>
  cases h1 : RobotSlave.baselineTask [2953, 4135, 6891] tps heap fresh 1 with
  | none => rw [h0, h1] at h; simp at h
  | some s1 =>
  cases h2 : RobotSlave.baselineTask [2953, 4135, 6891] tps heap fresh 2 with
  | none => rw [h0, h1, h2] at h; simp at h
  | some s2 =>
  rw [h0, h1, h2] at h
  simp only [List.nil_append, List.cons_append, Option.some.injEq] at h
  unfold RobotSlave.baselineTask at h0 h1 h2
  by_cases hh0 : heap 0 = false
  · simp [hh0] at h0
  by_cases hh1 : heap 1 = false
  · simp [hh1] at h1
  by_cases hh2 : heap 2 = false
  · simp [hh2] at h2
  simp only [hh0, hh1, hh2, if_false, List.get?, distBaselineFrequency,
    baselinePriorityExpDist, baselineNumberExpDist, baselineMessageSizeExpDist,
    Option.map_eq_some', Bool.true_eq_false, Nat.reduceAdd, Nat.reduceSub] at h0 h1 h2
  obtain ⟨t0, e0, rfl⟩ := h0
  obtain ⟨t1, e1, rfl⟩ := h1
  obtain ⟨t2, e2, rfl⟩ := h2
  exact ⟨t0, t1, t2, h.symm, e0, e1, e2⟩

/-- The method `RobotSlave::UpdateExp7` on a task list with pairwise distinct ids to
which the new id does not belong, when baseline task 2 could be configured. -/
theorem UpdateExp7Tasks_spec (tps : Nat) (t1 : RobotTask)
    (h1 : ((RobotTask.new 2 3 tps).SetKWIPP 4135).SetFrequency (f64OfNat 5) tps = some t1)
    (fresh : Option Nat) (taskId reachLimit : Nat) (tasks : List RobotTask)
    (hids : (tasks.map RobotTask.id ++ [taskId % 2 ^ 8]).Nodup) :
    RobotSlave.UpdateExp7Tasks [2953, 4135, 6891] tps false fresh taskId reachLimit tasks =
      some { tasks := tasks, taskId := taskId, experimentReachLimit := 1, resMsg := 1 } ∧
    ∃ new : RobotTask,
      RobotSlave.UpdateExp7Tasks [2953, 4135, 6891] tps true fresh taskId reachLimit tasks =
        some { tasks := (tasks ++ [new]).map fun t => (t.ClearMeasurements tps).Start,
               taskId := wrapAdd sizeMod taskId 1, experimentReachLimit := reachLimit,
               resMsg := 0 } ∧
      new.parameters = (taskId % 2 ^ 8, 3, 4135, f64OfNat 5, t1.periodSec, t1.period) ∧
      new.sub = Communic.SubscribingRequest fresh 3 4 ∧ new.pub = none := by
  refine ⟨by simp [RobotSlave.UpdateExp7Tasks], ?_⟩
  have hnew := (SetFrequency_some _ _ _ _ h1).2
    ((RobotTask.new taskId (baselinePriorityExpDist + 1) tps).SetKWIPP 4135)
  generalize hu : (RobotTask.new taskId (baselinePriorityExpDist + 1) tps).SetKWIPP 4135 = u
    at hnew
  have hpu : u.parameters = (taskId % 2 ^ 8, 3, 4135, 0, 0, 0) := by
    rw [← hu]
    simp [RobotTask.parameters, RobotTask.new, RobotTask.SetKWIPP,
      baselinePriorityExpDist, uint32Mod]
  have hup : u.pub = none := by rw [← hu]; rfl
  generalize hv : some _ = v at hnew
  cases v with
  | none => exact absurd hv (by simp)
  | some v =>
    injection hv with hv
    have hpv : v.parameters = (taskId % 2 ^ 8, 3, 4135, f64OfNat 5, t1.periodSec, t1.period) := by
      simp only [RobotTask.parameters, Prod.mk.injEq] at hpu ⊢
      rw [← hv]
      simp [hpu]
    have hvp : v.pub = none := by rw [← hv]; exact hup
    have hnodup : ((tasks ++ [v.SubscribingRequest fresh 3 baselineMessageSizeExpDist]).map
        RobotTask.id).Nodup := by
      have : (v.SubscribingRequest fresh 3 baselineMessageSizeExpDist).id = taskId % 2 ^ 8 :=
        congrArg Prod.fst hpv
      rw [List.map_append]
      simpa [this] using hids
    refine ⟨v.SubscribingRequest fresh 3 baselineMessageSizeExpDist, ?_, hpv, rfl, hvp⟩
    simp only [RobotSlave.UpdateExp7Tasks, List.get?, distBaselineFrequency, hu, hnew,
      restartTasks_eq tps _ hnodup, Option.map, Bool.true_eq_false, if_false]

/-- The workloads of the baseline tasks for the raw speed of the target. -/
theorem baseline_workloads :
    uniBaselineWorkload RAW_SPEED = some [196, 413, 886, 1240, 2067] ∧
    distBaselineWorkload RAW_SPEED = some [2953, 4135, 6891] := by
  decide

set_option maxRecDepth 1000000 in
set_option maxHeartbeats 4000000 in
/-- The `double` product of `UpdateExp1` and `UpdateExp4`, truncated, is the integer
part of `baseline * (1 + test / 10)` for the baseline workloads of the target and the
first hundred test numbers. -/
theorem scaledWorkload_baseline :
    ∀ b ∈ [196, 413, 886, 1240, 2067, 2953, 4135, 6891], ∀ t, t < 101 →
      scaledWorkload b t = some (b * (10 + t) / 10) := by
  decide

/-- A `double` converted to `size_t` fits the `uint32_t` field `workload`. -/
theorem scaledWorkload_lt (b test w : Nat) (h : scaledWorkload b test = some w) :
    w % uint32Mod = w := by
  unfold scaledWorkload f64ToUInt floatToUInt at h
  split at h
  · rename_i hlt
    injection h with h
    subst h
    exact Nat.mod_eq_of_lt hlt
  · exact absurd h (by simp)

/-- The loop of `UpdateExp1` on five tasks with pairwise distinct ids, for a test number
whose scaled workloads fit `size_t`. -/
theorem updateWorkloads_five (tps test : Nat) (ws : List Nat) (ts : List RobotTask)
    (h5 : ts.length = 5) (hid : (ts.map RobotTask.id).Nodup)
    (hw : [196, 413, 886, 1240, 2067].map (scaledWorkload · test) = ws.map some) :
    updateWorkloads [196, 413, 886, 1240, 2067] tps test ts =
      some (List.zipWith (fun w t => ((t.SetKWIPP w).ClearMeasurements tps).Start) ws ts) := by
  have hl : ws.length = 5 := by
    have := congrArg List.length hw
    simpa using this.symm
  match ts, h5 with
  | [a, b, c, d, e], _ =>
    match ws, hl, hw with
    | [w0, w1, w2, w3, w4], _, hw =>
      simp only [List.map, List.cons.injEq, and_true] at hw
      obtain ⟨s0, s1, s2, s3, s4⟩ := hw
      simp only [List.map, List.nodup_cons, List.mem_cons, List.mem_singleton, not_or,
        List.not_mem_nil, not_false_eq_true, List.nodup_nil, and_true] at hid
      obtain ⟨⟨h1, h2, h3, h4⟩, ⟨h5, h6, h7⟩, ⟨h8, h9⟩, h10⟩ := hid
      simp only [updateWorkloads, forEachTask, List.getLast?, List.getLast, forEachAux,
        List.get?, s0, s1, s2, s3, s4, Option.map, h4, h7, h9, h10, if_false, if_true,
        List.zipWith]

theorem UpdateExperiment_pd (test : Nat) (m : RobotMaster) (h : m.actualExp = 1) :
    m.UpdateExperiment test = .ret (m.log [.updateTasks test]) := by
  unfold RobotMaster.UpdateExperiment
  rw [h]
  rfl

/-- One iteration of the loop of the PD experiments in experiment 1. -/
theorem StartUniExperiment_succ (env : MasterEnv) (tps fuel test : Nat) (m : RobotMaster)
    (h : m.actualExp = 1) :
    RobotMaster.StartUniExperiment env tps (fuel + 1) test m =
      if wrapAdd sizeMod (CalculateDeadlineMiss (env.tasksAfter test)) m.actualSlaveDeadlines ≠ 0 ∨
          m.experimentReachLimit ≠ 0 then
        .ret ((((m.log [.delay ((tps * 3) % timeCountMod), .signalizeBroad, .setInitialTime,
          .delay testPeriod, .setStopCond 1, .delay tps, .joinTasks,
          .setStopCond 0]).setActualDeadlineMiss
            (CalculateDeadlineMiss (env.tasksAfter test))).log [.printReport test]).log
              [.print "Experiment finished!!!\n"], some test)
      else
        RobotMaster.StartUniExperiment env tps fuel (wrapAdd sizeMod test 1)
          ((((m.log [.delay ((tps * 3) % timeCountMod), .signalizeBroad, .setInitialTime,
            .delay testPeriod, .setStopCond 1, .delay tps, .joinTasks,
            .setStopCond 0]).setActualDeadlineMiss
              (CalculateDeadlineMiss (env.tasksAfter test))).log [.printReport test]).log
                [.updateTasks (wrapAdd sizeMod test 1)]) := by
  rw [RobotMaster.StartUniExperiment]
  simp only [RobotMaster.ExperimentDeadlineMiss, RobotMaster.log_actualDeadlineMiss,
    RobotMaster.log_actualSlaveDeadlines, RobotMaster.log_experimentReachLimit,
    RobotMaster.setActualDeadlineMiss_actualDeadlineMiss,
    RobotMaster.setActualDeadlineMiss_actualSlaveDeadlines,
    RobotMaster.setActualDeadlineMiss_experimentReachLimit, Hs.pure_eq, Hs.bind_eq]
  split
  · rfl
  · rw [UpdateExperiment_pd _ _ (by simpa using h)]
    rfl

/-- The two `UpdateExp7` run jointly: both return, and both reach-limit flags are set
exactly when the Slave cannot allocate. -/
theorem joint_UpdateExp7 (envS : SlaveEnv) (test : Nat) (m : RobotMaster) (s : RobotSlave) :
    ∃ m2 s2,
      Hs.ends (m.UpdateExp7 test) (s.UpdateExp7 envS test) = (.returned m2, .returned s2) ∧
      m2.experimentReachLimit =
        (if envS.allocFails test = true then 1 else m.experimentReachLimit) ∧
      s2.experimentReachLimit =
        (if envS.allocFails test = true then 1 else s.experimentReachLimit) := by
  by_cases ha : envS.allocFails test = true
  · refine ⟨((m.setExperimentReachLimit 1).log
        [.print "\n\nExperiment reach limit: Impossible create more receivers tasks!!!\n\n"]).log
        [.print "Experiment finished!!!\n", .print "Experiment deadlines: %d.\n!!!\n"],
      ((s.setExperimentReachLimit 1).log
        [.print "\n\nExperiment reach limit: Impossible create more tasks!!!\n\n"]).log
        [.print "Experiment finished!!!\n"], ?_, by simp [ha], by simp [ha]⟩
    simp only [RobotMaster.UpdateExp7, RobotSlave.UpdateExp7, handshakeSend, handshakeReceive,
      ha, Hs.bind_eq, Hs.pure_eq, Hs.bind_ret, Hs.bind_send, Hs.bind_receive,
      Hs.ends_send_receive, Hs.ends_receive_send, if_true]
    norm_num [Hs.bind_send, Hs.bind_ret, Hs.bind_receive, Hs.ends_send_receive,
      Hs.ends_receive_send, Hs.ends_ret_ret]
  · refine ⟨m.log [.updateTasks test], s.log [.updateTasks test], ?_, by simp [ha],
      by simp [ha]⟩
    simp only [RobotMaster.UpdateExp7, RobotSlave.UpdateExp7, handshakeSend, handshakeReceive,
      ha, Hs.bind_eq, Hs.pure_eq, Hs.bind_ret, Hs.bind_send, Hs.bind_receive,
      Hs.ends_send_receive, Hs.ends_receive_send]
    norm_num [Hs.bind_send, Hs.bind_ret, Hs.bind_receive, Hs.ends_send_receive,
      Hs.ends_receive_send, Hs.ends_ret_ret]

/-! ## Lemmas on double precision rounding -/

/-- One step of the greedy search keeps the bracket of `n`. -/
theorem f64ShiftAux_spec (n : Nat) :
    ∀ (j e : Nat), (e = 0 ∨ 2 ^ (52 + e) ≤ n) → n < 2 ^ (52 + e + 2 ^ (j + 1)) →
      (f64ShiftAux n ((List.range (j + 1)).reverse.map fun i => 2 ^ i) e = 0 ∨
        2 ^ (52 + f64ShiftAux n ((List.range (j + 1)).reverse.map fun i => 2 ^ i) e) ≤ n) ∧
      n < 2 ^ (53 + f64ShiftAux n ((List.range (j + 1)).reverse.map fun i => 2 ^ i) e) := by
  intro j
  induction j with
  | zero =>
    intro e hlo hhi
    have hl : ((List.range (0 + 1)).reverse.map fun i => 2 ^ i) = [1] := rfl
    rw [hl]
    simp only [f64ShiftAux]
    split
    · rename_i h
      refine ⟨Or.inr h, ?_⟩
      have : 52 + e + 2 ^ (0 + 1) = 53 + (e + 1) := by norm_num; omega
      rw [this] at hhi
      exact hhi
    · rename_i h
      refine ⟨hlo, ?_⟩
      have : 53 + e = 52 + e + 1 := by omega
      rw [this]
      exact Nat.lt_of_not_le h
  | succ j ih =>
    intro e hlo hhi
    rw [List.range_succ, List.reverse_append, List.reverse_singleton, List.singleton_append,
      List.map_cons]
    simp only [f64ShiftAux]
    split
    · rename_i h
      apply ih (e + 2 ^ (j + 1)) (Or.inr (by rw [← Nat.add_assoc]; exact h))
      have : 52 + (e + 2 ^ (j + 1)) + 2 ^ (j + 1) = 52 + e + 2 ^ (j + 1 + 1) := by
        rw [pow_succ 2 (j + 1)]; omega
      rw [this]
      exact hhi
    · rename_i h
      exact ih e hlo (by omega)

/-- The exponent found by `f64Shift` brackets `n`. -/
theorem f64Shift_spec (n : Nat) (hn : n < 2 ^ 4148) :
    (f64Shift n = 0 ∨ 2 ^ (52 + f64Shift n) ≤ n) ∧ n < 2 ^ (53 + f64Shift n) := by
  have hl : [2048, 1024, 512, 256, 128, 64, 32, 16, 8, 4, 2, 1] =
      (List.range (11 + 1)).reverse.map fun i => 2 ^ i := by decide
  unfold f64Shift
  rw [hl]
  have he : 52 + 0 + 2 ^ (11 + 1) = 4148 := by norm_num
  exact f64ShiftAux_spec n 11 0 (Or.inl rfl) (by rw [he]; exact hn)

/-- The rounded value is a multiple of the unit in the last place and lies within
half a unit of `p / q`. -/
theorem f64Round_near (p q : Nat) (hq : 0 < q) :
    2 ^ f64Shift (p / q) ∣ f64Round p q ∧
    2 * (q * f64Round p q) ≤ 2 * p + q * 2 ^ f64Shift (p / q) ∧
    2 * p ≤ 2 * (q * f64Round p q) + q * 2 ^ f64Shift (p / q) := by
  unfold f64Round
  generalize f64Shift (p / q) = e
  dsimp only
  have hd : 0 < q * 2 ^ e := Nat.mul_pos hq (Nat.two_pow_pos e)
  have hdm := Nat.div_add_mod p (q * 2 ^ e)
  have hr := Nat.mod_lt p hd
  generalize p / (q * 2 ^ e) = m at hdm ⊢
  generalize p % (q * 2 ^ e) = r at hdm hr ⊢
  have e1 : q * (m * 2 ^ e) = q * 2 ^ e * m := by ring
  have e2 : q * ((m + 1) * 2 ^ e) = q * 2 ^ e * m + q * 2 ^ e := by ring
  generalize q * 2 ^ e * m = dm at hdm e1 e2
  generalize q * 2 ^ e = d at hd hr e1 e2 ⊢
  split
  · exact ⟨Dvd.intro_left m rfl, by rw [e1]; omega, by rw [e1]; omega⟩
  · split
    · exact ⟨Dvd.intro_left (m + 1) rfl, by rw [e2]; omega, by rw [e2]; omega⟩
    · split
      · exact ⟨Dvd.intro_left m rfl, by rw [e1]; omega, by rw [e1]; omega⟩
      · exact ⟨Dvd.intro_left (m + 1) rfl, by rw [e2]; omega, by rw [e2]; omega⟩

/-- A value whose unit in the last place divides it is not changed by rounding. -/
theorem f64Round_exact (q v : Nat) (hq : 0 < q) (hv : 2 ^ f64Shift v ∣ v) :
    f64Round (q * v) q = v := by
  unfold f64Round
  rw [Nat.mul_div_cancel_left v hq]
  generalize f64Shift v = e at hv
  obtain ⟨w, rfl⟩ := hv
  have hd : 0 < q * 2 ^ e := Nat.mul_pos hq (Nat.two_pow_pos e)
  have h1 : q * (2 ^ e * w) = q * 2 ^ e * w := by ring
  have hm : q * (2 ^ e * w) / (q * 2 ^ e) = w := by
    rw [h1]; exact Nat.mul_div_cancel_left w hd
  have hr : q * (2 ^ e * w) % (q * 2 ^ e) = 0 := by
    rw [h1]; exact Nat.mul_mod_right _ _
  dsimp only
  rw [hm, hr, if_pos (by omega)]
  ring

/-- A value with a significand below `2^53` is a multiple of its unit in the last
place. -/
theorem f64Shift_dvd (M E : Nat) (hM : M < 2 ^ 53) (hE : E ≤ 4000) :
    2 ^ f64Shift (M * 2 ^ E) ∣ M * 2 ^ E := by
  have hlt : M * 2 ^ E < 2 ^ 4148 := by
    calc M * 2 ^ E < 2 ^ 53 * 2 ^ E := Nat.mul_lt_mul_of_pos_right hM (Nat.two_pow_pos E)
      _ = 2 ^ (53 + E) := by rw [← Nat.pow_add]
      _ ≤ 2 ^ 4148 := Nat.pow_le_pow_right (by norm_num) (by omega)
  obtain ⟨hlo, hhi⟩ := f64Shift_spec (M * 2 ^ E) hlt
  rcases hlo with h0 | hlo
  · rw [h0]; exact one_dvd _
  · have h1 : 2 ^ (52 + f64Shift (M * 2 ^ E)) < 2 ^ (53 + E) := by
      calc 2 ^ (52 + f64Shift (M * 2 ^ E)) ≤ M * 2 ^ E := hlo
        _ < 2 ^ 53 * 2 ^ E := Nat.mul_lt_mul_of_pos_right hM (Nat.two_pow_pos E)
        _ = 2 ^ (53 + E) := by rw [← Nat.pow_add]
    have h2 : 52 + f64Shift (M * 2 ^ E) < 53 + E := (Nat.pow_lt_pow_iff_right (by norm_num)).mp h1
    exact Dvd.dvd.mul_left (Nat.pow_dvd_pow 2 (by omega)) M

/-- Integers below `2^53` are `double` values. -/
theorem f64OfNat_exact (m : Nat) (hm : m < 2 ^ 53) : f64OfNat m = m * f64Unit := by
  unfold f64OfNat f64Unit
  have h := f64Round_exact 1 (m * 2 ^ 1074) (by norm_num) (f64Shift_dvd m 1074 hm (by norm_num))
  rw [Nat.one_mul] at h
  exact h

/-- The literal `0.15` as a `double`. -/
theorem f64Lit_015 : f64Lit 15 100 = 5404319552844595 * 2 ^ 1019 := by
  decide

/-- The bracket of a value in terms of its unit in the last place. -/
theorem f64Shift_unit (x : Nat) (hx : x < 2 ^ 4148) :
    (2 ^ f64Shift x = 1 ∨ 2 ^ 52 * 2 ^ f64Shift x ≤ x) ∧ x < 2 ^ 53 * 2 ^ f64Shift x := by
  obtain ⟨hlo, hhi⟩ := f64Shift_spec x hx
  rw [Nat.pow_add] at hhi
  refine ⟨?_, hhi⟩
  rcases hlo with h | h
  · left; rw [h]; rfl
  · right; rw [← Nat.pow_add]; exact h

/-- The product `rawSpeed * 0.15` in `double`: it is a multiple of its unit in the last
place `E` and within half of `E` of the exact product with the literal. -/
theorem rawSpeed_mul_facts (rs : Nat) :
    2 ^ f64Shift (5404319552844595 * (rs * 2 ^ 1019)) ∣
      f64Mul (rs * f64Unit) (5404319552844595 * 2 ^ 1019) ∧
    2 * f64Mul (rs * f64Unit) (5404319552844595 * 2 ^ 1019) ≤
      2 * (5404319552844595 * (rs * 2 ^ 1019)) +
        2 ^ f64Shift (5404319552844595 * (rs * 2 ^ 1019)) ∧
    2 * (5404319552844595 * (rs * 2 ^ 1019)) ≤
      2 * f64Mul (rs * f64Unit) (5404319552844595 * 2 ^ 1019) +
        2 ^ f64Shift (5404319552844595 * (rs * 2 ^ 1019)) := by
  have hU : 0 < f64Unit := Nat.two_pow_pos 1074
  have hp : rs * f64Unit * (5404319552844595 * 2 ^ 1019) =
      f64Unit * (5404319552844595 * (rs * 2 ^ 1019)) := by ring
  unfold f64Mul
  rw [hp]
  have h := f64Round_near (f64Unit * (5404319552844595 * (rs * 2 ^ 1019))) f64Unit hU
  rw [Nat.mul_div_cancel_left _ hU] at h
  obtain ⟨h1, h2, h3⟩ := h
  refine ⟨h1, ?_, ?_⟩
  · apply Nat.le_of_mul_le_mul_left _ hU
    calc f64Unit * (2 * f64Round (f64Unit * (5404319552844595 * (rs * 2 ^ 1019))) f64Unit)
        = 2 * (f64Unit * f64Round (f64Unit * (5404319552844595 * (rs * 2 ^ 1019))) f64Unit) := by
          ring
      _ ≤ _ := h2
      _ = _ := by ring
  · apply Nat.le_of_mul_le_mul_left _ hU
    calc f64Unit * (2 * (5404319552844595 * (rs * 2 ^ 1019)))
        = 2 * (f64Unit * (5404319552844595 * (rs * 2 ^ 1019))) := by ring
      _ ≤ _ := h3
      _ = _ := by ring

/-- The quotient of a `double` by a small integer: it is within half a unit in the last
place of the exact quotient. -/
theorem f64Div_facts (a n : Nat) (hn : 0 < n) :
    2 * (n * f64Round (a * f64Unit) (n * f64Unit)) ≤ 2 * a + n * 2 ^ f64Shift (a / n) ∧
    2 * a ≤ 2 * (n * f64Round (a * f64Unit) (n * f64Unit)) + n * 2 ^ f64Shift (a / n) := by
  have hU : 0 < f64Unit := Nat.two_pow_pos 1074
  have h := f64Round_near (a * f64Unit) (n * f64Unit) (Nat.mul_pos hn hU)
  rw [Nat.mul_div_mul_right a n hU] at h
  obtain ⟨_, h2, h3⟩ := h
  constructor
  · apply Nat.le_of_mul_le_mul_left _ hU
    calc f64Unit * (2 * (n * f64Round (a * f64Unit) (n * f64Unit)))
        = 2 * (n * f64Unit * f64Round (a * f64Unit) (n * f64Unit)) := by ring
      _ ≤ _ := h2
      _ = _ := by ring
  · apply Nat.le_of_mul_le_mul_left _ hU
    calc f64Unit * (2 * a) = 2 * (a * f64Unit) := by ring
      _ ≤ _ := h3
      _ = _ := by ring

/-- Two multiples of `E` less than `E` apart are equal. -/
theorem eq_of_dvd_of_close (E a X : Nat) (ha : E ∣ a) (hX : E ∣ X) (h1 : a < X + E)
    (h2 : X < a + E) : a = X := by
  obtain ⟨α, rfl⟩ := ha
  obtain ⟨β, rfl⟩ := hX
  have hE : 0 < E := by
    rcases Nat.eq_zero_or_pos E with h | h
    · subst h; simp at h1
    · exact h
  have h3 : E * α < E * (β + 1) := by rw [Nat.mul_add, Nat.mul_one]; exact h1
  have h4 : E * β < E * (α + 1) := by rw [Nat.mul_add, Nat.mul_one]; exact h2
  have h5 := Nat.lt_of_mul_lt_mul_left h3
  have h6 := Nat.lt_of_mul_lt_mul_left h4
  have : α = β := by omega
  rw [this]

/-- The local `baselineTaskKWIPS` of the constructors is the integer part of
`0.15 * rawSpeed / n` for every raw speed below `2^37` and `n` equal to `3` or `5`. -/
theorem baselineTaskKWIPS_eq (rs n : Nat) (hrs : rs < 2 ^ 37) (hn : n = 3 ∨ n = 5) :
    baselineTaskKWIPS rs n = some (3 * rs / (20 * n)) := by
  have hUpos : 0 < f64Unit := Nat.two_pow_pos 1074
  have hU : f64Unit = 2 ^ 55 * 2 ^ 1019 := by unfold f64Unit; rw [← Nat.pow_add]
  have hn0 : 0 < n := by omega
  have hn53 : n < 2 ^ 53 := by rcases hn with rfl | rfl <;> norm_num
  have hK53 : 3 * rs / (20 * n) < 2 ^ 53 := by
    apply Nat.div_lt_of_lt_mul
    rcases hn with rfl | rfl <;> omega
  have hK64 : 3 * rs / (20 * n) < timeCountMod := by
    unfold timeCountMod
    exact Nat.lt_of_lt_of_le hK53 (by norm_num)
  -- the value computed
  suffices hb : f64Round (f64Mul (rs * f64Unit) (5404319552844595 * 2 ^ 1019) * f64Unit)
      (n * f64Unit) / f64Unit = 3 * rs / (20 * n) by
    unfold baselineTaskKWIPS f64Div f64ToUInt floatToUInt
    rw [f64OfNat_exact rs (Nat.lt_of_lt_of_le hrs (by norm_num)), f64Lit_015,
      f64OfNat_exact n hn53, if_neg (Nat.pos_iff_ne_zero.mp (Nat.mul_pos hn0 hUpos))]
    dsimp only
    rw [hb, if_pos hK64]
  obtain ⟨hEa, ha1, ha2⟩ := rawSpeed_mul_facts rs
  obtain ⟨hb1, hb2⟩ := f64Div_facts (f64Mul (rs * f64Unit) (5404319552844595 * 2 ^ 1019)) n hn0
  generalize f64Mul (rs * f64Unit) (5404319552844595 * 2 ^ 1019) = a at hEa ha1 ha2 hb1 hb2 ⊢
  -- magnitudes
  have hW : 1024 ≤ 2 ^ 1019 := by
    calc 1024 = 2 ^ 10 := by norm_num
      _ ≤ 2 ^ 1019 := Nat.pow_le_pow_right (by norm_num) (by norm_num)
  have hT : rs * 2 ^ 1019 < 2 ^ 37 * 2 ^ 1019 :=
    Nat.mul_lt_mul_of_pos_right hrs (Nat.two_pow_pos 1019)
  have hx : 5404319552844595 * (rs * 2 ^ 1019) < 2 ^ 4148 := by
    calc 5404319552844595 * (rs * 2 ^ 1019) < 2 ^ 53 * (2 ^ 37 * 2 ^ 1019) :=
          Nat.mul_lt_mul'' (by norm_num) hT
      _ = 2 ^ 1109 := by rw [← Nat.pow_add, ← Nat.pow_add]
      _ ≤ 2 ^ 4148 := Nat.pow_le_pow_right (by norm_num) (by norm_num)
  have hx1109 : 5404319552844595 * (rs * 2 ^ 1019) < 2 ^ 1109 := by
    calc 5404319552844595 * (rs * 2 ^ 1019) < 2 ^ 53 * (2 ^ 37 * 2 ^ 1019) :=
          Nat.mul_lt_mul'' (by norm_num) hT
      _ = 2 ^ 1109 := by rw [← Nat.pow_add, ← Nat.pow_add]
  obtain ⟨hE1, hE2⟩ := f64Shift_unit _ hx
  have ha1111 : a < 2 ^ 1111 := by
    have h4 : 2 ^ 1111 = 4 * 2 ^ 1109 := by
      rw [show 1111 = 2 + 1109 from rfl, Nat.pow_add]
    rw [h4]
    generalize 2 ^ 1109 = Z at hx1109
    generalize 2 ^ f64Shift (5404319552844595 * (rs * 2 ^ 1019)) = E at ha1 hE1
    generalize rs * 2 ^ 1019 = T at hx1109 ha1 hE1
    omega
  have han : a / n < 2 ^ 4148 :=
    Nat.lt_of_le_of_lt (Nat.div_le_self a n)
      (Nat.lt_of_lt_of_le ha1111 (Nat.pow_le_pow_right (by norm_num) (by norm_num)))
  obtain ⟨hF1, _⟩ := f64Shift_unit _ han
  have hF : 2 ^ f64Shift (a / n) = 1 ∨ n * (2 ^ 52 * 2 ^ f64Shift (a / n)) ≤ a := by
    rcases hF1 with h | h
    · exact Or.inl h
    · right
      rw [Nat.mul_comm]
      exact (Nat.le_div_iff_mul_le hn0).mp h
  -- quotient and remainder of the exact value
  have hdm := Nat.div_add_mod (3 * rs) (20 * n)
  have hρ := Nat.mod_lt (3 * rs) (show 0 < 20 * n by omega)
  generalize hK : 3 * rs / (20 * n) = K at hdm hK53 ⊢
  generalize 3 * rs % (20 * n) = ρ at hdm hρ
  have hUK : K * f64Unit = 2 ^ 55 * (K * 2 ^ 1019) := by rw [hU]; ring
  have hUK1 : (K + 1) * f64Unit = 2 ^ 55 * (K * 2 ^ 1019) + 2 ^ 55 * 2 ^ 1019 := by
    rw [hU]; ring
  have h3T : 3 * (rs * 2 ^ 1019) = 20 * n * (K * 2 ^ 1019) + ρ * 2 ^ 1019 := by
    calc 3 * (rs * 2 ^ 1019) = (3 * rs) * 2 ^ 1019 := by ring
      _ = (20 * n * K + ρ) * 2 ^ 1019 := by rw [hdm]
      _ = _ := by ring
  by_cases hz : ρ = 0
  · -- the exact value is an integer: both roundings are exact
    subst hz
    rw [Nat.zero_mul, Nat.add_zero] at h3T
    have hclose : a < n * (2 ^ 55 * (K * 2 ^ 1019)) +
          2 ^ f64Shift (5404319552844595 * (rs * 2 ^ 1019)) ∧
        n * (2 ^ 55 * (K * 2 ^ 1019)) <
          a + 2 ^ f64Shift (5404319552844595 * (rs * 2 ^ 1019)) ∧
        5404319552844595 * (rs * 2 ^ 1019) ≤ n * (2 ^ 55 * (K * 2 ^ 1019)) := by
      generalize 2 ^ f64Shift (5404319552844595 * (rs * 2 ^ 1019)) = E at ha1 ha2 hE2
      generalize rs * 2 ^ 1019 = T at ha1 ha2 hE2 h3T
      generalize K * 2 ^ 1019 = S at h3T
      rcases hn with rfl | rfl <;> omega
    obtain ⟨hc1, hc2, hc3⟩ := hclose
    have hnK : n * K < 2 ^ 53 := by
      have : n * K ≤ 3 * rs := by
        have := Nat.div_mul_le_self (3 * rs) (20 * n)
        rw [hK] at this
        nlinarith
      omega
    have hXeq : n * (2 ^ 55 * (K * 2 ^ 1019)) = n * K * 2 ^ 1074 := by
      rw [show (1074 : Nat) = 55 + 1019 from rfl, Nat.pow_add]; ring
    have hXlt : n * (2 ^ 55 * (K * 2 ^ 1019)) < 2 ^ (53 + 1074) := by
      rw [hXeq, Nat.pow_add]
      exact Nat.mul_lt_mul_of_pos_right hnK (Nat.two_pow_pos 1074)
    have hEX : 2 ^ f64Shift (5404319552844595 * (rs * 2 ^ 1019)) ∣
        n * (2 ^ 55 * (K * 2 ^ 1019)) := by
      rcases (f64Shift_spec _ hx).1 with h | h
      · rw [h]; exact one_dvd _
      · have hlt := Nat.lt_of_le_of_lt (Nat.le_trans h hc3) hXlt
        have he := (Nat.pow_lt_pow_iff_right (by norm_num)).mp hlt
        rw [hXeq]
        exact Dvd.dvd.mul_left (Nat.pow_dvd_pow 2 (by omega)) (n * K)
    have haX : a = n * (2 ^ 55 * (K * 2 ^ 1019)) :=
      eq_of_dvd_of_close _ a _ hEa hEX hc1 hc2
    have haU : a * f64Unit = n * f64Unit * (K * f64Unit) := by
      rw [haX, hU]; ring
    rw [haU, f64Round_exact (n * f64Unit) (K * f64Unit) (Nat.mul_pos hn0 hUpos)
      (by unfold f64Unit; exact f64Shift_dvd K 1074 hK53 (by norm_num))]
    exact Nat.mul_div_cancel K hUpos
  · -- otherwise the exact value is far from the integers around it
    have hP1 : 2 ^ 1019 ≤ ρ * 2 ^ 1019 := Nat.le_mul_of_pos_left _ (Nat.pos_of_ne_zero hz)
    have hP2 : ρ * 2 ^ 1019 ≤ (20 * n - 1) * 2 ^ 1019 :=
      Nat.mul_le_mul_right _ (by omega)
    have hbounds : K * f64Unit ≤ f64Round (a * f64Unit) (n * f64Unit) ∧
        f64Round (a * f64Unit) (n * f64Unit) < (K + 1) * f64Unit := by
      rw [hUK, hUK1]
      generalize f64Round (a * f64Unit) (n * f64Unit) = b at hb1 hb2
      generalize 2 ^ f64Shift (5404319552844595 * (rs * 2 ^ 1019)) = E at ha1 ha2 hE1
      generalize 2 ^ f64Shift (a / n) = F at hb1 hb2 hF
      generalize ρ * 2 ^ 1019 = P at h3T hP1 hP2
      generalize rs * 2 ^ 1019 = T at ha1 ha2 hE1 h3T hT
      generalize K * 2 ^ 1019 = S at h3T
      generalize 2 ^ 1019 = W at hW hT hP1 hP2
      rcases hn with rfl | rfl <;> omega
    exact Nat.div_eq_of_lt_le hbounds.1 hbounds.2

/-- The loop of `UpdateExp4` on three tasks with pairwise distinct ids, for a test number
whose scaled workloads fit `size_t`. -/
theorem updateWorkloads_three (tps test : Nat) (ws : List Nat) (ts : List RobotTask)
    (h3 : ts.length = 3) (hid : (ts.map RobotTask.id).Nodup)
    (hw : [2953, 4135, 6891].map (scaledWorkload · test) = ws.map some) :
    updateWorkloads [2953, 4135, 6891] tps test ts =
      some (List.zipWith (fun w t => ((t.SetKWIPP w).ClearMeasurements tps).Start) ws ts) := by
  have hl : ws.length = 3 := by
    have := congrArg List.length hw
    simpa using this.symm
  match ts, h3 with
  | [a, b, c], _ =>
    match ws, hl, hw with
    | [w0, w1, w2], _, hw =>
      simp only [List.map, List.cons.injEq, and_true] at hw
      obtain ⟨s0, s1, s2⟩ := hw
      simp only [List.map, List.nodup_cons, List.mem_cons, List.mem_singleton, not_or,
        List.not_mem_nil, not_false_eq_true, List.nodup_nil, and_true] at hid
      obtain ⟨⟨h1, h2⟩, h3⟩ := hid
      simp only [updateWorkloads, forEachTask, List.getLast?, List.getLast, forEachAux,
        List.get?, s0, s1, s2, Option.map, h2, h3, if_false, if_true, List.zipWith]

/-- What the loop of `UpdateExp1` and `UpdateExp4` leaves, field by field: the workloads
are the scaled baselines whatever they were, every measurement is cleared, every task
is started once more and the other fields are those of the task before. -/
theorem updateWorkloads_fields (baseline : List Nat) (tps test : Nat) (ws : List Nat)
    (ts : List RobotTask) (hlen : ts.length = baseline.length)
    (hw : baseline.map (scaledWorkload · test) = ws.map some) :
    (List.zipWith (fun w t => ((t.SetKWIPP w).ClearMeasurements tps).Start) ws ts).map
        RobotTask.workload = ws ∧
      (List.zipWith (fun w t => ((t.SetKWIPP w).ClearMeasurements tps).Start) ws ts).map
          (fun t => (t.id, t.priority, t.frequency, t.periodSec, t.period)) =
        ts.map (fun t => (t.id, t.priority, t.frequency, t.periodSec, t.period)) ∧
      (List.zipWith (fun w t => ((t.SetKWIPP w).ClearMeasurements tps).Start) ws ts).map
          RobotTask.starts = ts.map (fun t => t.starts + 1) ∧
      ∀ t ∈ List.zipWith (fun w t => ((t.SetKWIPP w).ClearMeasurements tps).Start) ws ts,
        t.deadlineMet = 0 ∧ t.deadlineMiss = 0 ∧ t.deadlineSkip = 0 ∧
          t.responseTime = 0 ∧ t.avgResponseJitter = 0 ∧ t.wcrt = 0 ∧
          t.bcrt = (tps * 100) % timeCountMod := by
  have hl : ws.length = ts.length := by
    have := congrArg List.length hw
    simp only [List.length_map] at this
    omega
  have hlt : ∀ w ∈ ws, w % uint32Mod = w := by
    intro w hwm
    have : some w ∈ baseline.map (scaledWorkload · test) := by
      rw [hw]; exact List.mem_map_of_mem _ hwm
    obtain ⟨b, _, hb⟩ := List.mem_map.1 this
    exact scaledWorkload_lt b test w hb
  clear hw hlen
  induction ws generalizing ts with
  | nil =>
    cases ts with
    | nil => simp
    | cons t ts => simp at hl
  | cons w ws ih =>
    cases ts with
    | nil => simp at hl
    | cons t ts =>
      have hl2 : ws.length = ts.length := by simpa using hl
      obtain ⟨i1, i2, i3, i4⟩ := ih ts hl2 (fun x hx => hlt x (List.mem_cons_of_mem _ hx))
      have hw0 := hlt w (List.mem_cons_self _ _)
      refine ⟨?_, ?_, ?_, ?_⟩
      · simp only [List.zipWith, List.map, i1]
        congr 1
      · simp only [List.zipWith, List.map, i2]
        congr 1
      · simp only [List.zipWith, List.map, i3]
        congr 1
      · intro x hx
        simp only [List.zipWith, List.mem_cons] at hx
        rcases hx with rfl | hx
        · exact ⟨rfl, rfl, rfl, rfl, rfl, rfl, rfl⟩
        · exact i4 x hx

theorem joint_UpdateExp4 (env : SlaveEnv) (test : Nat) (m : RobotMaster) (s : RobotSlave) :
    Hs.ends (m.UpdateExp4 test) (s.UpdateExp4 env test) =
      (.returned (m.log [.updateTasks test]), .returned (s.log [.updateTasks test])) := by
  simp only [RobotMaster.UpdateExp4, RobotSlave.UpdateExp4, handshakeSend, handshakeReceive,
    Hs.bind_eq, Hs.pure_eq, Hs.bind_ret, Hs.bind_send, Hs.bind_receive,
    Hs.ends_send_receive, Hs.ends_receive_send, Hs.ends_ret_ret]

/-- The sample task sets. -/
theorem sample_tasks :
    samplePDTasks.map (fun t => (t.id, t.priority, t.workload, t.period, t.starts)) =
      [(1, 6, 196, 15873015, 1), (2, 5, 413, 33333333, 1), (3, 4, 886, 71428571, 1),
        (4, 3, 1240, 100000000, 1), (5, 2, 2067, 166666666, 1)] ∧
    sampleMasterTasks.map (fun t => (t.id, t.priority, t.workload, t.period, t.pub)) =
      [(1, 4, 2953, 142857142, some ⟨100, 2, 4⟩), (2, 3, 4135, 200000000, some ⟨101, 3, 4⟩),
        (3, 2, 6891, 333333333, some ⟨102, 4, 4⟩)] ∧
    sampleSlaveTasks.map (fun t => (t.id, t.priority, t.workload, t.period, t.sub)) =
      [(1, 4, 2953, 142857142, some ⟨200, 2, 4⟩), (2, 3, 4135, 200000000, some ⟨201, 3, 4⟩),
        (3, 2, 6891, 333333333, some ⟨202, 4, 4⟩)] := by
  refine ⟨by decide, by decide, by decide⟩

/-! ## The iteration of `list.hpp` -/

/-- Appending by `InsertTail` to a list whose `size` is the number of its nodes. -/
theorem DList.foldl_InsertTail {α : Type} (xs : List α) :
    ∀ l : DList α, l.size = l.nodes.length → l.nodes.length + xs.length < sizeMod →
      (xs.foldl DList.InsertTail l).nodes = l.nodes ++ xs ∧
      (xs.foldl DList.InsertTail l).size = l.nodes.length + xs.length ∧
      (xs.foldl DList.InsertTail l).isEnd = l.isEnd ∧
      (xs.foldl DList.InsertTail l).isBegin = l.isBegin := by
  induction xs with
  | nil => intro l hs _; simp [hs]
  | cons x xs ih =>
    intro l hs hlen
    simp only [List.length_cons] at hlen
    have hn : (l.InsertTail x).nodes = l.nodes ++ [x] := by
      unfold DList.InsertTail
      by_cases h0 : l.size = 0
      · have : l.nodes = [] := List.length_eq_zero.mp (hs ▸ h0)
        simp [h0, this]
      · simp [h0]
    have hsz : (l.InsertTail x).size = (l.InsertTail x).nodes.length := by
      rw [hn]
      unfold DList.InsertTail
      simp only [List.length_append, List.length_singleton]
      rw [hs]
      exact wrapAdd_of_lt (by omega)
    have hl : (l.InsertTail x).nodes.length + xs.length < sizeMod := by
      rw [hn]; simp only [List.length_append, List.length_singleton]; omega
    obtain ⟨h1, h2, h3, h4⟩ := ih (l.InsertTail x) hsz hl
    simp only [List.foldl_cons]
    refine ⟨?_, ?_, ?_, ?_⟩
    · rw [h1, hn]; simp
    · rw [h2, hn]
      simp only [List.length_append, List.length_cons, List.length_nil]
      omega
    · rw [h3]; rfl
    · rw [h4]; rfl

/-- The list built from `xs` holds `xs`, and `size` is their number. -/
theorem DList.build_spec {α : Type} (xs : List α) (hlen : xs.length < sizeMod) :
    (DList.build xs).nodes = xs ∧ (DList.build xs).size = xs.length := by
  have h := DList.foldl_InsertTail xs (DList.new : DList α) rfl
    (by simpa [DList.new] using hlen)
  unfold DList.build
  refine ⟨?_, ?_⟩
  · rw [h.1]; rfl
  · rw [h.2.1]; simp [DList.new]

/-- The loop from a node on: when the keys from that node to the tail are pairwise
distinct, the loop passes every value from that node to the tail and ends there. -/
theorem DList.loop_from {α : Type} (key : α → Nat) (pre : List α) (isBegin : Bool) (size : Nat) :
    ∀ (rest : List α) (a : α) (pre' : List α), pre' ++ a :: rest = pre →
      ((a :: rest).map key).Nodup →
      DList.loop key (rest.length + 2)
          { nodes := pre, actual := a :: rest, size := size, isBegin := isBegin,
            isEnd := false } =
        some (a :: rest,
          { nodes := pre, actual := [], size := size, isBegin := isBegin, isEnd := true }) := by
  intro rest
  induction rest with
  | nil =>
    intro a pre' hpre _
    have hlast : pre.getLast? = some a := by rw [← hpre]; simp
    simp [DList.loop, DList.IsEnd, DList.GetValue, DList.increment, hlast]
  | cons b rest ih =>
    intro a pre' hpre hnd
    obtain ⟨tl, htl⟩ : ∃ tl, (b :: rest).getLast? = some tl :=
      ⟨(b :: rest).getLast (List.cons_ne_nil b rest), List.getLast?_eq_getLast _ _⟩
    have hlast : pre.getLast? = (b :: rest).getLast? := by
      rw [← hpre, List.getLast?_append, List.getLast?_cons_cons, htl]
      rfl
    have hmem : tl ∈ b :: rest := List.mem_of_getLast?_eq_some htl
    have hne : key a ≠ key tl := by
      intro he
      have h1 : key a ∉ (b :: rest).map key := (List.nodup_cons.mp hnd).1
      exact h1 (he ▸ List.mem_map_of_mem key hmem)
    have hnd2 : ((b :: rest).map key).Nodup := (List.nodup_cons.mp hnd).2
    have hpre2 : (pre' ++ [a]) ++ b :: rest = pre := by rw [← hpre]; simp
    have hrec := ih b (pre' ++ [a]) hpre2 hnd2
    have hfuel : (b :: rest).length + 2 = (rest.length + 2) + 1 := by simp
    rw [hfuel, DList.loop]
    simp only [DList.IsEnd, DList.GetValue, DList.increment, hlast, htl, hne, List.head?_cons,
      if_false, Bool.false_eq_true]
    rw [hrec]
    rfl

/-- The iteration over a freshly built list with distinct keys passes all its values. -/
theorem DList.loop_build {α : Type} (key : α → Nat) (xs : List α)
    (hkeys : (xs.map key).Nodup) (hlen : xs.length < sizeMod) :
    ∃ l, DList.loop key (xs.length + 1) (DList.build xs).InitIteration = some (xs, l) ∧
      l.IsEnd = true := by
  obtain ⟨hn, hs⟩ := DList.build_spec xs hlen
  cases xs with
  | nil => exact ⟨_, rfl, rfl⟩
  | cons a rest =>
    have hinit : (DList.build (a :: rest)).InitIteration =
        { nodes := a :: rest, actual := a :: rest, size := (DList.build (a :: rest)).size,
          isBegin := (DList.build (a :: rest)).isBegin, isEnd := false } := by
      unfold DList.InitIteration
      rw [hn, hs]
      simp
    rw [hinit]
    exact ⟨_, DList.loop_from key (a :: rest) _ _ rest a [] rfl hkeys, rfl⟩

/-! ## The worst case record -/

/-- An iteration over tasks none of which has the id of the tail before the tail
itself visits them all. -/
theorem visitedAux_all (tl : RobotTask) :
    ∀ ts : List RobotTask, (∀ t ∈ ts, t.id ≠ tl.id) →
      visitedAux tl.id (ts ++ [tl]) = ts ++ [tl] := by
  intro ts
  induction ts with
  | nil => intro _; simp [visitedAux]
  | cons t ts ih =>
    intro h
    have ht : t.id ≠ tl.id := h t (List.mem_cons_self t ts)
    have := ih fun u hu => h u (List.mem_cons_of_mem t hu)
    simp [visitedAux, ht, this]

/-- With pairwise distinct ids an iteration visits the whole list. -/
theorem visited_of_nodup (ts : List RobotTask) (h : (ts.map RobotTask.id).Nodup) :
    visited ts = ts := by
  rcases List.eq_nil_or_concat ts with rfl | ⟨init, tl, rfl⟩
  · rfl
  · rw [List.concat_eq_append] at h ⊢
    have hlast : (init ++ [tl]).getLast? = some tl := by simp
    unfold visited
    rw [hlast]
    apply visitedAux_all
    intro t ht he
    rw [List.map_append, List.nodup_append] at h
    exact h.2.2 (List.mem_map_of_mem RobotTask.id ht) (by simp [he])

/-- A task that reports an average response time was measured on a timer with a
positive period, so `GetWCRT` is defined for it. -/
theorem GetWCRT_of_response (tps r : Nat) (t : RobotTask)
    (hrv : t.GetResponseTime tps = some r) :
    t.GetWCRT tps = some (f64OfNat (t.wcrt / tps)) := by
  have htps : tps ≠ 0 := by
    intro h0
    subst h0
    have h00 : f64OfNat 0 = 0 := by decide
    simp [RobotTask.GetResponseTime, f64Div, h00] at hrv
  unfold RobotTask.GetWCRT
  rw [if_neg htps]

/-- What `worstCaseUpdate` does for a task whose reported average `r` is not zero; `w`
is its reported worst case. -/
theorem worstCaseUpdate_spec (tps test w r : Nat) (ws : worstCaseScenario_t) (t : RobotTask)
    (hw : t.GetWCRT tps = some w) (hrv : t.GetResponseTime tps = some r) (hr0 : r ≠ 0) :
    t.worstRecord tps test =
        some { wcrt := w, averageResp := r, taskID := t.id % 2 ^ 8, test := test % uint32Mod } ∧
      t.worstRatio tps = some (f64Round (w * f64Unit) r) ∧
      worstCaseUpdate tps test ws t =
        some (if ws.averageResp = 0 ∨ ws.ratio < f64Round (w * f64Unit) r then
          { wcrt := w, averageResp := r, taskID := t.id % 2 ^ 8, test := test % uint32Mod }
          else ws) := by
  refine ⟨?_, ?_, ?_⟩
  · unfold RobotTask.worstRecord; rw [hw, hrv]
  · unfold RobotTask.worstRatio; rw [hw, hrv]
  · unfold worstCaseUpdate
    rw [hw, hrv]
    simp only [exceedsWorst, hr0, if_false, decide_eq_true_eq]
    split <;> rfl

/-- The record left by the loop of `GetWorstCase` over tasks that all report a
non-zero average: it is the record it started from or the record of a task whose
quotient exceeds the one it started from; a record that is not empty is never
replaced by one with a smaller quotient; no task passed has a greater quotient. -/
theorem worstCase_fold (tps test : Nat) :
    ∀ (ts : List RobotTask) (ws : worstCaseScenario_t),
      (∀ t ∈ ts, ∃ r, t.GetResponseTime tps = some r ∧ r ≠ 0) →
      ∃ ws', ts.foldlM (worstCaseUpdate tps test) ws = some ws' ∧
        (ws' = ws ∨ ∃ t ∈ ts, t.worstRecord tps test = some ws' ∧
          (ws.averageResp = 0 ∨ ∃ q, t.worstRatio tps = some q ∧ ws.ratio < q)) ∧
        (ws.averageResp ≠ 0 → ws'.averageResp ≠ 0 ∧ ws.ratio ≤ ws'.ratio) ∧
        (ts ≠ [] → ws'.averageResp ≠ 0) ∧
        (∀ t ∈ ts, ∃ q, t.worstRatio tps = some q ∧ q ≤ ws'.ratio) := by
  intro ts
  induction ts with
  | nil =>
    intro ws _
    exact ⟨ws, rfl, Or.inl rfl, fun h => ⟨h, Nat.le_refl _⟩, fun h => absurd rfl h,
      fun t ht => absurd ht (List.not_mem_nil t)⟩
  | cons t ts ih =>
    intro ws hall
    obtain ⟨r, hrv, hr0⟩ := hall t (List.mem_cons_self t ts)
    have hw := GetWCRT_of_response tps r t hrv
    obtain ⟨hrec, hq, hupd⟩ := worstCaseUpdate_spec tps test _ r ws t hw hrv hr0
    have htl : ∀ u ∈ ts, ∃ r, u.GetResponseTime tps = some r ∧ r ≠ 0 :=
      fun u hu => hall u (List.mem_cons_of_mem t hu)
    generalize hqv : f64Round (f64OfNat (t.wcrt / tps) * f64Unit) r = q at hq hupd
    generalize hrc : worstCaseScenario_t.mk (f64OfNat (t.wcrt / tps)) r (t.id % 2 ^ 8)
      (test % uint32Mod) = rec at hrec hupd
    have hrq : rec.ratio = q := by rw [← hrc, ← hqv]; rfl
    have hra : rec.averageResp ≠ 0 := by rw [← hrc]; exact hr0
    rw [List.foldlM_cons, hupd]
    by_cases hc : ws.averageResp = 0 ∨ ws.ratio < q
    · rw [if_pos hc]
      obtain ⟨ws', hf, hA, hB, -, hD⟩ := ih rec htl
      obtain ⟨hB1, hB2⟩ := hB hra
      refine ⟨ws', hf, ?_, ?_, fun _ => hB1, ?_⟩
      · right
        rcases hA with rfl | ⟨u, hu, hur, huq⟩
        · exact ⟨t, List.mem_cons_self t ts, hrec, hc.imp_right fun h => ⟨q, hq, h⟩⟩
        · refine ⟨u, List.mem_cons_of_mem t hu, hur, ?_⟩
          rcases huq with h0 | ⟨qu, hqu, hlt⟩
          · exact absurd h0 hra
          · rcases hc with h0 | hlt0
            · exact Or.inl h0
            · exact Or.inr ⟨qu, hqu, by rw [hrq] at hlt; omega⟩
      · intro hws
        rcases hc with h0 | hlt0
        · exact absurd h0 hws
        · exact ⟨hB1, by rw [hrq] at hB2; omega⟩
      · intro u hu
        rcases List.mem_cons.mp hu with rfl | hu
        · exact ⟨q, hq, by rw [hrq] at hB2; exact hB2⟩
        · exact hD u hu
    · rw [if_neg hc]
      have hws : ws.averageResp ≠ 0 := fun h => hc (Or.inl h)
      have hle : q ≤ ws.ratio := Nat.le_of_not_lt fun h => hc (Or.inr h)
      obtain ⟨ws', hf, hA, hB, -, hD⟩ := ih ws htl
      obtain ⟨hB1, hB2⟩ := hB hws
      refine ⟨ws', hf, ?_, fun _ => ⟨hB1, hB2⟩, fun _ => hB1, ?_⟩
      · rcases hA with rfl | ⟨u, hu, hur, huq⟩
        · exact Or.inl rfl
        · exact Or.inr ⟨u, List.mem_cons_of_mem t hu, hur, huq⟩
      · intro u hu
        rcases List.mem_cons.mp hu with rfl | hu
        · exact ⟨q, hq, Nat.le_trans hle hB2⟩
        · exact hD u hu

/-- On a task list with pairwise distinct ids, the loop of `list.hpp` passes the tasks
that `visited` lists. -/
theorem visited_eq_loop (ts : List RobotTask) (h : (ts.map RobotTask.id).Nodup)
    (hlen : ts.length < sizeMod) :
    ∃ l, DList.loop RobotTask.id (ts.length + 1) (DList.build ts).InitIteration =
      some (visited ts, l) ∧ l.IsEnd = true := by
  rw [visited_of_nodup ts h]
  exact DList.loop_build RobotTask.id ts h hlen

/-! ## The topic table -/

@[simp]
theorem CommState.log_topicsList (st : CommState) (es : List CommEvent) :
    (st.log es).topicsList = st.topicsList := rfl

@[simp]
theorem CommState.log_shared (st : CommState) (es : List CommEvent) :
    (st.log es).shared = st.shared := rfl

@[simp]
theorem CommState.log_trace (st : CommState) (es : List CommEvent) :
    (st.log es).trace = st.trace ++ es := rfl

@[simp]
theorem CommState.setTopic_topicsList (st : CommState) (topic : Nat) (e : Option Topic)
    (i : Nat) : (st.setTopic topic e).topicsList i = if i = topic then e else st.topicsList i :=
  rfl

@[simp]
theorem CommState.setTopic_shared (st : CommState) (topic : Nat) (e : Option Topic) :
    (st.setTopic topic e).shared = st.shared := rfl

@[simp]
theorem CommState.setTopic_trace (st : CommState) (topic : Nat) (e : Option Topic) :
    (st.setTopic topic e).trace = st.trace := rfl

@[simp]
theorem CommState.setShared_topicsList (st : CommState) (id : Nat) (c : Option Nat) :
    (st.setShared id c).topicsList = st.topicsList := rfl

@[simp]
theorem CommState.setShared_shared (st : CommState) (id : Nat) (c : Option Nat) (i : Nat) :
    (st.setShared id c).shared i = if i = id then c else st.shared i := rfl

@[simp]
theorem CommState.setShared_trace (st : CommState) (id : Nat) (c : Option Nat) :
    (st.setShared id c).trace = st.trace := rfl

/-- The first part of a request that goes on: the topic at hand is the entry of the
table, found there or created by the call. -/
theorem openTopic_ready {env : RequestEnv} {topic msgSize : Nat} {st st1 : CommState}
    {flag : Bool} {T : Topic}
    (h : RealTime.Communic.openTopic env topic msgSize st = some (.ready flag T st1)) :
    st1.topicsList topic = some T ∧ (∀ i, i ≠ topic → st1.topicsList i = st.topicsList i) ∧
    (∀ i, i ≠ T.topicID → st1.shared i = st.shared i) ∧
    ((st.topicsList topic = some T ∧ flag = false ∧ st1.shared T.topicID = st.shared T.topicID ∧
        st1.trace = st.trace) ∨
     (st.topicsList topic = none ∧ flag = true ∧ T = Topic.new topic (msgSize % sizeMod) ∧
        st1.shared T.topicID = some ((st.shared T.topicID).getD 0) ∧
        st1.trace = st.trace ++ [.topicNew topic (msgSize % sizeMod),
          if (st.shared T.topicID).isSome = true then .topicBind T.topicID
          else .topicCreate T.topicID, .taskStart T.topicID])) := by
  unfold RealTime.Communic.openTopic at h
  cases ht : st.topicsList topic with
  | some T0 =>
    rw [ht] at h
    simp only [Option.some.injEq, Opened.ready.injEq] at h
    obtain ⟨rfl, rfl, rfl⟩ := h
    exact ⟨ht, fun _ _ => rfl, fun _ _ => rfl, Or.inl ⟨rfl, rfl, rfl, rfl⟩⟩
  | none =>
    rw [ht] at h
    by_cases ha : env.topicAlloc = false
    · simp [ha] at h
    · simp only [ha, if_false] at h
      unfold Topic.Init at h
      by_cases hi : env.topicInit = false
      · simp [hi] at h
      · simp only [hi, if_false] at h
        cases hsh : st.shared (Topic.new topic (msgSize % sizeMod)).topicID with
        | none =>
          simp only [CommState.log_shared, hsh, Option.some.injEq, Opened.ready.injEq] at h
          obtain ⟨rfl, rfl, rfl⟩ := h
          refine ⟨by simp, fun i hi => by simp [hi], fun i hi => by simp [hi], Or.inr ?_⟩
          refine ⟨rfl, rfl, rfl, by simp [hsh], by simp [hsh]⟩
        | some c =>
          simp only [CommState.log_shared, hsh, Option.some.injEq, Opened.ready.injEq] at h
          obtain ⟨rfl, rfl, rfl⟩ := h
          refine ⟨by simp, fun i hi => by simp [hi], fun i hi => by simp, Or.inr ?_⟩
          refine ⟨rfl, rfl, rfl, by simp [hsh], by simp [hsh]⟩

/-- A subscribing request that returns a handle: the handle carries the topic and the
message size of the request, and the topic at hand, found in the table or created by
the call, gains the handle while the shared counter of the topic goes up by one. -/
theorem SubscribingRequest_spec {env : RequestEnv} {topic msgSize : Nat}
    {st st' : CommState} {h : Subscriber}
    (hs : RealTime.Communic.SubscribingRequest env topic msgSize st = some (st', some h)) :
    topic < MAX_TOPICS ∧ h.topic = topic ∧ h.messageSize = msgSize % sizeMod ∧
    ∃ T c,
      ((st.topicsList topic = some T ∧ st.shared T.topicID = some c ∧
          st'.trace = st.trace ++ [.mutexAcquire, .mutexRelease]) ∨
       (st.topicsList topic = none ∧ T = Topic.new topic (msgSize % sizeMod) ∧
          c = (st.shared T.topicID).getD 0 ∧
          st'.trace = st.trace ++ [.mutexAcquire, .topicNew topic (msgSize % sizeMod),
            if (st.shared T.topicID).isSome = true then .topicBind T.topicID
            else .topicCreate T.topicID, .taskStart T.topicID, .mutexRelease])) ∧
      st'.topicsList topic = some (T.insertSubscriber h) ∧
      (∀ i, i ≠ topic → st'.topicsList i = st.topicsList i) ∧
      st'.shared T.topicID = some (wrapAdd uint16Mod c 1) ∧
      (∀ i, i ≠ T.topicID → st'.shared i = st.shared i) := by
  unfold RealTime.Communic.SubscribingRequest at hs
  by_cases htop : MAX_TOPICS ≤ topic
  · simp [htop] at hs
  simp only [htop, if_false] at hs
  cases hop : RealTime.Communic.openTopic env topic msgSize (st.log [.mutexAcquire]) with
  | none => simp [hop] at hs
  | some o =>
    rw [hop] at hs
    cases o with
    | failed s => simp at hs
    | ready flag T st1 =>
      simp only at hs
      by_cases ha : env.handleAlloc = false
      · simp [ha] at hs
      simp only [ha, if_false] at hs
      cases hid : RealTime.Communic.GetValidSubID T env.randomValues with
      | none => simp [hid] at hs
      | some id =>
        simp only [hid] at hs
        by_cases hi : env.handleInit = false
        · simp [hi] at hs
        simp only [hi, if_false] at hs
        unfold Topic.AddSubscriber at hs
        cases hc : st1.shared T.topicID with
        | none => simp [hc] at hs
        | some c =>
          simp only [hc, Option.some.injEq, Prod.mk.injEq] at hs
          obtain ⟨rfl, rfl⟩ := hs
          obtain ⟨-, h2, h3, h4⟩ := openTopic_ready hop
          refine ⟨Nat.lt_of_not_le htop, rfl, rfl, T, c, ?_, by simp, ?_, by simp, ?_⟩
          · rcases h4 with ⟨h5, -, h6, h7⟩ | ⟨h5, -, h6, h7, h8⟩
            · left
              simp only [CommState.log_topicsList, CommState.log_shared,
                CommState.log_trace] at h5 h6 h7
              refine ⟨h5, by rw [← h6, hc], ?_⟩
              simp [h7]
            · right
              simp only [CommState.log_topicsList, CommState.log_shared,
                CommState.log_trace] at h5 h7 h8
              rw [hc] at h7
              refine ⟨h5, h6, ?_, ?_⟩
              · simp only [Option.some.injEq] at h7; exact h7
              · simp [h8]
          · intro i hi
            simp only [CommState.log_topicsList, CommState.setTopic_topicsList, hi, if_false,
              CommState.setShared_topicsList]
            simpa using h2 i hi
          · intro i hi
            simp only [CommState.log_shared, CommState.setTopic_shared,
              CommState.setShared_shared, hi, if_false]
            simpa using h3 i hi

/-- A publishing request that returns a handle. -/
theorem PublishingRequest_spec {env : RequestEnv} {topic msgSize : Nat}
    {st st' : CommState} {h : Publisher}
    (hs : RealTime.Communic.PublishingRequest env topic msgSize st = some (st', some h)) :
    topic < MAX_TOPICS ∧ h.topic = topic ∧ h.messageSize = msgSize % sizeMod ∧
    ∃ T c,
      ((st.topicsList topic = some T ∧ st.shared T.topicID = some c ∧
          st'.trace = st.trace ++ [.mutexAcquire, .mutexRelease]) ∨
       (st.topicsList topic = none ∧ T = Topic.new topic (msgSize % sizeMod) ∧
          c = (st.shared T.topicID).getD 0 ∧
          st'.trace = st.trace ++ [.mutexAcquire, .topicNew topic (msgSize % sizeMod),
            if (st.shared T.topicID).isSome = true then .topicBind T.topicID
            else .topicCreate T.topicID, .taskStart T.topicID, .mutexRelease])) ∧
      st'.topicsList topic = some (T.insertPublisher h) ∧
      (∀ i, i ≠ topic → st'.topicsList i = st.topicsList i) ∧
      st'.shared T.topicID = some (wrapAdd uint16Mod c 1) ∧
      (∀ i, i ≠ T.topicID → st'.shared i = st.shared i) := by
  unfold RealTime.Communic.PublishingRequest at hs
  by_cases htop : MAX_TOPICS ≤ topic
  · simp [htop] at hs
  simp only [htop, if_false] at hs
  cases hop : RealTime.Communic.openTopic env topic msgSize (st.log [.mutexAcquire]) with
  | none => simp [hop] at hs
  | some o =>
    rw [hop] at hs
    cases o with
    | failed s => simp at hs
    | ready flag T st1 =>
      simp only at hs
      by_cases ha : env.handleAlloc = false
      · simp [ha] at hs
      simp only [ha, if_false] at hs
      cases hid : RealTime.Communic.GetValidPubID T env.randomValues with
      | none => simp [hid] at hs
      | some id =>
        simp only [hid] at hs
        unfold Topic.AddPublisher at hs
        cases hc : st1.shared T.topicID with
        | none => simp [hc] at hs
        | some c =>
          simp only [hc, Option.some.injEq, Prod.mk.injEq] at hs
          obtain ⟨rfl, rfl⟩ := hs
          obtain ⟨-, h2, h3, h4⟩ := openTopic_ready hop
          refine ⟨Nat.lt_of_not_le htop, rfl, rfl, T, c, ?_, by simp, ?_, by simp, ?_⟩
          · rcases h4 with ⟨h5, -, h6, h7⟩ | ⟨h5, -, h6, h7, h8⟩
            · left
              simp only [CommState.log_topicsList, CommState.log_shared,
                CommState.log_trace] at h5 h6 h7
              refine ⟨h5, by rw [← h6, hc], ?_⟩
              simp [h7]
            · right
              simp only [CommState.log_topicsList, CommState.log_shared,
                CommState.log_trace] at h5 h7 h8
              rw [hc] at h7
              refine ⟨h5, h6, ?_, ?_⟩
              · simp only [Option.some.injEq] at h7; exact h7
              · simp [h8]
          · intro i hi
            simp only [CommState.log_topicsList, CommState.setTopic_topicsList, hi, if_false,
              CommState.setShared_topicsList]
            simpa using h2 i hi
          · intro i hi
            simp only [CommState.log_shared, CommState.setTopic_shared,
              CommState.setShared_shared, hi, if_false]
            simpa using h3 i hi

/-- The handle returned by a subscribing request is the one the task level model of
`Communic::SubscribingRequest` gives for the identifier drawn. -/
theorem SubscribingRequest_handle {env : RequestEnv} {topic msgSize : Nat}
    {st st' : CommState} {h : Subscriber} (hm : msgSize < sizeMod)
    (hs : RealTime.Communic.SubscribingRequest env topic msgSize st = some (st', some h)) :
    Communic.SubscribingRequest (some h.id) topic msgSize = some h := by
  obtain ⟨-, h1, h2, -⟩ := SubscribingRequest_spec hs
  rw [Nat.mod_eq_of_lt hm] at h2
  cases h
  simp only at h1 h2
  subst h1 h2
  rfl

/-- The handle returned by a publishing request is the one the task level model of
`Communic::PublishingRequest` gives for the identifier drawn. -/
theorem PublishingRequest_handle {env : RequestEnv} {topic msgSize : Nat}
    {st st' : CommState} {h : Publisher} (hm : msgSize < sizeMod)
    (hs : RealTime.Communic.PublishingRequest env topic msgSize st = some (st', some h)) :
    Communic.PublishingRequest (some h.id) topic msgSize = some h := by
  obtain ⟨-, h1, h2, -⟩ := PublishingRequest_spec hs
  rw [Nat.mod_eq_of_lt hm] at h2
  cases h
  simp only at h1 h2
  subst h1 h2
  rfl

/-- The last part of `LeaveTopic` on a topic whose shared counter holds `c`: the topic
stays in the table when its local count is not zero; otherwise it leaves the table and
its destructor deletes the shared objects when `c` is zero and unbinds the queue and
the mutex when it is not. -/
theorem closeTopic_spec {topic c r : Nat} {T : Topic} {st st' : CommState}
    (hcl : RealTime.Communic.closeTopic topic T st = some (st', r))
    (hsh : st.shared T.topicID = some c) (hlt : c < uint16Mod) :
    r = RealTime.ok ∧ (∀ i, i ≠ topic → st'.topicsList i = st.topicsList i) ∧
    (∀ i, i ≠ T.topicID → st'.shared i = st.shared i) ∧
    ((T.GetObjectsNumLocal ≠ 0 ∧ st'.topicsList topic = some T ∧
        st'.shared T.topicID = some c ∧ st'.trace = st.trace ++ [.mutexRelease]) ∨
     (T.GetObjectsNumLocal = 0 ∧ st'.topicsList topic = none ∧
        ((c = 0 ∧ st'.shared T.topicID = none ∧
            st'.trace = st.trace ++ [.taskJoin T.topicID, .queueDelete T.topicID,
              .heapFree T.topicID, .heapDelete T.topicID, .mutexDelete T.topicID,
              .mutexRelease]) ∨
         (c ≠ 0 ∧ st'.shared T.topicID = some c ∧
            st'.trace = st.trace ++ [.taskJoin T.topicID, .queueUnbind T.topicID,
              .mutexUnbind T.topicID, .mutexRelease])))) := by
  unfold RealTime.Communic.closeTopic at hcl
  by_cases h0 : T.GetObjectsNumLocal = 0
  · simp only [h0, if_true] at hcl
    unfold Topic.destructor at hcl
    simp only [CommState.setTopic_shared, hsh] at hcl
    have hsum : T.subNumber + T.pubNumber = 0 := h0
    have hc' : (c + 2 * uint16Mod - (T.subNumber + T.pubNumber)) % uint16Mod = c := by
      rw [hsum, Nat.sub_zero, Nat.add_mul_mod_self_right]
      exact Nat.mod_eq_of_lt hlt
    rw [hc'] at hcl
    by_cases hc0 : c = 0
    · simp only [hc0, if_true, Option.map_some', Option.some.injEq, Prod.mk.injEq] at hcl
      obtain ⟨rfl, rfl⟩ := hcl
      refine ⟨rfl, fun i hi => by simp [hi], fun i hi => by simp [hi], Or.inr ⟨h0, by simp, ?_⟩⟩
      exact Or.inl ⟨hc0, by simp, by simp⟩
    · simp only [hc0, if_false, Option.map_some', Option.some.injEq, Prod.mk.injEq] at hcl
      obtain ⟨rfl, rfl⟩ := hcl
      refine ⟨rfl, fun i hi => by simp [hi], fun i hi => by simp [hi], Or.inr ⟨h0, by simp, ?_⟩⟩
      exact Or.inr ⟨hc0, by simp, by simp⟩
  · simp only [h0, if_false, Option.some.injEq, Prod.mk.injEq] at hcl
    obtain ⟨rfl, rfl⟩ := hcl
    exact ⟨rfl, fun i hi => by simp [hi], fun i hi => by simp, Or.inl ⟨h0, by simp, by simp [hsh], by simp⟩⟩

/-- A call of `LeaveTopic(Subscriber*)`: with a `NULL` entry of the table it returns
`RealTime::fail` right after acquiring `comMutex`; otherwise the handle is taken out of
the subscriber list, the counters go down by one, and the call ends as `closeTopic`
does. -/
theorem LeaveTopicSub_spec {h : Subscriber} {st st' : CommState} {r : Nat}
    (hl : RealTime.Communic.LeaveTopicSub h st = some (st', r)) :
    h.topic < MAX_TOPICS ∧
    ((st.topicsList h.topic = none ∧ r = RealTime.fail ∧ st'.trace = st.trace ++ [.mutexAcquire]) ∨
     ∃ T c, st.topicsList h.topic = some T ∧ st.shared T.topicID = some c ∧
        RealTime.Communic.closeTopic h.topic (T.removeSubscriber h)
          ((st.log [.mutexAcquire]).setShared T.topicID (some (wrapSub uint16Mod c 1))) =
          some (st', r)) := by
  unfold RealTime.Communic.LeaveTopicSub at hl
  by_cases htop : MAX_TOPICS ≤ h.topic
  · simp [htop] at hl
  simp only [htop, if_false, CommState.log_topicsList] at hl
  refine ⟨Nat.lt_of_not_le htop, ?_⟩
  cases ht : st.topicsList h.topic with
  | none =>
    simp only [ht, Option.some.injEq, Prod.mk.injEq] at hl
    obtain ⟨rfl, rfl⟩ := hl
    exact Or.inl ⟨rfl, rfl, rfl⟩
  | some T =>
    simp only [ht] at hl
    unfold Topic.RemoveSubscriber at hl
    simp only [CommState.log_shared] at hl
    cases hc : st.shared T.topicID with
    | none => simp [hc] at hl
    | some c =>
      simp only [hc] at hl
      exact Or.inr ⟨T, c, rfl, hc, hl⟩

/-- A call of `LeaveTopic(Publisher*)`. -/
theorem LeaveTopicPub_spec {h : Publisher} {st st' : CommState} {r : Nat}
    (hl : RealTime.Communic.LeaveTopicPub h st = some (st', r)) :
    h.topic < MAX_TOPICS ∧
    ((st.topicsList h.topic = none ∧ r = RealTime.fail ∧ st'.trace = st.trace ++ [.mutexAcquire]) ∨
     ∃ T c, st.topicsList h.topic = some T ∧ st.shared T.topicID = some c ∧
        RealTime.Communic.closeTopic h.topic (T.removePublisher h)
          ((st.log [.mutexAcquire]).setShared T.topicID (some (wrapSub uint16Mod c 1))) =
          some (st', r)) := by
  unfold RealTime.Communic.LeaveTopicPub at hl
  by_cases htop : MAX_TOPICS ≤ h.topic
  · simp [htop] at hl
  simp only [htop, if_false, CommState.log_topicsList] at hl
  refine ⟨Nat.lt_of_not_le htop, ?_⟩
  cases ht : st.topicsList h.topic with
  | none =>
    simp only [ht, Option.some.injEq, Prod.mk.injEq] at hl
    obtain ⟨rfl, rfl⟩ := hl
    exact Or.inl ⟨rfl, rfl, rfl⟩
  | some T =>
    simp only [ht] at hl
    unfold Topic.RemovePublisher at hl
    simp only [CommState.log_shared] at hl
    cases hc : st.shared T.topicID with
    | none => simp [hc] at hl
    | some c =>
      simp only [hc] at hl
      exact Or.inr ⟨T, c, rfl, hc, hl⟩

/-- `InsertTail` on a list whose `size` is the number of its nodes. -/
theorem DList.InsertTail_spec {α : Type} (l : DList α) (x : α) (hs : l.size = l.nodes.length)
    (hlen : l.nodes.length + 1 < sizeMod) :
    (l.InsertTail x).nodes = l.nodes ++ [x] ∧
      (l.InsertTail x).size = (l.InsertTail x).nodes.length := by
  have hn : (l.InsertTail x).nodes = l.nodes ++ [x] := by
    unfold DList.InsertTail
    by_cases h0 : l.size = 0
    · have : l.nodes = [] := List.length_eq_zero.mp (hs ▸ h0)
      simp [h0, this]
    · simp [h0]
  refine ⟨hn, ?_⟩
  rw [hn]
  unfold DList.InsertTail
  simp only [List.length_append, List.length_singleton]
  rw [hs]
  exact wrapAdd_of_lt hlen

/-- `Remove` of a value that is in a list whose `size` is the number of its nodes:
one node goes. -/
theorem DList.Remove_spec {α : Type} (key : α → Nat) (l : DList α) (x : α)
    (hs : l.size = l.nodes.length) (hx : x ∈ l.nodes) (hlen : l.nodes.length < sizeMod) :
    (l.Remove key x).nodes.length + 1 = l.nodes.length ∧
      (l.Remove key x).size = (l.Remove key x).nodes.length := by
  have hpos : 0 < l.nodes.length := List.length_pos_of_mem hx
  unfold DList.Remove
  by_cases h1 : l.size = 1
  · rw [if_pos h1]
    rw [hs] at h1
    obtain ⟨a, ha⟩ := List.length_eq_one.mp h1
    rw [ha] at hx ⊢
    have hxa : x = a := by simpa using hx
    subst hxa
    simp
  · rw [if_neg h1]
    have hany : (l.nodes.any fun y => decide (key y = key x)) = true :=
      List.any_eq_true.mpr ⟨x, hx, by simp⟩
    rw [if_pos hany]
    have hl : (l.nodes.eraseP fun y => decide (key y = key x)).length = l.nodes.length - 1 :=
      List.length_eraseP_of_mem hx (by simp)
    simp only
    rw [hl, hs]
    refine ⟨by omega, ?_⟩
    exact wrapSub_of_le (by omega) hlen

/-- Consistency at an index where the table holds a topic. -/
theorem consistentAt_some {base : Nat → Nat} {st : CommState} {topic : Nat} {T : Topic}
    (hT : st.topicsList topic = some T) :
    st.consistentAt base topic ↔
      (T.topicID = topic ∧
        T.subsList.size = T.subsList.nodes.length ∧ T.pubsList.size = T.pubsList.nodes.length ∧
        T.subsList.nodes.length ≤ 255 ∧ T.pubsList.nodes.length ≤ 255 ∧
        T.subNumber = T.subsList.nodes.length ∧ T.pubNumber = T.pubsList.nodes.length ∧
        st.shared topic = some (base topic + T.subNumber + T.pubNumber)) := by
  unfold CommState.consistentAt
  rw [hT]

/-- Consistency at an index where the table holds `NULL`. -/
theorem consistentAt_none {base : Nat → Nat} {st : CommState} {topic : Nat}
    (hT : st.topicsList topic = none) :
    st.consistentAt base topic ↔ st.counter topic = base topic := by
  unfold CommState.consistentAt
  rw [hT]

/-- A call that changes the table and the shared counters at one index only keeps
the state consistent when it is consistent at that index. -/
theorem consistent_of_update {base : Nat → Nat} {st st' : CommState} {topic : Nat}
    (hst : st.consistent base)
    (h1 : ∀ i, i ≠ topic → st'.topicsList i = st.topicsList i)
    (h2 : ∀ i, i ≠ topic → st'.shared i = st.shared i)
    (h3 : st'.consistentAt base topic) : st'.consistent base := by
  intro i
  by_cases hi : i = topic
  · rw [hi]; exact h3
  · have := hst i
    unfold CommState.consistentAt CommState.counter at this ⊢
    rw [h1 i hi, h2 i hi]
    exact this

/-- The state of `Communic::Init` is consistent. -/
theorem Init_consistent (shared : Nat → Option Nat) :
    (RealTime.Communic.Init shared).consistent fun i => (shared i).getD 0 := by
  intro i
  rfl

/-- What `sized` says about a topic of the table. -/
theorem sized_some {st : CommState} {limit topic : Nat} {T : Topic}
    (hT : st.topicsList topic = some T) (h : st.sized limit topic = true) :
    T.subsList.nodes.length ≤ limit ∧ T.pubsList.nodes.length ≤ limit := by
  unfold CommState.sized at h
  rw [hT] at h
  simpa using h

/-- A successful subscribing request in a consistent state that leaves at most 255
subscribers on its topic: the state stays consistent and the shared counter of the
topic is one more. -/
theorem subscribe_consistent {base : Nat → Nat} (hbase : ∀ i, base i + 512 ≤ uint16Mod)
    {env : RequestEnv} {topic msgSize : Nat} {st st' : CommState} {h : Subscriber}
    (hst : st.consistent base)
    (hs : RealTime.Communic.SubscribingRequest env topic msgSize st = some (st', some h))
    (hsz : st'.sized 255 topic = true) :
    st'.consistent base ∧ st'.counter topic = st.counter topic + 1 := by
  obtain ⟨htop, -, -, T, c, hcase, hT', hoff, hsh', hshoff⟩ := SubscribingRequest_spec hs
  have hpre : T.topicID = topic ∧
      T.subsList.size = T.subsList.nodes.length ∧ T.pubsList.size = T.pubsList.nodes.length ∧
      T.subsList.nodes.length ≤ 255 ∧ T.pubsList.nodes.length ≤ 255 ∧
      T.subNumber = T.subsList.nodes.length ∧ T.pubNumber = T.pubsList.nodes.length ∧
      c = base topic + T.subNumber + T.pubNumber ∧ st.counter topic = c := by
    rcases hcase with ⟨hT, hc, -⟩ | ⟨hT, hnew, hc, -⟩
    · obtain ⟨a1, a2, a3, a4, a5, a6, a7, a8⟩ := (consistentAt_some hT).mp (hst topic)
      rw [a1, a8] at hc
      simp only [Option.some.injEq] at hc
      refine ⟨a1, a2, a3, a4, a5, a6, a7, hc.symm, ?_⟩
      unfold CommState.counter
      rw [a8, ← hc]; rfl
    · have hid : T.topicID = topic := by
        rw [hnew]
        exact Nat.mod_eq_of_lt htop
      have hcnt := (consistentAt_none hT).mp (hst topic)
      rw [hid] at hc
      have hc' : c = st.counter topic := hc
      refine ⟨hid, ?_, ?_, ?_, ?_, ?_, ?_, ?_, hc'.symm⟩
      · rw [hnew]; rfl
      · rw [hnew]; rfl
      · rw [hnew]; exact Nat.zero_le _
      · rw [hnew]; exact Nat.zero_le _
      · rw [hnew]; rfl
      · rw [hnew]; rfl
      · rw [hc', hcnt, hnew]; rfl
  obtain ⟨a1, a2, a3, a4, a5, a6, a7, a8, a9⟩ := hpre
  rw [a1] at hsh' hshoff
  have hins := DList.InsertTail_spec T.subsList h a2 (by unfold sizeMod; omega)
  have hsized := sized_some hT' hsz
  have hlen : (T.insertSubscriber h).subsList.nodes.length = T.subsList.nodes.length + 1 := by
    show (T.subsList.InsertTail h).nodes.length = _
    rw [hins.1]; simp
  have hb := hbase topic
  have hsub : T.subsList.nodes.length + 1 ≤ 255 := by rw [← hlen]; exact hsized.1
  have hcw : wrapAdd uint16Mod c 1 = c + 1 := by
    apply wrapAdd_of_lt
    rw [a8, a6, a7]
    omega
  have hsw : wrapAdd uint8Mod T.subNumber 1 = T.subNumber + 1 := by
    apply wrapAdd_of_lt
    rw [a6]; unfold uint8Mod; omega
  refine ⟨consistent_of_update hst hoff hshoff ?_, ?_⟩
  · rw [consistentAt_some hT']
    refine ⟨a1, hins.2, a3, hsized.1, a5, ?_, a7, ?_⟩
    · show wrapAdd uint8Mod T.subNumber 1 = _
      rw [hsw, hlen, a6]
    · rw [hsh', hcw]
      show some (c + 1) = some (base topic + wrapAdd uint8Mod T.subNumber 1 + T.pubNumber)
      rw [hsw, a8]
      congr 1
      omega
  · unfold CommState.counter
    rw [hsh', hcw]
    show c + 1 = (st.shared topic).getD 0 + 1
    have : st.counter topic = (st.shared topic).getD 0 := rfl
    rw [← this, a9]

/-- A successful publishing request in a consistent state that leaves at most 255
publishers on its topic. -/
theorem publish_consistent {base : Nat → Nat} (hbase : ∀ i, base i + 512 ≤ uint16Mod)
    {env : RequestEnv} {topic msgSize : Nat} {st st' : CommState} {h : Publisher}
    (hst : st.consistent base)
    (hs : RealTime.Communic.PublishingRequest env topic msgSize st = some (st', some h))
    (hsz : st'.sized 255 topic = true) :
    st'.consistent base ∧ st'.counter topic = st.counter topic + 1 := by
  obtain ⟨htop, -, -, T, c, hcase, hT', hoff, hsh', hshoff⟩ := PublishingRequest_spec hs
  have hpre : T.topicID = topic ∧
      T.subsList.size = T.subsList.nodes.length ∧ T.pubsList.size = T.pubsList.nodes.length ∧
      T.subsList.nodes.length ≤ 255 ∧ T.pubsList.nodes.length ≤ 255 ∧
      T.subNumber = T.subsList.nodes.length ∧ T.pubNumber = T.pubsList.nodes.length ∧
      c = base topic + T.subNumber + T.pubNumber ∧ st.counter topic = c := by
    rcases hcase with ⟨hT, hc, -⟩ | ⟨hT, hnew, hc, -⟩
    · obtain ⟨a1, a2, a3, a4, a5, a6, a7, a8⟩ := (consistentAt_some hT).mp (hst topic)
      rw [a1, a8] at hc
      simp only [Option.some.injEq] at hc
      refine ⟨a1, a2, a3, a4, a5, a6, a7, hc.symm, ?_⟩
      unfold CommState.counter
      rw [a8, ← hc]; rfl
    · have hid : T.topicID = topic := by
        rw [hnew]
        exact Nat.mod_eq_of_lt htop
      have hcnt := (consistentAt_none hT).mp (hst topic)
      rw [hid] at hc
      have hc' : c = st.counter topic := hc
      refine ⟨hid, ?_, ?_, ?_, ?_, ?_, ?_, ?_, hc'.symm⟩
      · rw [hnew]; rfl
      · rw [hnew]; rfl
      · rw [hnew]; exact Nat.zero_le _
      · rw [hnew]; exact Nat.zero_le _
      · rw [hnew]; rfl
      · rw [hnew]; rfl
      · rw [hc', hcnt, hnew]; rfl
  obtain ⟨a1, a2, a3, a4, a5, a6, a7, a8, a9⟩ := hpre
  rw [a1] at hsh' hshoff
  have hins := DList.InsertTail_spec T.pubsList h a3 (by unfold sizeMod; omega)
  have hsized := sized_some hT' hsz
  have hlen : (T.insertPublisher h).pubsList.nodes.length = T.pubsList.nodes.length + 1 := by
    show (T.pubsList.InsertTail h).nodes.length = _
    rw [hins.1]; simp
  have hb := hbase topic
  have hpub : T.pubsList.nodes.length + 1 ≤ 255 := by rw [← hlen]; exact hsized.2
  have hcw : wrapAdd uint16Mod c 1 = c + 1 := by
    apply wrapAdd_of_lt
    rw [a8, a6, a7]
    omega
  have hpw : wrapAdd uint8Mod T.pubNumber 1 = T.pubNumber + 1 := by
    apply wrapAdd_of_lt
    rw [a7]; unfold uint8Mod; omega
  refine ⟨consistent_of_update hst hoff hshoff ?_, ?_⟩
  · rw [consistentAt_some hT']
    refine ⟨a1, a2, hins.2, a4, hsized.2, a6, ?_, ?_⟩
    · show wrapAdd uint8Mod T.pubNumber 1 = _
      rw [hpw, hlen, a7]
    · rw [hsh', hcw]
      show some (c + 1) = some (base topic + T.subNumber + wrapAdd uint8Mod T.pubNumber 1)
      rw [hpw, a8]
      congr 1
  · unfold CommState.counter
    rw [hsh', hcw]
    show c + 1 = (st.shared topic).getD 0 + 1
    have : st.counter topic = (st.shared topic).getD 0 := rfl
    rw [← this, a9]

/-- The end of a `LeaveTopic` that took a handle out of one list of a consistent state:
`T` is the topic before the call and `T'` the topic without the handle, whose local
count is one less. -/
theorem leave_consistent {base : Nat → Nat} (hbase : ∀ i, base i + 512 ≤ uint16Mod)
    {topic c r : Nat} {T : Topic} (T' : Topic) {st st' : CommState}
    (hst : st.consistent base) (hT : st.topicsList topic = some T)
    (hc : st.shared T.topicID = some c)
    (hid : T'.topicID = T.topicID)
    (hs : T'.subsList.size = T'.subsList.nodes.length)
    (hp : T'.pubsList.size = T'.pubsList.nodes.length)
    (hsl : T'.subsList.nodes.length ≤ T.subsList.nodes.length)
    (hpl : T'.pubsList.nodes.length ≤ T.pubsList.nodes.length)
    (hsn : T'.subNumber = T'.subsList.nodes.length)
    (hpn : T'.pubNumber = T'.pubsList.nodes.length)
    (hone : T'.subNumber + T'.pubNumber + 1 = T.subNumber + T.pubNumber)
    (hclose : RealTime.Communic.closeTopic topic T'
      ((st.log [.mutexAcquire]).setShared T.topicID (some (wrapSub uint16Mod c 1))) =
      some (st', r)) :
    r = RealTime.ok ∧ st'.consistent base ∧ st'.counter topic + 1 = st.counter topic := by
  obtain ⟨a1, a2, a3, a4, a5, a6, a7, a8⟩ := (consistentAt_some hT).mp (hst topic)
  rw [a1] at hc hclose
  rw [a8] at hc
  simp only [Option.some.injEq] at hc
  have hb := hbase topic
  have hcw : wrapSub uint16Mod c 1 = c - 1 := by
    apply wrapSub_of_le
    · omega
    · unfold uint16Mod at hb ⊢; omega
  have hid' : T'.topicID = topic := by rw [hid, a1]
  obtain ⟨hr, hoff, hshoff, hfin⟩ := closeTopic_spec hclose (c := wrapSub uint16Mod c 1)
    (by rw [hid']; exact if_pos rfl) (wrapSub_lt (by decide) _ _)
  rw [hid'] at hshoff hfin
  have hoff' : ∀ i, i ≠ topic → st'.topicsList i = st.topicsList i := by
    intro i hi; simpa using hoff i hi
  have hshoff' : ∀ i, i ≠ topic → st'.shared i = st.shared i := by
    intro i hi; simpa [hi] using hshoff i hi
  have hcnt : st.counter topic = c := by
    unfold CommState.counter; rw [a8, hc]; rfl
  rw [hcw] at hfin
  refine ⟨hr, ?_, ?_⟩
  · apply consistent_of_update hst hoff' hshoff'
    rcases hfin with ⟨-, hT', hsh', -⟩ | ⟨h0, hT', hsh'⟩
    · rw [consistentAt_some hT']
      refine ⟨hid', hs, hp, by omega, by omega, hsn, hpn, ?_⟩
      have he : c - 1 = base topic + T'.subNumber + T'.pubNumber := by omega
      rw [hsh', he]
    · rw [consistentAt_none hT']
      have h0' : T'.subNumber + T'.pubNumber = 0 := h0
      unfold CommState.counter
      rcases hsh' with ⟨hz, hsh', -⟩ | ⟨-, hsh', -⟩
      · rw [hsh']
        show 0 = base topic
        omega
      · rw [hsh']
        show c - 1 = base topic
        omega
  · rw [hcnt]
    unfold CommState.counter
    rcases hfin with ⟨-, -, hsh', -⟩ | ⟨-, -, hsh'⟩
    · rw [hsh']
      show c - 1 + 1 = c
      omega
    · rcases hsh' with ⟨hz, hsh', -⟩ | ⟨-, hsh', -⟩
      · rw [hsh']
        show 0 + 1 = c
        omega
      · rw [hsh']
        show c - 1 + 1 = c
        omega

/-- A successful call in a consistent state that leaves at most 255 handles in each
list of its topic: the state stays consistent, and the shared counter of the topic is
one more after a request and one less after a `LeaveTopic`. -/
theorem call_consistent {base : Nat → Nat} (hbase : ∀ i, base i + 512 ≤ uint16Mod)
    {st st' : CommState} {c : CommCall} (hst : st.consistent base)
    (hcall : st.call c = some st') (hsz : st'.sized 255 c.topic = true) :
    st'.consistent base ∧
      (c.isRequest = true → st'.counter c.topic = st.counter c.topic + 1) ∧
      (c.isRequest = false → st'.counter c.topic + 1 = st.counter c.topic) := by
  cases c with
  | subscribe env topic msgSize =>
    simp only [CommState.call] at hcall
    cases hr : RealTime.Communic.SubscribingRequest env topic msgSize st with
    | none => simp [hr] at hcall
    | some res =>
      obtain ⟨s1, oh⟩ := res
      cases oh with
      | none => simp [hr] at hcall
      | some h =>
        simp only [hr, Option.some.injEq] at hcall
        subst hcall
        obtain ⟨h1, h2⟩ := subscribe_consistent hbase hst hr hsz
        exact ⟨h1, fun _ => h2, fun hf => absurd hf (by simp [CommCall.isRequest])⟩
  | publish env topic msgSize =>
    simp only [CommState.call] at hcall
    cases hr : RealTime.Communic.PublishingRequest env topic msgSize st with
    | none => simp [hr] at hcall
    | some res =>
      obtain ⟨s1, oh⟩ := res
      cases oh with
      | none => simp [hr] at hcall
      | some h =>
        simp only [hr, Option.some.injEq] at hcall
        subst hcall
        obtain ⟨h1, h2⟩ := publish_consistent hbase hst hr hsz
        exact ⟨h1, fun _ => h2, fun hf => absurd hf (by simp [CommCall.isRequest])⟩
  | leaveSub h =>
    simp only [CommState.call] at hcall
    cases hT : st.topicsList h.topic with
    | none => simp [hT] at hcall
    | some T =>
      simp only [hT] at hcall
      by_cases hmem : h ∈ T.subsList.nodes
      · simp only [hmem, if_true] at hcall
        cases hr : RealTime.Communic.LeaveTopicSub h st with
        | none => simp [hr] at hcall
        | some res =>
          obtain ⟨s1, r⟩ := res
          obtain ⟨-, hleave⟩ := LeaveTopicSub_spec hr
          rcases hleave with ⟨hnone, -, -⟩ | ⟨T0, c0, hT0, hc0, hclose⟩
          · rw [hT] at hnone; exact absurd hnone (by simp)
          rw [hT] at hT0
          simp only [Option.some.injEq] at hT0
          subst hT0
          obtain ⟨a1, a2, a3, a4, a5, a6, a7, a8⟩ := (consistentAt_some hT).mp (hst h.topic)
          obtain ⟨r1, r2⟩ := DList.Remove_spec Subscriber.id T.subsList h a2 hmem
            (by unfold sizeMod; omega)
          have hpos : 0 < T.subsList.nodes.length := List.length_pos_of_mem hmem
          have hsw : wrapSub uint8Mod T.subNumber 1 = T.subNumber - 1 :=
            wrapSub_of_le (by omega) (by unfold uint8Mod; omega)
          have hres := leave_consistent hbase (T.removeSubscriber h) hst hT hc0 rfl r2 a3
            (by show (T.subsList.Remove Subscriber.id h).nodes.length ≤ _; omega)
            (Nat.le_refl _)
            (by show wrapSub uint8Mod T.subNumber 1 = (T.subsList.Remove Subscriber.id h).nodes.length
                rw [hsw]; omega)
            a7
            (by show wrapSub uint8Mod T.subNumber 1 + T.pubNumber + 1 = _
                rw [hsw]; omega)
            hclose
          obtain ⟨hok, hcons, hcnt⟩ := hres
          simp only [hr, hok, if_true, Option.some.injEq] at hcall
          subst hcall
          exact ⟨hcons, fun hf => absurd hf (by simp [CommCall.isRequest]), fun _ => hcnt⟩
      · simp [hmem] at hcall
  | leavePub h =>
    simp only [CommState.call] at hcall
    cases hT : st.topicsList h.topic with
    | none => simp [hT] at hcall
    | some T =>
      simp only [hT] at hcall
      by_cases hmem : h ∈ T.pubsList.nodes
      · simp only [hmem, if_true] at hcall
        cases hr : RealTime.Communic.LeaveTopicPub h st with
        | none => simp [hr] at hcall
        | some res =>
          obtain ⟨s1, r⟩ := res
          obtain ⟨-, hleave⟩ := LeaveTopicPub_spec hr
          rcases hleave with ⟨hnone, -, -⟩ | ⟨T0, c0, hT0, hc0, hclose⟩
          · rw [hT] at hnone; exact absurd hnone (by simp)
          rw [hT] at hT0
          simp only [Option.some.injEq] at hT0
          subst hT0
          obtain ⟨a1, a2, a3, a4, a5, a6, a7, a8⟩ := (consistentAt_some hT).mp (hst h.topic)
          obtain ⟨r1, r2⟩ := DList.Remove_spec Publisher.id T.pubsList h a3 hmem
            (by unfold sizeMod; omega)
          have hpos : 0 < T.pubsList.nodes.length := List.length_pos_of_mem hmem
          have hpw : wrapSub uint8Mod T.pubNumber 1 = T.pubNumber - 1 :=
            wrapSub_of_le (by omega) (by unfold uint8Mod; omega)
          have hres := leave_consistent hbase (T.removePublisher h) hst hT hc0 rfl a2 r2
            (Nat.le_refl _)
            (by show (T.pubsList.Remove Publisher.id h).nodes.length ≤ _; omega)
            a6
            (by show wrapSub uint8Mod T.pubNumber 1 = (T.pubsList.Remove Publisher.id h).nodes.length
                rw [hpw]; omega)
            (by show T.subNumber + wrapSub uint8Mod T.pubNumber 1 + 1 = _
                rw [hpw]; omega)
            hclose
          obtain ⟨hok, hcons, hcnt⟩ := hres
          simp only [hr, hok, if_true, Option.some.injEq] at hcall
          subst hcall
          exact ⟨hcons, fun hf => absurd hf (by simp [CommCall.isRequest]), fun _ => hcnt⟩
      · simp [hmem] at hcall

/-- A run of calls from a consistent state ends in a consistent state. -/
theorem run_consistent {base : Nat → Nat} (hbase : ∀ i, base i + 512 ≤ uint16Mod) :
    ∀ (cs : List CommCall) (st st' : CommState), st.consistent base →
      st.run 255 cs = some st' → st'.consistent base := by
  intro cs
  induction cs with
  | nil =>
    intro st st' hst hrun
    simp only [CommState.run, Option.some.injEq] at hrun
    rw [← hrun]; exact hst
  | cons c cs ih =>
    intro st st' hst hrun
    simp only [CommState.run] at hrun
    cases hc : st.call c with
    | none => simp [hc] at hrun
    | some st1 =>
      simp only [hc] at hrun
      by_cases hsz : st1.sized 255 c.topic = true
      · simp only [hsz, if_true] at hrun
        exact ih st1 st' (call_consistent hbase hst hc hsz).1 hrun
      · simp [hsz] at hrun

/-! ## The mutex of the topic table -/

/-- The destructor of a topic makes no call on `comMutex`. -/
theorem destructor_trace {T : Topic} {st st' : CommState} (h : T.destructor st = some st') :
    st'.trace.count .mutexRelease = st.trace.count .mutexRelease ∧
      st'.trace.count .mutexAcquire = st.trace.count .mutexAcquire := by
  unfold Topic.destructor at h
  cases hc : st.shared T.topicID with
  | none => simp [hc] at h
  | some c =>
    simp only [hc] at h
    split at h <;>
    · simp only [Option.some.injEq] at h
      subst h
      simp [List.count_append, List.count_cons]

/-- The paths of a request that give up release `comMutex` once. -/
theorem giveUp_trace {flag : Bool} {topic : Nat} {T : Topic} {st st' : CommState}
    (h : RealTime.Communic.giveUp flag topic T st = some st') :
    st'.trace.count .mutexRelease = st.trace.count .mutexRelease + 1 ∧
      st'.trace.count .mutexAcquire = st.trace.count .mutexAcquire := by
  unfold RealTime.Communic.giveUp at h
  cases flag with
  | true =>
    simp only [if_true] at h
    cases hd : T.destructor (st.setTopic topic none) with
    | none => simp [hd] at h
    | some s =>
      simp only [hd, Option.map_some', Option.some.injEq] at h
      subst h
      obtain ⟨h1, h2⟩ := destructor_trace hd
      simp only [CommState.setTopic_trace] at h1 h2
      simp [List.count_append, List.count_cons, h1, h2]
  | false =>
    simp only [Bool.false_eq_true, if_false, Option.some.injEq] at h
    subst h
    simp [List.count_append, List.count_cons]

/-- The first part of a request makes one release of `comMutex` when it returns `NULL`
and no call on `comMutex` when the request goes on. -/
theorem openTopic_trace {env : RequestEnv} {topic msgSize : Nat} {st : CommState} :
    (∀ st', RealTime.Communic.openTopic env topic msgSize st = some (.failed st') →
      st'.trace.count .mutexRelease = st.trace.count .mutexRelease + 1 ∧
        st'.trace.count .mutexAcquire = st.trace.count .mutexAcquire) ∧
    (∀ flag T st', RealTime.Communic.openTopic env topic msgSize st = some (.ready flag T st') →
      st'.trace.count .mutexRelease = st.trace.count .mutexRelease ∧
        st'.trace.count .mutexAcquire = st.trace.count .mutexAcquire) := by
  constructor
  · intro st' h
    unfold RealTime.Communic.openTopic at h
    cases ht : st.topicsList topic with
    | some T0 => simp [ht] at h
    | none =>
      simp only [ht] at h
      by_cases ha : env.topicAlloc = false
      · simp only [ha, if_true, Option.some.injEq, Opened.failed.injEq] at h
        subst h
        simp [List.count_append, List.count_cons]
      · simp only [ha, if_false] at h
        cases hi : (Topic.new topic (msgSize % sizeMod)).Init env.topicInit
            (st.log [.topicNew topic (msgSize % sizeMod)]) with
        | none => simp [hi] at h
        | some s => simp [hi] at h
  · intro flag T st' h
    obtain ⟨-, -, -, h4⟩ := openTopic_ready h
    rcases h4 with ⟨-, -, -, htr⟩ | ⟨-, -, -, -, htr⟩
    · simp only [htr, and_self]
    · rw [htr]
      simp only [List.count_append]
      split <;> simp [List.count_cons]

/-- Every return of `SubscribingRequest` has acquired and released `comMutex` once. -/
theorem SubscribingRequest_trace {env : RequestEnv} {topic msgSize : Nat}
    {st st' : CommState} {r : Option Subscriber}
    (hs : RealTime.Communic.SubscribingRequest env topic msgSize st = some (st', r)) :
    st'.trace.count .mutexRelease = st.trace.count .mutexRelease + 1 ∧
      st'.trace.count .mutexAcquire = st.trace.count .mutexAcquire + 1 := by
  unfold RealTime.Communic.SubscribingRequest at hs
  by_cases htop : MAX_TOPICS ≤ topic
  · simp [htop] at hs
  simp only [htop, if_false] at hs
  have hacq : (st.log [.mutexAcquire]).trace.count .mutexRelease = st.trace.count .mutexRelease ∧
      (st.log [.mutexAcquire]).trace.count .mutexAcquire = st.trace.count .mutexAcquire + 1 := by
    simp [List.count_append, List.count_cons]
  cases hop : RealTime.Communic.openTopic env topic msgSize (st.log [.mutexAcquire]) with
  | none => simp [hop] at hs
  | some o =>
    rw [hop] at hs
    cases o with
    | failed s =>
      have hot := openTopic_trace.1 s hop
      simp only [Option.some.injEq, Prod.mk.injEq] at hs
      obtain ⟨rfl, -⟩ := hs
      rw [hot.1, hot.2, hacq.1, hacq.2]
      exact ⟨rfl, rfl⟩
    | ready flag T st1 =>
      have hot := openTopic_trace.2 flag T st1 hop
      simp only at hs
      have hgive : ∀ s, RealTime.Communic.giveUp flag topic T st1 = some s →
          s.trace.count .mutexRelease = st.trace.count .mutexRelease + 1 ∧
            s.trace.count .mutexAcquire = st.trace.count .mutexAcquire + 1 := by
        intro s hg
        obtain ⟨g1, g2⟩ := giveUp_trace hg
        rw [g1, g2, hot.1, hot.2, hacq.1, hacq.2]
        exact ⟨rfl, rfl⟩
      by_cases ha : env.handleAlloc = false
      · simp only [ha, if_true] at hs
        cases hg : RealTime.Communic.giveUp flag topic T st1 with
        | none => simp [hg] at hs
        | some s =>
          simp only [hg, Option.map_some', Option.some.injEq, Prod.mk.injEq] at hs
          obtain ⟨rfl, -⟩ := hs
          exact hgive _ hg
      simp only [ha, if_false] at hs
      cases hid : RealTime.Communic.GetValidSubID T env.randomValues with
      | none => simp [hid] at hs
      | some id =>
        simp only [hid] at hs
        by_cases hi : env.handleInit = false
        · simp only [hi, if_true] at hs
          cases hg : RealTime.Communic.giveUp flag topic T st1 with
          | none => simp [hg] at hs
          | some s =>
            simp only [hg, Option.map_some', Option.some.injEq, Prod.mk.injEq] at hs
            obtain ⟨rfl, -⟩ := hs
            exact hgive _ hg
        simp only [hi, if_false] at hs
        unfold Topic.AddSubscriber at hs
        cases hc : st1.shared T.topicID with
        | none => simp [hc] at hs
        | some c =>
          simp only [hc, Option.some.injEq, Prod.mk.injEq] at hs
          obtain ⟨rfl, -⟩ := hs
          simp only [CommState.log_trace, CommState.setTopic_trace, CommState.setShared_trace,
            List.count_append, hot.1, hot.2, hacq.1, hacq.2]
          simp [List.count_cons]

/-- Every return of `PublishingRequest` has acquired and released `comMutex` once. -/
theorem PublishingRequest_trace {env : RequestEnv} {topic msgSize : Nat}
    {st st' : CommState} {r : Option Publisher}
    (hs : RealTime.Communic.PublishingRequest env topic msgSize st = some (st', r)) :
    st'.trace.count .mutexRelease = st.trace.count .mutexRelease + 1 ∧
      st'.trace.count .mutexAcquire = st.trace.count .mutexAcquire + 1 := by
  unfold RealTime.Communic.PublishingRequest at hs
  by_cases htop : MAX_TOPICS ≤ topic
  · simp [htop] at hs
  simp only [htop, if_false] at hs
  have hacq : (st.log [.mutexAcquire]).trace.count .mutexRelease = st.trace.count .mutexRelease ∧
      (st.log [.mutexAcquire]).trace.count .mutexAcquire = st.trace.count .mutexAcquire + 1 := by
    simp [List.count_append, List.count_cons]
  cases hop : RealTime.Communic.openTopic env topic msgSize (st.log [.mutexAcquire]) with
  | none => simp [hop] at hs
  | some o =>
    rw [hop] at hs
    cases o with
    | failed s =>
      have hot := openTopic_trace.1 s hop
      simp only [Option.some.injEq, Prod.mk.injEq] at hs
      obtain ⟨rfl, -⟩ := hs
      rw [hot.1, hot.2, hacq.1, hacq.2]
      exact ⟨rfl, rfl⟩
    | ready flag T st1 =>
      have hot := openTopic_trace.2 flag T st1 hop
      simp only at hs
      by_cases ha : env.handleAlloc = false
      · simp only [ha, if_true] at hs
        cases hg : RealTime.Communic.giveUp flag topic T st1 with
        | none => simp [hg] at hs
        | some s =>
          simp only [hg, Option.map_some', Option.some.injEq, Prod.mk.injEq] at hs
          obtain ⟨rfl, -⟩ := hs
          obtain ⟨g1, g2⟩ := giveUp_trace hg
          rw [g1, g2, hot.1, hot.2, hacq.1, hacq.2]
          exact ⟨rfl, rfl⟩
      simp only [ha, if_false] at hs
      cases hid : RealTime.Communic.GetValidPubID T env.randomValues with
      | none => simp [hid] at hs
      | some id =>
        simp only [hid] at hs
        unfold Topic.AddPublisher at hs
        cases hc : st1.shared T.topicID with
        | none => simp [hc] at hs
        | some c =>
          simp only [hc, Option.some.injEq, Prod.mk.injEq] at hs
          obtain ⟨rfl, -⟩ := hs
          simp only [CommState.log_trace, CommState.setTopic_trace, CommState.setShared_trace,
            List.count_append, hot.1, hot.2, hacq.1, hacq.2]
          simp [List.count_cons]

/-- The end of `LeaveTopic` releases `comMutex` once. -/
theorem closeTopic_trace {topic r : Nat} {T : Topic} {st st' : CommState}
    (h : RealTime.Communic.closeTopic topic T st = some (st', r)) :
    r = RealTime.ok ∧ st'.trace.count .mutexRelease = st.trace.count .mutexRelease + 1 ∧
      st'.trace.count .mutexAcquire = st.trace.count .mutexAcquire := by
  unfold RealTime.Communic.closeTopic at h
  by_cases h0 : T.GetObjectsNumLocal = 0
  · simp only [h0, if_true] at h
    cases hd : T.destructor (st.setTopic topic none) with
    | none => simp [hd] at h
    | some s =>
      simp only [hd, Option.map_some', Option.some.injEq, Prod.mk.injEq] at h
      obtain ⟨rfl, rfl⟩ := h
      obtain ⟨h1, h2⟩ := destructor_trace hd
      simp only [CommState.setTopic_trace] at h1 h2
      simp [List.count_append, List.count_cons, h1, h2]
  · simp only [h0, if_false, Option.some.injEq, Prod.mk.injEq] at h
    obtain ⟨rfl, rfl⟩ := h
    simp [List.count_append, List.count_cons]

/-- A return of either `LeaveTopic` has acquired `comMutex` once; it has released it
once when the value returned is `RealTime::ok` and not at all when it is
`RealTime::fail`. -/
theorem LeaveTopic_trace {st st' : CommState} {r : Nat} :
    (∀ h : Subscriber, RealTime.Communic.LeaveTopicSub h st = some (st', r) →
      st'.trace.count .mutexAcquire = st.trace.count .mutexAcquire + 1 ∧
      ((r = RealTime.ok ∧ st'.trace.count .mutexRelease = st.trace.count .mutexRelease + 1) ∨
       (r = RealTime.fail ∧ st'.trace.count .mutexRelease = st.trace.count .mutexRelease))) ∧
    (∀ h : Publisher, RealTime.Communic.LeaveTopicPub h st = some (st', r) →
      st'.trace.count .mutexAcquire = st.trace.count .mutexAcquire + 1 ∧
      ((r = RealTime.ok ∧ st'.trace.count .mutexRelease = st.trace.count .mutexRelease + 1) ∨
       (r = RealTime.fail ∧ st'.trace.count .mutexRelease = st.trace.count .mutexRelease))) := by
  constructor
  · intro h hl
    obtain ⟨-, hcase⟩ := LeaveTopicSub_spec hl
    rcases hcase with ⟨-, hr, htr⟩ | ⟨T, c, -, -, hclose⟩
    · rw [htr]
      simp [List.count_append, List.count_cons, hr]
    · obtain ⟨hr, h1, h2⟩ := closeTopic_trace hclose
      simp only [CommState.setShared_trace, CommState.log_trace] at h1 h2
      rw [h1, h2]
      simp [List.count_append, List.count_cons, hr]
  · intro h hl
    obtain ⟨-, hcase⟩ := LeaveTopicPub_spec hl
    rcases hcase with ⟨-, hr, htr⟩ | ⟨T, c, -, -, hclose⟩
    · rw [htr]
      simp [List.count_append, List.count_cons, hr]
    · obtain ⟨hr, h1, h2⟩ := closeTopic_trace hclose
      simp only [CommState.setShared_trace, CommState.log_trace] at h1 h2
      rw [h1, h2]
      simp [List.count_append, List.count_cons, hr]

/-- The record `GetWorstCase` leaves, in terms of the values the tasks report, the worst
case being the whole seconds of `GetWCRT()`: for tasks with pairwise distinct ids that
report an average other than zero, the record left is the stored one or the record of a
task whose reported quotient strictly exceeds the stored quotient (or the stored record
was empty), and its quotient is at least the reported quotient of every task. -/
theorem GetWorstCase_greatest_reported_ratio (tps test : Nat) (tasks : List RobotTask)
    (ws : worstCaseScenario_t) (hids : (tasks.map RobotTask.id).Nodup)
    (havg : ∀ t ∈ tasks, t.GetResponseTime tps ≠ none ∧ t.GetResponseTime tps ≠ some 0) :
    ∃ ws', GetWorstCase tps test tasks ws = some ws' ∧
      (ws' = ws ∨ ∃ t ∈ tasks, t.worstRecord tps test = some ws' ∧
        (ws.averageResp = 0 ∨ ∃ q, t.worstRatio tps = some q ∧ ws.ratio < q)) ∧
      (ws.averageResp ≠ 0 → ws'.averageResp ≠ 0 ∧ ws.ratio ≤ ws'.ratio) ∧
      (tasks ≠ [] → ws'.averageResp ≠ 0) ∧
      (∀ t ∈ tasks, ∃ q, t.worstRatio tps = some q ∧ q ≤ ws'.ratio) := by
  unfold GetWorstCase
  rw [visited_of_nodup tasks hids]
  apply worstCase_fold
  intro t ht
  obtain ⟨h1, h2⟩ := havg t ht
  cases hr : t.GetResponseTime tps with
  | none => exact absurd hr h1
  | some r => exact ⟨r, rfl, fun h0 => h2 (by rw [hr, h0])⟩

/-! ## The management handshakes of the two nodes -/

/-- The joint run of the PCD branch of the Master's management task and of the Slave's
management task, when the Slave can allocate its baseline tasks: both loops are
entered and left together. -/
theorem joint_session (envM : MasterEnv) (envS : SlaveEnv) (tps fuel e : Nat)
    (he : 4 ≤ e ∧ e ≤ 7) (hb : envS.baselineAllocFails = false) :
    ∃ m s left,
      Hs.ends (RobotMaster.connect envM tps fuel (RobotMaster.requested e))
        (RobotSlave.ManTask envS tps fuel RobotSlave.constructed) =
        (.returned (m, left), .returned (s, left)) := by
  have hst : ¬ (isStarted % 2 ^ 16 % 2 ^ 16 ≠ isStarted) := by decide
  simp only [RobotMaster.connect, RobotSlave.ManTask, RobotSlave.InitExperiment, hb,
    handshakeSend, handshakeReceive,
    Hs.bind_eq, Hs.pure_eq, Hs.bind_ret, Hs.bind_send, Hs.bind_receive,
    Hs.ends_send_receive, Hs.ends_receive_send, hst, if_false, Bool.false_eq_true]
  apply joint_loop envM envS tps e he
  · simp [RobotMaster.requested]; omega
  · simp [RobotMaster.requested, RobotSlave.constructed]; omega
  · simp [RobotMaster.requested]
  · simp [RobotSlave.constructed]

/-- C11. For every PCD experiment `e` in {4, 5, 6, 7} and every course of the steps (the
deadline misses of the two nodes and the allocations of the Slave in `UpdateExp7` are
arbitrary), in the joint run of the Master's management task, from the connection on,
and of the Slave's management task, every handshake call of one node is completed by
the call of the opposite direction on the other node (`opsB` is the mirror of `opsA`),
no node exits or stays blocked in a call, and both leave their loops with the same test
number (`left`), or are both still in their loops when the bound `fuel` on the number
of iterations is reached.  The Slave is assumed to allocate its baseline tasks:
otherwise it calls `exit(1)` after the connection. -/
theorem handshake_sequences_mirror (envM : MasterEnv) (envS : SlaveEnv)
    (ticksPerSecond fuel e : Nat) (he : 4 ≤ e ∧ e ≤ 7)
    (hb : envS.baselineAllocFails = false) :
    (Hs.sync (RobotMaster.connect envM ticksPerSecond fuel (RobotMaster.requested e))
        (RobotSlave.ManTask envS ticksPerSecond fuel RobotSlave.constructed)).opsB =
      (Hs.sync (RobotMaster.connect envM ticksPerSecond fuel (RobotMaster.requested e))
        (RobotSlave.ManTask envS ticksPerSecond fuel RobotSlave.constructed)).opsA.map
        Dir.mirror ∧
    ∃ m s left,
      (Hs.sync (RobotMaster.connect envM ticksPerSecond fuel (RobotMaster.requested e))
        (RobotSlave.ManTask envS ticksPerSecond fuel RobotSlave.constructed)).endA =
        .returned (m, left) ∧
      (Hs.sync (RobotMaster.connect envM ticksPerSecond fuel (RobotMaster.requested e))
        (RobotSlave.ManTask envS ticksPerSecond fuel RobotSlave.constructed)).endB =
        .returned (s, left) := by
  refine ⟨Hs.sync_mirror _ _, ?_⟩
  obtain ⟨m, s, left, h⟩ := joint_session envM envS ticksPerSecond fuel e he hb
  exact ⟨m, s, left, congrArg Prod.fst h, congrArg Prod.snd h⟩

/-- Witness for C11: experiment 7 over three iterations, the Master's task missing
deadlines in step 1. -/
theorem handshake_sequences_mirror_witness :
    (4 ≤ 7 ∧ 7 ≤ 7) ∧ quietSlaveEnv.baselineAllocFails = false ∧
    (Hs.sync (RobotMaster.connect lateMasterEnv nsPerSecond 3 (RobotMaster.requested 7))
        (RobotSlave.ManTask quietSlaveEnv nsPerSecond 3 RobotSlave.constructed)).opsB =
      (Hs.sync (RobotMaster.connect lateMasterEnv nsPerSecond 3 (RobotMaster.requested 7))
        (RobotSlave.ManTask quietSlaveEnv nsPerSecond 3 RobotSlave.constructed)).opsA.map
        Dir.mirror ∧
    ∃ m s left,
      (Hs.sync (RobotMaster.connect lateMasterEnv nsPerSecond 3 (RobotMaster.requested 7))
        (RobotSlave.ManTask quietSlaveEnv nsPerSecond 3 RobotSlave.constructed)).endA =
        .returned (m, left) ∧
      (Hs.sync (RobotMaster.connect lateMasterEnv nsPerSecond 3 (RobotMaster.requested 7))
        (RobotSlave.ManTask quietSlaveEnv nsPerSecond 3 RobotSlave.constructed)).endB =
        .returned (s, left) :=
  ⟨by decide, rfl,
    handshake_sequences_mirror lateMasterEnv quietSlaveEnv nsPerSecond 3 7 (by decide) rfl⟩

/-- C12 (evaluation). The exit test of the PCD loop,
`ExperimentDeadlineMiss()`, runs before `StartReport` calls `CalculateDeadlineMiss`, so
it adds the count the Slave reports for the step to the Master's count of the step
before.  With a Master whose task misses three deadlines in step 1 and none in step 2,
and a Slave that never misses, the loop is not left after step 1 (the run bounded to
one iteration ends inside the loop, the Master holding the count 3), and it is left
after step 2, in which no deadline was missed on either node. -/
theorem pcd_loop_exit_uses_stale_miss_count :
    CalculateDeadlineMiss (lateMasterEnv.tasksAfter 1) = 3 ∧
    CalculateDeadlineMiss (quietSlaveEnv.tasksAfter 1) = 0 ∧
    (Hs.sync (RobotMaster.connect lateMasterEnv nsPerSecond 1 (RobotMaster.requested 4))
      (RobotSlave.ManTask quietSlaveEnv nsPerSecond 1 RobotSlave.constructed)).endA.left =
      some none ∧
    (Hs.sync (RobotMaster.connect lateMasterEnv nsPerSecond 1 (RobotMaster.requested 4))
      (RobotSlave.ManTask quietSlaveEnv nsPerSecond 1 RobotSlave.constructed)).endA.result.map
      (fun r => (r.1.actualDeadlineMiss, r.1.actualSlaveDeadlines)) = some (3, 0) ∧
    CalculateDeadlineMiss (lateMasterEnv.tasksAfter 2) = 0 ∧
    CalculateDeadlineMiss (quietSlaveEnv.tasksAfter 2) = 0 ∧
    (Hs.sync (RobotMaster.connect lateMasterEnv nsPerSecond 2 (RobotMaster.requested 4))
      (RobotSlave.ManTask quietSlaveEnv nsPerSecond 2 RobotSlave.constructed)).endA.left =
      some (some 2) := by
  refine ⟨by decide, by decide, by decide, by decide, by decide, by decide, by decide⟩

/-- C13 (evaluation). In the PD loop `StartUniExperiment`
broadcasts the start signal before it writes `initialTime`; the PCD loop
`StartDistributedExperiment` writes `initialTime` first.  The operations of the
Master's management task over the first iteration of each loop, experiment 1 and
experiment 4. -/
theorem pd_loop_broadcast_precedes_snapshot :
    (RobotMaster.StartUniExperiment quietMasterEnv nsPerSecond 1 1
        (RobotMaster.initialised 1)).result.map (fun r => r.1.events) =
      some [.suspend, .initExperiment, .delay 3000000000, .signalizeBroad, .setInitialTime,
        .delay testPeriod, .setStopCond 1, .delay nsPerSecond, .joinTasks, .setStopCond 0,
        .printReport 1, .updateTasks 2] ∧
    (Hs.sync (RobotMaster.connect quietMasterEnv nsPerSecond 1 (RobotMaster.requested 4))
      (RobotSlave.ManTask quietSlaveEnv nsPerSecond 1 RobotSlave.constructed)).endA.result.map
      (fun r => r.1.events) =
      some [.requestTopics, .print "Master ready to begin connection with Slave!\n",
        .delay 4000000000, .setInitialTime, .signalizeBroad, .delay testPeriod,
        .setStopCond 1, .delay nsPerSecond, .joinTasks, .setStopCond 0, .getWorstCase 1,
        .printReport 1, .updateTasks 2] := by
  refine ⟨by decide, by decide⟩

/-! ## The baseline workloads -/

/-- C14. For every raw speed below `2^37` KWIPS the baseline workload of PD task `i` is
the integer part of `(0.15 * rawSpeed / 5) / f_i`, that is of `3 * rawSpeed / (100 * f_i)`,
for `f = {63, 30, 14, 10, 6}`, and the baseline workload of PCD task `i` the integer
part of `(0.15 * rawSpeed / 3) / f_i`, that is of `3 * rawSpeed / (60 * f_i)`, for
`f = {7, 5, 3}`, although the constructors truncate `0.15 * rawSpeed / n` to the
integer `baselineTaskKWIPS` before dividing; the `double` product and quotient round
without changing the integer part.  For the raw speed 413500 of the target the values
are `{196, 413, 886, 1240, 2067}` and `{2953, 4135, 6891}`.  The bound keeps the
workloads within `size_t`. -/
theorem baseline_workloads_floor (rawSpeed : Nat) (h : rawSpeed < 2 ^ 37) :
    baselineTaskKWIPS rawSpeed 5 = some (3 * rawSpeed / 100) ∧
    baselineTaskKWIPS rawSpeed 3 = some (3 * rawSpeed / 60) ∧
    uniBaselineWorkload rawSpeed =
      some (uniBaselineFrequency.map fun f => 3 * rawSpeed / (100 * f)) ∧
    distBaselineWorkload rawSpeed =
      some (distBaselineFrequency.map fun f => 3 * rawSpeed / (60 * f)) ∧
    uniBaselineWorkload RAW_SPEED = some [196, 413, 886, 1240, 2067] ∧
    distBaselineWorkload RAW_SPEED = some [2953, 4135, 6891] := by
  have h5 := baselineTaskKWIPS_eq rawSpeed 5 h (Or.inr rfl)
  have h3 := baselineTaskKWIPS_eq rawSpeed 3 h (Or.inl rfl)
  refine ⟨h5, h3, ?_, ?_, baseline_workloads.1, baseline_workloads.2⟩
  · unfold uniBaselineWorkload baselineWorkload
    rw [h5]
    simp only [Option.map, uniBaselineFrequency, List.map, Option.some.injEq,
      List.cons.injEq, and_true]
    refine ⟨?_, ?_, ?_, ?_, ?_⟩ <;>
      · rw [Nat.div_div_eq_div_mul]
        exact Nat.mod_eq_of_lt (by unfold sizeMod; omega)
  · unfold distBaselineWorkload baselineWorkload
    rw [h3]
    simp only [Option.map, distBaselineFrequency, List.map, Option.some.injEq,
      List.cons.injEq, and_true]
    refine ⟨?_, ?_, ?_⟩ <;>
      · rw [Nat.div_div_eq_div_mul]
        exact Nat.mod_eq_of_lt (by unfold sizeMod; omega)

/-- Witness for C14: the raw speed of the target. -/
theorem baseline_workloads_floor_witness :
    RAW_SPEED < 2 ^ 37 ∧
    baselineTaskKWIPS RAW_SPEED 5 = some (3 * RAW_SPEED / 100) ∧
    baselineTaskKWIPS RAW_SPEED 3 = some (3 * RAW_SPEED / 60) ∧
    uniBaselineWorkload RAW_SPEED =
      some (uniBaselineFrequency.map fun f => 3 * RAW_SPEED / (100 * f)) ∧
    distBaselineWorkload RAW_SPEED =
      some (distBaselineFrequency.map fun f => 3 * RAW_SPEED / (60 * f)) ∧
    uniBaselineWorkload RAW_SPEED = some [196, 413, 886, 1240, 2067] ∧
    distBaselineWorkload RAW_SPEED = some [2953, 4135, 6891] :=
  ⟨by decide, baseline_workloads_floor RAW_SPEED (by decide)⟩

/-! ## The updaters -/

/-- C15. For every test number whose scaled workloads fit `size_t` (`uni` and `dist`
are the values of `baseline_i * (1 + ((double)test)*0.1)` converted to `size_t`; for
every test number up to 100 they are defined and are the integer parts of
`baseline_i * (1 + test / 10)`),
and for task sets with pairwise distinct ids in whatever state a test step has left
them, `UpdateExp1` on the five tasks of the Master, and `UpdateExp4` on the three tasks
of the Master and of the Slave once the two functions have completed their handshakes,
leave the `i`-th task with the workload `uni_i` (`dist_i`), computed from the baseline
whatever the workload before, with every counter of met, missed and skipped deadlines,
the response time sum, the jitter sum and `wcrt` at 0 and `bcrt` at its initial value,
with the id, priority, frequency and period it had, and started once more.  The
baselines are those of the target. -/
theorem UpdateExp1_scales_baseline_workload (ticksPerSecond test : Nat)
    (pd master slave : List RobotTask) (m : RobotMaster) (s : RobotSlave) (env : SlaveEnv)
    (uni dist : List Nat)
    (hpd : pd.length = 5) (hpdId : (pd.map RobotTask.id).Nodup)
    (hma : master.length = 3) (hmaId : (master.map RobotTask.id).Nodup)
    (hsl : slave.length = 3) (hslId : (slave.map RobotTask.id).Nodup)
    (huni : [196, 413, 886, 1240, 2067].map (scaledWorkload · test) = uni.map some)
    (hdist : [2953, 4135, 6891].map (scaledWorkload · test) = dist.map some) :
    uniBaselineWorkload RAW_SPEED = some [196, 413, 886, 1240, 2067] ∧
    distBaselineWorkload RAW_SPEED = some [2953, 4135, 6891] ∧
    (test ≤ 100 →
      (∀ b ∈ [196, 413, 886, 1240, 2067, 2953, 4135, 6891],
        scaledWorkload b test = some (b * (10 + test) / 10)) ∧
      uni = [196, 413, 886, 1240, 2067].map (fun b => b * (10 + test) / 10) ∧
      dist = [2953, 4135, 6891].map (fun b => b * (10 + test) / 10)) ∧
    Hs.ends (m.UpdateExp4 test) (s.UpdateExp4 env test) =
      (.returned (m.log [.updateTasks test]), .returned (s.log [.updateTasks test])) ∧
    (∃ out,
      RobotMaster.UpdateExp1Tasks [196, 413, 886, 1240, 2067] ticksPerSecond test pd =
        some out ∧
      out.map RobotTask.workload = uni ∧
      out.map (fun t => (t.id, t.priority, t.frequency, t.periodSec, t.period)) =
        pd.map (fun t => (t.id, t.priority, t.frequency, t.periodSec, t.period)) ∧
      out.map RobotTask.starts = pd.map (fun t => t.starts + 1) ∧
      ∀ t ∈ out, t.deadlineMet = 0 ∧ t.deadlineMiss = 0 ∧ t.deadlineSkip = 0 ∧
        t.responseTime = 0 ∧ t.avgResponseJitter = 0 ∧ t.wcrt = 0 ∧
        t.bcrt = (ticksPerSecond * 100) % timeCountMod) ∧
    (∃ out,
      RobotMaster.UpdateExp4Tasks [2953, 4135, 6891] ticksPerSecond test master =
        some out ∧
      out.map RobotTask.workload = dist ∧
      out.map (fun t => (t.id, t.priority, t.frequency, t.periodSec, t.period)) =
        master.map (fun t => (t.id, t.priority, t.frequency, t.periodSec, t.period)) ∧
      out.map RobotTask.starts = master.map (fun t => t.starts + 1) ∧
      ∀ t ∈ out, t.deadlineMet = 0 ∧ t.deadlineMiss = 0 ∧ t.deadlineSkip = 0 ∧
        t.responseTime = 0 ∧ t.avgResponseJitter = 0 ∧ t.wcrt = 0 ∧
        t.bcrt = (ticksPerSecond * 100) % timeCountMod) ∧
    ∃ out,
      RobotSlave.UpdateExp4Tasks [2953, 4135, 6891] ticksPerSecond test slave = some out ∧
      out.map RobotTask.workload = dist ∧
      out.map (fun t => (t.id, t.priority, t.frequency, t.periodSec, t.period)) =
        slave.map (fun t => (t.id, t.priority, t.frequency, t.periodSec, t.period)) ∧
      out.map RobotTask.starts = slave.map (fun t => t.starts + 1) ∧
      ∀ t ∈ out, t.deadlineMet = 0 ∧ t.deadlineMiss = 0 ∧ t.deadlineSkip = 0 ∧
        t.responseTime = 0 ∧ t.avgResponseJitter = 0 ∧ t.wcrt = 0 ∧
        t.bcrt = (ticksPerSecond * 100) % timeCountMod := by
  refine ⟨baseline_workloads.1, baseline_workloads.2, ?_, joint_UpdateExp4 env test m s,
    ⟨_, updateWorkloads_five ticksPerSecond test uni pd hpd hpdId huni,
      updateWorkloads_fields [196, 413, 886, 1240, 2067] ticksPerSecond test uni pd hpd huni⟩,
    ⟨_, updateWorkloads_three ticksPerSecond test dist master hma hmaId hdist,
      updateWorkloads_fields [2953, 4135, 6891] ticksPerSecond test dist master hma hdist⟩,
    ⟨_, updateWorkloads_three ticksPerSecond test dist slave hsl hslId hdist,
      updateWorkloads_fields [2953, 4135, 6891] ticksPerSecond test dist slave hsl hdist⟩⟩
  intro ht
  have ht2 : test < 101 := by omega
  refine ⟨fun b hb => scaledWorkload_baseline b hb test ht2, ?_, ?_⟩
  · apply List.map_injective_iff.2 (Option.some_injective _)
    rw [← huni]
    simp only [List.map, scaledWorkload_baseline 196 (by decide) test ht2,
      scaledWorkload_baseline 413 (by decide) test ht2,
      scaledWorkload_baseline 886 (by decide) test ht2,
      scaledWorkload_baseline 1240 (by decide) test ht2,
      scaledWorkload_baseline 2067 (by decide) test ht2]
  · apply List.map_injective_iff.2 (Option.some_injective _)
    rw [← hdist]
    simp only [List.map, scaledWorkload_baseline 2953 (by decide) test ht2,
      scaledWorkload_baseline 4135 (by decide) test ht2,
      scaledWorkload_baseline 6891 (by decide) test ht2]

/-- Witness for C15: test number 2 on the baseline task sets of the target, in which a
test step has left counters other than zero. -/
theorem UpdateExp1_scales_baseline_workload_witness :
    ranPDTasks.length = 5 ∧ (ranPDTasks.map RobotTask.id).Nodup ∧
    ranMasterTasks.length = 3 ∧ (ranMasterTasks.map RobotTask.id).Nodup ∧
    ranSlaveTasks.length = 3 ∧ (ranSlaveTasks.map RobotTask.id).Nodup ∧
    [196, 413, 886, 1240, 2067].map (scaledWorkload · 2) =
      [235, 495, 1063, 1488, 2480].map some ∧
    [2953, 4135, 6891].map (scaledWorkload · 2) = [3543, 4962, 8269].map some ∧
    ranPDTasks.map (fun t => (t.workload, t.deadlineMet, t.deadlineMiss, t.wcrt, t.starts)) =
      [(196, 101, 1, 2001, 1), (413, 102, 2, 4001, 1), (886, 103, 3, 6001, 1),
        (1240, 104, 4, 8001, 1), (2067, 105, 5, 10001, 1)] ∧
    (RobotMaster.UpdateExp1Tasks [196, 413, 886, 1240, 2067] nsPerSecond 2 ranPDTasks).map
        (fun out => out.map
          fun t => (t.workload, t.deadlineMet, t.deadlineMiss, t.wcrt, t.starts)) =
      some [(235, 0, 0, 0, 2), (495, 0, 0, 0, 2), (1063, 0, 0, 0, 2), (1488, 0, 0, 0, 2),
        (2480, 0, 0, 0, 2)] ∧
    (∃ out,
      RobotMaster.UpdateExp1Tasks [196, 413, 886, 1240, 2067] nsPerSecond 2 ranPDTasks =
        some out ∧
      out.map RobotTask.workload = [235, 495, 1063, 1488, 2480] ∧
      out.map (fun t => (t.id, t.priority, t.frequency, t.periodSec, t.period)) =
        ranPDTasks.map (fun t => (t.id, t.priority, t.frequency, t.periodSec, t.period)) ∧
      out.map RobotTask.starts = ranPDTasks.map (fun t => t.starts + 1) ∧
      ∀ t ∈ out, t.deadlineMet = 0 ∧ t.deadlineMiss = 0 ∧ t.deadlineSkip = 0 ∧
        t.responseTime = 0 ∧ t.avgResponseJitter = 0 ∧ t.wcrt = 0 ∧
        t.bcrt = (nsPerSecond * 100) % timeCountMod) :=
  ⟨by decide, by decide, by decide, by decide, by decide, by decide, by decide, by decide,
    by decide, by decide,
    (UpdateExp1_scales_baseline_workload nsPerSecond 2 ranPDTasks ranMasterTasks
      ranSlaveTasks (RobotMaster.requested 4) RobotSlave.constructed quietSlaveEnv
      [235, 495, 1063, 1488, 2480] [3543, 4962, 8269] (by decide) (by decide) (by decide)
      (by decide) (by decide) (by decide) (by decide) (by decide)).2.2.2.2.1⟩

/-- C16 (counterexample). In experiment 1 on the target the tasks in place at the
first broadcast of the start signal, those of test step 1, have the baseline
workloads `{196, 413, 886, 1240, 2067}`, not the baseline scaled by 1.1, which is
`{215, 454, 974, 1364, 2273}`. -/
theorem exp1_step1_runs_unscaled_baseline :
    ((RobotMaster.StartUniExperiment quietMasterEnv nsPerSecond 1 1
        (RobotMaster.initialised 1)).result.bind
      fun r =>
        tasksAt
          (RobotMaster.InitExperimentTasks 1 [196, 413, 886, 1240, 2067] [2953, 4135, 6891]
            nsPerSecond (fun _ => true) (fun _ => none))
          (RobotMaster.UpdateExp1Tasks [196, 413, 886, 1240, 2067] nsPerSecond)
          .signalizeBroad r.1.events 1 (some [])).map
      (fun ts => ts.map fun t => t.workload) =
      some [196, 413, 886, 1240, 2067] ∧
    [196, 413, 886, 1240, 2067].map (fun b => scaledWorkload b 1) =
      [some 215, some 454, some 974, some 1364, some 2273] := by
  refine ⟨by decide, by decide⟩

/-- C16 (as amended). In experiment 1, whenever the baseline tasks can be created, the
task set in place at the first broadcast of the start signal, the set that test step 1
executes, is the set `base` that `InitExperiment` created and started, every task with
its baseline workload. -/
theorem exp1_step1_keeps_baseline_workloads (env : MasterEnv) (ticksPerSecond : Nat)
    (distW : List Nat) (heap : Nat → Bool) (fresh : Nat → Option Nat)
    (base : List RobotTask)
    (hbase : RobotMaster.InitExperimentTasks 1 [196, 413, 886, 1240, 2067] distW
      ticksPerSecond heap fresh [] = some base) :
    ((RobotMaster.StartUniExperiment env ticksPerSecond 1 1
        (RobotMaster.initialised 1)).result.bind
      fun r =>
        tasksAt
          (RobotMaster.InitExperimentTasks 1 [196, 413, 886, 1240, 2067] distW
            ticksPerSecond heap fresh)
          (RobotMaster.UpdateExp1Tasks [196, 413, 886, 1240, 2067] ticksPerSecond)
          .signalizeBroad r.1.events 1 (some [])) = some base ∧
    base.map (fun t => t.workload) = [196, 413, 886, 1240, 2067] := by
  obtain ⟨t0, t1, t2, t3, t4, rfl, _, h0, h1, h2, h3, h4⟩ :=
    InitExperimentTasks_uni 1 ticksPerSecond (by decide) distW heap fresh base hbase
  have i0 := (SetFrequency_some _ _ _ _ h0).1
  have i1 := (SetFrequency_some _ _ _ _ h1).1
  have i2 := (SetFrequency_some _ _ _ _ h2).1
  have i3 := (SetFrequency_some _ _ _ _ h3).1
  have i4 := (SetFrequency_some _ _ _ _ h4).1
  have hw : [t0.Start, t1.Start, t2.Start, t3.Start, t4.Start].map (fun t => t.workload) =
      [196, 413, 886, 1240, 2067] := by
    rw [i0, i1, i2, i3, i4]
    rfl
  clear i0 i1 i2 i3 i4 h0 h1 h2 h3 h4
  have hexp : (RobotMaster.initialised 1).actualExp = 1 := rfl
  have hev : (RobotMaster.initialised 1).events = [.suspend, .initExperiment] := rfl
  refine ⟨?_, hw⟩
  rw [StartUniExperiment_succ env ticksPerSecond 0 1 _ hexp]
  split
  · simp [Hs.result, tasksAt, hbase, hev]
  · simp [RobotMaster.StartUniExperiment, Hs.result, tasksAt, hbase, hev]

/-- Witness for C16 (as amended): the target, every allocation succeeding. -/
theorem exp1_step1_keeps_baseline_workloads_witness :
    RobotMaster.InitExperimentTasks 1 [196, 413, 886, 1240, 2067] [2953, 4135, 6891]
      nsPerSecond (fun _ => true) (fun _ => none) [] = some samplePDTasks ∧
    samplePDTasks.map (fun t => t.workload) = [196, 413, 886, 1240, 2067] :=
  ⟨by decide,
    (exp1_step1_keeps_baseline_workloads quietMasterEnv nsPerSecond [2953, 4135, 6891]
      (fun _ => true) (fun _ => none) samplePDTasks (by decide)).2⟩

/-- C17. On the started baseline tasks `base` of a PD experiment, `j` test steps each
followed by a call of `UpdateExp3` whose allocation succeeds, `j` from 1 to 250
(beyond, the `uint8_t` ids repeat), leave a list of `5 + j` tasks with pairwise
distinct ids, whatever measurements `ran` the steps have left in the tasks: every
counter of met, missed and skipped deadlines, every response time sum, jitter sum and
`wcrt` is 0 and `bcrt` has its initial value; the five baseline tasks have their
parameters unchanged and have been started `1 + j` times, and they are followed by one
task per call, the `k`-th of them with the id `6 + k`, the priority 4, the workload 886
(`uniBaselineWorkload[2]`), the frequency 14 Hz and the period of baseline task 3,
started `j - k` times. -/
theorem UpdateExp3_appends_task3_copy (ticksPerSecond : Nat) (distW : List Nat)
    (heap : Nat → Bool) (fresh : Nat → Option Nat) (base : List RobotTask) (j : Nat)
    (ran : Nat → Nat → Measurements)
    (hbase : RobotMaster.InitExperimentTasks 3 [196, 413, 886, 1240, 2067] distW
      ticksPerSecond heap fresh [] = some base)
    (hj : 1 ≤ j ∧ j ≤ 250) :
    uniBaselineWorkload RAW_SPEED = some [196, 413, 886, 1240, 2067] ∧
    ∃ ts ps p,
      RobotMaster.UpdateExp3Calls [196, 413, 886, 1240, 2067] ticksPerSecond ran j 1 base =
        some (ts, 1 + j) ∧
      ts.length = 5 + j ∧ (ts.map RobotTask.id).Nodup ∧
      (∀ t ∈ ts, t.deadlineMet = 0 ∧ t.deadlineMiss = 0 ∧ t.deadlineSkip = 0 ∧
        t.responseTime = 0 ∧ t.avgResponseJitter = 0 ∧ t.wcrt = 0 ∧
        t.bcrt = (ticksPerSecond * 100) % timeCountMod) ∧
      ts.map RobotTask.starts =
        List.replicate 5 (1 + j) ++ (List.range j).map (fun k => j - k) ∧
      (base.get? 2).map RobotTask.parameters = some (3, 4, 886, f64OfNat 14, ps, p) ∧
      ts.map RobotTask.parameters =
        base.map RobotTask.parameters ++
          (List.range j).map (fun k => (6 + k, 4, 886, f64OfNat 14, ps, p)) := by
  refine ⟨baseline_workloads.1, ?_⟩
  obtain ⟨t0, t1, t2, t3, t4, rfl, _, h0, h1, h2, h3, h4⟩ :=
    InitExperimentTasks_uni 3 ticksPerSecond (by decide) distW heap fresh base hbase
  obtain ⟨ts, hcalls, hpar, hst, hclear⟩ :=
    UpdateExp3Calls_spec ticksPerSecond ran t0 t1 t2 t3 t4 h0 h1 h2 h3 h4 j hj.2
  have i0 := (SetFrequency_some _ _ _ _ h0).1
  have i1 := (SetFrequency_some _ _ _ _ h1).1
  have i2 := (SetFrequency_some _ _ _ _ h2).1
  have i3 := (SetFrequency_some _ _ _ _ h3).1
  have i4 := (SetFrequency_some _ _ _ _ h4).1
  have d0 : t0.id = 1 := by rw [i0]; rfl
  have d1 : t1.id = 2 := by rw [i1]; rfl
  have d2 : t2.id = 3 := by rw [i2]; rfl
  have d3 : t3.id = 4 := by rw [i3]; rfl
  have d4 : t4.id = 5 := by rw [i4]; rfl
  have hp2 : t2.Start.parameters = (3, 4, 886, f64OfNat 14, t2.periodSec, t2.period) := by
    rw [i2]; rfl
  clear i0 i1 i2 i3 i4 h0 h1 h2 h3 h4
  have hids : ts.map RobotTask.id = [1, 2, 3, 4, 5] ++ (List.range j).map (fun k => 6 + k) := by
    have := congrArg (List.map Prod.fst) hpar
    simpa [RobotTask.parameters, RobotTask.Start, d0, d1, d2, d3, d4, Function.comp_def]
      using this
  refine ⟨ts, t2.periodSec, t2.period, hcalls, ?_, ?_, hclear (by omega), hst, ?_, hpar⟩
  · have := congrArg List.length hpar
    simp at this
    omega
  · rw [hids, List.nodup_append]
    refine ⟨by decide, ?_, ?_⟩
    · exact (List.nodup_range j).map (fun a b h => by omega)
    · intro a ha hb
      simp only [List.mem_map, List.mem_range] at hb
      obtain ⟨k, _, rfl⟩ := hb
      simp at ha
      omega
  · simp [hp2]

/-- Witness for C17: two test steps and calls on the baseline tasks of the target; the
steps leave counters other than zero in every task. -/
theorem UpdateExp3_appends_task3_copy_witness :
    RobotMaster.InitExperimentTasks 3 [196, 413, 886, 1240, 2067] [2953, 4135, 6891]
      nsPerSecond (fun _ => true) (fun _ => none) [] = some samplePDTasks ∧
    (1 ≤ 2 ∧ 2 ≤ 250) ∧
    (samplePDTasks.map fun t => (t.measured (busyStep 1 t.id)).deadlineMet) =
      [101, 102, 103, 104, 105] ∧
    (RobotMaster.UpdateExp3Calls [196, 413, 886, 1240, 2067] nsPerSecond busyStep 2 1
        samplePDTasks).map
      (fun r => r.1.map fun t => (t.id, t.deadlineMet, t.deadlineMiss, t.wcrt, t.starts)) =
      some [(1, 0, 0, 0, 3), (2, 0, 0, 0, 3), (3, 0, 0, 0, 3), (4, 0, 0, 0, 3),
        (5, 0, 0, 0, 3), (6, 0, 0, 0, 2), (7, 0, 0, 0, 1)] ∧
    ∃ ts ps p,
      RobotMaster.UpdateExp3Calls [196, 413, 886, 1240, 2067] nsPerSecond busyStep 2 1
        samplePDTasks = some (ts, 1 + 2) ∧
      ts.length = 5 + 2 ∧ (ts.map RobotTask.id).Nodup ∧
      (∀ t ∈ ts, t.deadlineMet = 0 ∧ t.deadlineMiss = 0 ∧ t.deadlineSkip = 0 ∧
        t.responseTime = 0 ∧ t.avgResponseJitter = 0 ∧ t.wcrt = 0 ∧
        t.bcrt = (nsPerSecond * 100) % timeCountMod) ∧
      ts.map RobotTask.starts =
        List.replicate 5 (1 + 2) ++ (List.range 2).map (fun k => 2 - k) ∧
      (samplePDTasks.get? 2).map RobotTask.parameters =
        some (3, 4, 886, f64OfNat 14, ps, p) ∧
      ts.map RobotTask.parameters =
        samplePDTasks.map RobotTask.parameters ++
          (List.range 2).map (fun k => (6 + k, 4, 886, f64OfNat 14, ps, p)) :=
  ⟨by decide, by decide, by decide, by decide,
    (UpdateExp3_appends_task3_copy nsPerSecond [2953, 4135, 6891] (fun _ => true)
      (fun _ => none) samplePDTasks 2 busyStep (by decide) (by decide)).2⟩

/-- C18. For every test step from 2 to 30 of experiment 5 (beyond, `pow(2,test+1)`
does not fit the `size_t` parameter), when the three tasks of each node hold their
handle of the step before and every request succeeds, after `UpdateExp5` the `i`-th
task of the Master publishes on topic `2 + i` and the `i`-th task of the Slave
subscribes on topic `2 + i`, both with the message size `2^(test+1)`, 16 bytes at step
3; the Master's tasks subscribe to nothing and the Slave's tasks publish nothing, so no
task uses topic 0 or 1. -/
theorem UpdateExp5_topics_and_sizes (ticksPerSecond test : Nat) (ht : 2 ≤ test ∧ test ≤ 30)
    (freshM freshS : Nat → Nat) (master slave : List RobotTask)
    (hma : master.length = 3) (hmaId : (master.map RobotTask.id).Nodup)
    (hmaPub : ∀ t ∈ master, t.pub ≠ none ∧ t.sub = none)
    (hsl : slave.length = 3) (hslId : (slave.map RobotTask.id).Nodup)
    (hslSub : ∀ t ∈ slave, t.sub ≠ none ∧ t.pub = none) :
    ∃ ms ss,
      RobotMaster.UpdateExp5Tasks ticksPerSecond (fun i => some (freshM i)) test master =
        some ms ∧
      RobotSlave.UpdateExp5Tasks ticksPerSecond (fun i => some (freshS i)) test slave =
        some ss ∧
      ms.map RobotTask.GetPubTopic = [some 2, some 3, some 4] ∧
      ss.map RobotTask.GetSubTopic = [some 2, some 3, some 4] ∧
      ms.map RobotTask.GetPubMessageSize =
        [some (2 ^ (test + 1)), some (2 ^ (test + 1)), some (2 ^ (test + 1))] ∧
      ss.map RobotTask.GetSubMessageSize =
        [some (2 ^ (test + 1)), some (2 ^ (test + 1)), some (2 ^ (test + 1))] ∧
      (∀ t ∈ ms, t.sub = none) ∧ (∀ t ∈ ss, t.pub = none) ∧
      rstoneEXP5_UPDATE_VALUE 3 = some 16 := by
  match master, hma, slave, hsl with
  | [a, b, c], _, [x, y, z], _ =>
    simp only [List.map, List.nodup_cons, List.mem_cons, List.mem_singleton, not_or,
      List.not_mem_nil, not_false_eq_true, List.nodup_nil, and_true] at hmaId hslId
    obtain ⟨⟨_, hac⟩, hbc⟩ := hmaId
    obtain ⟨⟨_, hxz⟩, hyz⟩ := hslId
    obtain ⟨ha, ha2⟩ := hmaPub a (by simp)
    obtain ⟨hb, hb2⟩ := hmaPub b (by simp)
    obtain ⟨hc, hc2⟩ := hmaPub c (by simp)
    obtain ⟨hx, hx2⟩ := hslSub x (by simp)
    obtain ⟨hy, hy2⟩ := hslSub y (by simp)
    obtain ⟨hz, hz2⟩ := hslSub z (by simp)
    obtain ⟨pa, ha⟩ := Option.ne_none_iff_exists'.mp ha
    obtain ⟨pb, hb⟩ := Option.ne_none_iff_exists'.mp hb
    obtain ⟨pc, hc⟩ := Option.ne_none_iff_exists'.mp hc
    obtain ⟨px, hx⟩ := Option.ne_none_iff_exists'.mp hx
    obtain ⟨py, hy⟩ := Option.ne_none_iff_exists'.mp hy
    obtain ⟨pz, hz⟩ := Option.ne_none_iff_exists'.mp hz
    have hsize : 2 ^ (test + 1) % uint32Mod = 2 ^ (test + 1) := by
      apply Nat.mod_eq_of_lt
      unfold uint32Mod
      exact Nat.pow_lt_pow_right (by norm_num) (by omega)
    refine ⟨_, _,
      UpdateExp5_master ticksPerSecond test ht.2 _ a b c hac hbc pa pb pc ha hb hc,
      UpdateExp5_slave ticksPerSecond test ht.2 _ x y z hxz hyz px py pz hx hy hz,
      ?_, ?_, ?_, ?_, ?_, ?_, by decide⟩
    · rfl
    · rfl
    · simp [RobotTask.GetPubMessageSize, RobotTask.PublishingRequest,
        Communic.PublishingRequest, RobotTask.Start, hsize]
    · simp [RobotTask.GetSubMessageSize, RobotTask.SubscribingRequest,
        Communic.SubscribingRequest, RobotTask.Start, hsize]
    · intro t ht
      simp only [List.mem_cons, List.mem_singleton, List.not_mem_nil, or_false] at ht
      rcases ht with rfl | rfl | rfl
      · exact ha2
      · exact hb2
      · exact hc2
    · intro t ht
      simp only [List.mem_cons, List.mem_singleton, List.not_mem_nil, or_false] at ht
      rcases ht with rfl | rfl | rfl
      · exact hx2
      · exact hy2
      · exact hz2

/-- Witness for C18: step 3 on the baseline tasks of the two nodes of the target. -/
theorem UpdateExp5_topics_and_sizes_witness :
    (2 ≤ 3 ∧ 3 ≤ 30) ∧
    sampleMasterTasks.length = 3 ∧ (sampleMasterTasks.map RobotTask.id).Nodup ∧
    (∀ t ∈ sampleMasterTasks, t.pub ≠ none ∧ t.sub = none) ∧
    sampleSlaveTasks.length = 3 ∧ (sampleSlaveTasks.map RobotTask.id).Nodup ∧
    (∀ t ∈ sampleSlaveTasks, t.sub ≠ none ∧ t.pub = none) ∧
    ∃ ms ss,
      RobotMaster.UpdateExp5Tasks nsPerSecond (fun i => some (300 + i)) 3 sampleMasterTasks =
        some ms ∧
      RobotSlave.UpdateExp5Tasks nsPerSecond (fun i => some (400 + i)) 3 sampleSlaveTasks =
        some ss ∧
      ms.map RobotTask.GetPubTopic = [some 2, some 3, some 4] ∧
      ss.map RobotTask.GetSubTopic = [some 2, some 3, some 4] ∧
      ms.map RobotTask.GetPubMessageSize =
        [some (2 ^ (3 + 1)), some (2 ^ (3 + 1)), some (2 ^ (3 + 1))] ∧
      ss.map RobotTask.GetSubMessageSize =
        [some (2 ^ (3 + 1)), some (2 ^ (3 + 1)), some (2 ^ (3 + 1))] ∧
      (∀ t ∈ ms, t.sub = none) ∧ (∀ t ∈ ss, t.pub = none) ∧
      rstoneEXP5_UPDATE_VALUE 3 = some 16 :=
  ⟨by decide, by decide, by decide, by decide, by decide, by decide, by decide,
    UpdateExp5_topics_and_sizes nsPerSecond 3 (by decide) (fun i => 300 + i)
      (fun i => 400 + i) sampleMasterTasks sampleSlaveTasks (by decide) (by decide)
      (by decide) (by decide) (by decide) (by decide)⟩

/-- C19. In experiment 7 the two `UpdateExp7` complete their handshakes and the Master
sets `experimentReachLimit` exactly when the allocation of the Slave's `UpdateExp7`
fails, as the Slave does.  On failure the Slave leaves its task list as it is, sets its
flag and sends 1; otherwise it sends 0 and appends one task, restarting all tasks with
cleared measurements: the new task has the workload 4135, the frequency 5 Hz, the
period and the priority 3 of baseline task 2 (`second`), the id `taskId`, and
subscribes on topic 3 with the baseline message size.  In a step without deadline miss
both management loops are left with the same test number when the allocation fails,
and both go on to the next iteration otherwise.  The baseline tasks of the Slave exist,
and the ids of its tasks and the new id are pairwise distinct. -/
theorem exp7_reach_limit_agreement (envM : MasterEnv) (envS : SlaveEnv)
    (tps fuel test hm : Nat)
    (m : RobotMaster) (s : RobotSlave)
    (hme : m.actualExp = 7) (hse : s.actualExp = 7)
    (hmf : m.experimentReachLimit = 0) (hsf : s.experimentReachLimit = 0)
    (hmiss : wrapAdd sizeMod m.actualDeadlineMiss
      (CalculateDeadlineMiss (envS.tasksAfter test) % 2 ^ 16) = 0)
    (heap : Nat → Bool) (fresh0 : Nat → Option Nat) (base tasks : List RobotTask)
    (hbase : RobotSlave.SetExperimentBaseline [2953, 4135, 6891] tps heap fresh0 [] = some base)
    (fresh : Option Nat) (taskId reachLimit : Nat)
    (hids : (tasks.map RobotTask.id ++ [taskId % 2 ^ 8]).Nodup) :
    (∃ m2 s2,
      Hs.ends (m.UpdateExp7 test) (s.UpdateExp7 envS test) = (.returned m2, .returned s2) ∧
      (m2.experimentReachLimit = 1 ↔ envS.allocFails test = true) ∧
      (s2.experimentReachLimit = 1 ↔ envS.allocFails test = true)) ∧
    RobotSlave.UpdateExp7Tasks [2953, 4135, 6891] tps false fresh taskId reachLimit tasks =
      some { tasks := tasks, taskId := taskId, experimentReachLimit := 1, resMsg := 1 } ∧
    (∃ new second : RobotTask,
      RobotSlave.UpdateExp7Tasks [2953, 4135, 6891] tps true fresh taskId reachLimit tasks =
        some { tasks := (tasks ++ [new]).map fun t => (t.ClearMeasurements tps).Start,
               taskId := wrapAdd sizeMod taskId 1, experimentReachLimit := reachLimit,
               resMsg := 0 } ∧
      base.get? 1 = some second ∧
      new.workload = second.workload ∧ new.frequency = second.frequency ∧
      new.period = second.period ∧ new.priority = second.priority ∧
      new.workload = 4135 ∧ new.frequency = f64OfNat 5 ∧ new.priority = 3 ∧
      new.id = taskId % 2 ^ 8 ∧
      new.sub = Communic.SubscribingRequest fresh 3 4 ∧ new.pub = none) ∧
    (envS.allocFails (wrapAdd sizeMod test 1) = true →
      ∃ m2 s2,
        Hs.ends (RobotMaster.StartDistributedExperiment envM tps (fuel + 1) test m)
          (RobotSlave.StartExperiment envS tps (fuel + 1) test hm s) =
          (.returned (m2, some (wrapAdd sizeMod test 1)),
            .returned (s2, some (wrapAdd sizeMod test 1))) ∧
        m2.experimentReachLimit = 1 ∧ s2.experimentReachLimit = 1) ∧
    (envS.allocFails (wrapAdd sizeMod test 1) = false →
      ∃ m2 s2 hm2,
        Hs.ends (RobotMaster.StartDistributedExperiment envM tps (fuel + 1) test m)
          (RobotSlave.StartExperiment envS tps (fuel + 1) test hm s) =
          Hs.ends
            (RobotMaster.StartDistributedExperiment envM tps fuel (wrapAdd sizeMod test 1) m2)
            (RobotSlave.StartExperiment envS tps fuel (wrapAdd sizeMod test 1) hm2 s2) ∧
        m2.experimentReachLimit = 0 ∧ s2.experimentReachLimit = 0) := by
  refine ⟨?_, ?_, ?_, ?_, ?_⟩
  · obtain ⟨m2, s2, h, f1, f2⟩ := joint_UpdateExp7 envS test m s
    refine ⟨m2, s2, h, ?_, ?_⟩
    · rw [f1, hmf]; by_cases ha : envS.allocFails test = true <;> simp [ha]
    · rw [f2, hsf]; by_cases ha : envS.allocFails test = true <;> simp [ha]
  · obtain ⟨t0, t1, t2, rfl, _, h1, _⟩ := slaveBaseline_some tps heap fresh0 base hbase
    exact (UpdateExp7Tasks_spec tps t1 h1 fresh taskId reachLimit tasks hids).1
  · obtain ⟨t0, t1, t2, rfl, _, h1, _⟩ := slaveBaseline_some tps heap fresh0 base hbase
    obtain ⟨new, hnew, hpar, hsub, hpub⟩ :=
      (UpdateExp7Tasks_spec tps t1 h1 fresh taskId reachLimit tasks hids).2
    have i1 := (SetFrequency_some _ _ _ _ h1).1
    simp only [RobotTask.parameters, Prod.mk.injEq] at hpar
    obtain ⟨p1, p2, p3, p4, p5, p6⟩ := hpar
    refine ⟨new, _, hnew, rfl, ?_, ?_, ?_, ?_, p3, p4, p2, p1, hsub, hpub⟩
    · rw [p3, i1]; rfl
    · rw [p4, i1]; rfl
    · rw [p6]; rfl
    · rw [p2, i1]; rfl
  · intro ha
    rcases joint_step envM envS tps 7 (by decide) fuel test hm m s hme hse hmf hsf with
      ⟨hne, _⟩ | ⟨_, m2, s2, hm2, _, _, _, _, h⟩
    · exact absurd hmiss hne
    · rcases h with ⟨_, g1, g2, h⟩ | ⟨hn, _⟩
      · exact ⟨m2, s2, h, g1, g2⟩
      · exact absurd ⟨rfl, ha⟩ hn
  · intro ha
    rcases joint_step envM envS tps 7 (by decide) fuel test hm m s hme hse hmf hsf with
      ⟨hne, _⟩ | ⟨_, m2, s2, hm2, _, _, _, _, h⟩
    · exact absurd hmiss hne
    · rcases h with ⟨⟨_, hy⟩, _⟩ | ⟨_, g1, g2, h⟩
      · rw [ha] at hy; exact absurd hy (by decide)
      · exact ⟨m2, s2, hm2, h, g1, g2⟩

/-- Witness for C19: step 1 of experiment 7 on the target, without deadline miss. -/
theorem exp7_reach_limit_agreement_witness :
    (RobotMaster.requested 7).actualExp = 7 ∧
    (RobotSlave.constructed.setActualExpLow 7).actualExp = 7 ∧
    (RobotMaster.requested 7).experimentReachLimit = 0 ∧
    (RobotSlave.constructed.setActualExpLow 7).experimentReachLimit = 0 ∧
    wrapAdd sizeMod (RobotMaster.requested 7).actualDeadlineMiss
      (CalculateDeadlineMiss (quietSlaveEnv.tasksAfter 1) % 2 ^ 16) = 0 ∧
    RobotSlave.SetExperimentBaseline [2953, 4135, 6891] nsPerSecond (fun _ => true)
      (fun i => some (200 + i)) [] = some sampleSlaveTasks ∧
    (sampleSlaveTasks.map RobotTask.id ++ [4 % 2 ^ 8]).Nodup ∧
    RobotSlave.UpdateExp7Tasks [2953, 4135, 6891] nsPerSecond false (some 203) 4 0
      sampleSlaveTasks =
      some { tasks := sampleSlaveTasks, taskId := 4, experimentReachLimit := 1, resMsg := 1 } ∧
    ∃ new second : RobotTask,
      RobotSlave.UpdateExp7Tasks [2953, 4135, 6891] nsPerSecond true (some 203) 4 0
        sampleSlaveTasks =
        some { tasks := (sampleSlaveTasks ++ [new]).map fun t =>
                 (t.ClearMeasurements nsPerSecond).Start,
               taskId := wrapAdd sizeMod 4 1, experimentReachLimit := 0, resMsg := 0 } ∧
      sampleSlaveTasks.get? 1 = some second ∧
      new.workload = second.workload ∧ new.frequency = second.frequency ∧
      new.period = second.period ∧ new.priority = second.priority ∧
      new.workload = 4135 ∧ new.frequency = f64OfNat 5 ∧ new.priority = 3 ∧
      new.id = 4 % 2 ^ 8 ∧
      new.sub = Communic.SubscribingRequest (some 203) 3 4 ∧ new.pub = none :=
  ⟨by decide, by decide, by decide, by decide, by decide, by decide, by decide,
    (exp7_reach_limit_agreement quietMasterEnv quietSlaveEnv nsPerSecond 0 1 0
      (RobotMaster.requested 7) (RobotSlave.constructed.setActualExpLow 7)
      (by decide) (by decide) (by decide) (by decide) (by decide)
      (fun _ => true) (fun i => some (200 + i)) sampleSlaveTasks sampleSlaveTasks (by decide)
      (some 203) 4 0 (by decide)).2.1,
    (exp7_reach_limit_agreement quietMasterEnv quietSlaveEnv nsPerSecond 0 1 0
      (RobotMaster.requested 7) (RobotSlave.constructed.setActualExpLow 7)
      (by decide) (by decide) (by decide) (by decide) (by decide)
      (fun _ => true) (fun i => some (200 + i)) sampleSlaveTasks sampleSlaveTasks (by decide)
      (some 203) 4 0 (by decide)).2.2.1⟩

/-- C20 (counterexample). When experiment 0 is requested on the target, the task list
in place when the raw speed is measured holds the five baseline tasks of the PD
experiments, each started once: `ManTask` calls `InitExperiment` before it tests the
experiment number. -/
theorem raw_speed_request_starts_baseline_tasks :
    ((RobotMaster.ManTask quietMasterEnv nsPerSecond 1 (RobotMaster.requested 0)).result.bind
      fun r =>
        tasksAt
          (RobotMaster.InitExperimentTasks 0 [196, 413, 886, 1240, 2067] [2953, 4135, 6891]
            nsPerSecond (fun _ => true) (fun _ => none))
          (fun _ ts => some ts) .calculeRawSpeed r.1.events 1 (some [])).map
      (fun ts => ts.map fun t => (t.id, t.starts)) =
      some [(1, 1), (2, 1), (3, 1), (4, 1), (5, 1)] := by
  decide

/-- C20 (as amended). When experiment 0 is requested and the baseline tasks can be
created, the Master's management task performs no handshake and returns after the
operations `InitExperiment`, `CalculeRawSpeed` and the print of the raw speed, and the
task list in place when the raw speed is measured is the list `base` of the five
baseline tasks of the PD experiments, created and started by `InitExperiment`. -/
theorem raw_speed_request_tasks (env : MasterEnv) (ticksPerSecond fuel : Nat)
    (distW : List Nat) (heap : Nat → Bool) (fresh : Nat → Option Nat)
    (base : List RobotTask)
    (hbase : RobotMaster.InitExperimentTasks 0 [196, 413, 886, 1240, 2067] distW
      ticksPerSecond heap fresh [] = some base) :
    ∃ m, RobotMaster.ManTask env ticksPerSecond fuel (RobotMaster.requested 0) =
        .ret (m, none) ∧
      m.events = [.suspend, .initExperiment, .calculeRawSpeed,
        .print "Raw speed in Kilo-Whetstone Instructions Per Second (KWIPS): %lld\n\n"] ∧
      tasksAt
        (RobotMaster.InitExperimentTasks 0 [196, 413, 886, 1240, 2067] distW ticksPerSecond
          heap fresh)
        (fun _ ts => some ts) .calculeRawSpeed m.events 1 (some []) = some base ∧
      base.map (fun t => (t.id, t.workload, t.frequency, t.starts)) =
        [(1, 196, f64OfNat 63, 1), (2, 413, f64OfNat 30, 1), (3, 886, f64OfNat 14, 1),
          (4, 1240, f64OfNat 10, 1), (5, 2067, f64OfNat 6, 1)] := by
  obtain ⟨t0, t1, t2, t3, t4, rfl, _, h0, h1, h2, h3, h4⟩ :=
    InitExperimentTasks_uni 0 ticksPerSecond (by decide) distW heap fresh base hbase
  have i0 := (SetFrequency_some _ _ _ _ h0).1
  have i1 := (SetFrequency_some _ _ _ _ h1).1
  have i2 := (SetFrequency_some _ _ _ _ h2).1
  have i3 := (SetFrequency_some _ _ _ _ h3).1
  have i4 := (SetFrequency_some _ _ _ _ h4).1
  refine ⟨_, rfl, rfl, ?_, ?_⟩
  · simp [tasksAt, hbase, RobotMaster.requested, RobotMaster.log]
  · rw [i0, i1, i2, i3, i4]
    rfl

/-- Witness for C20 (as amended): the target, every allocation succeeding. -/
theorem raw_speed_request_tasks_witness :
    RobotMaster.InitExperimentTasks 0 [196, 413, 886, 1240, 2067] [2953, 4135, 6891]
      nsPerSecond (fun _ => true) (fun _ => none) [] = some samplePDTasks ∧
    ∃ m, RobotMaster.ManTask quietMasterEnv nsPerSecond 1 (RobotMaster.requested 0) =
        .ret (m, none) ∧
      m.events = [.suspend, .initExperiment, .calculeRawSpeed,
        .print "Raw speed in Kilo-Whetstone Instructions Per Second (KWIPS): %lld\n\n"] ∧
      tasksAt
        (RobotMaster.InitExperimentTasks 0 [196, 413, 886, 1240, 2067] [2953, 4135, 6891]
          nsPerSecond (fun _ => true) (fun _ => none))
        (fun _ ts => some ts) .calculeRawSpeed m.events 1 (some []) = some samplePDTasks ∧
      samplePDTasks.map (fun t => (t.id, t.workload, t.frequency, t.starts)) =
        [(1, 196, f64OfNat 63, 1), (2, 413, f64OfNat 30, 1), (3, 886, f64OfNat 14, 1),
          (4, 1240, f64OfNat 10, 1), (5, 2067, f64OfNat 6, 1)] :=
  ⟨by decide,
    raw_speed_request_tasks quietMasterEnv nsPerSecond 1 [2953, 4135, 6891] (fun _ => true)
      (fun _ => none) samplePDTasks (by decide)⟩

/-! ## The worst case record, the topic table, the measurements and the list -/

/-- C21 (evaluation). On the nanosecond timer, `briefTask` has the worst response 0.9 s
and the average 0.1 s, a quotient of 9, and `steadyTask` the worst response 1 s and the
average 0.9 s, a quotient of 10/9.  `GetWorstCase` on the two tasks, from the record of
the constructor, first stores `briefTask` with the worst case 0.0 that `GetWCRT` reports
for it, then replaces it by `steadyTask`, whose quotient does not exceed that of
`briefTask`: the record left is the one of task 2, and its quotient, below 2, is less
than the quotient of a task of the list. -/
theorem GetWorstCase_drops_subsecond_worst_case :
    briefTask.wcrt = 9 * briefTask.responseTime ∧
    steadyTask.wcrt * briefTask.responseTime < briefTask.wcrt * steadyTask.responseTime ∧
    briefTask.GetWCRT nsPerSecond = some 0 ∧
    GetWorstCase nsPerSecond 1 [briefTask] worstScenarioInit =
      briefTask.worstRecord nsPerSecond 1 ∧
    (briefTask.worstRecord nsPerSecond 1).map worstCaseScenario_t.ratio = some 0 ∧
    GetWorstCase nsPerSecond 1 [briefTask, steadyTask] worstScenarioInit =
      steadyTask.worstRecord nsPerSecond 1 ∧
    (GetWorstCase nsPerSecond 1 [briefTask, steadyTask] worstScenarioInit).map
      (fun ws => (ws.wcrt, ws.taskID, ws.test)) = some (f64OfNat 1, 2, 1) ∧
    (GetWorstCase nsPerSecond 1 [briefTask, steadyTask] worstScenarioInit).map
      (fun ws => decide (ws.ratio < f64OfNat 2)) = some true := by
  refine ⟨by decide, by decide, by decide, by decide, by decide, by decide, by decide,
    by decide⟩

/-- C22 (counterexample). In a process that holds no topic, a task subscribes to topic
2 with messages of 4 bytes, leaves the topic and subscribes again in the same way: the
two handles have the same topic and message size, but `LeaveTopic` has taken the topic
out of the table and deleted its shared objects, and the second request constructs a
new `Topic` and creates the shared objects again. -/
theorem resubscribe_recreates_topic :
    ((RealTime.Communic.SubscribingRequest plainEnv 2 4 (RealTime.Communic.Init noShared)).bind
      fun r1 => r1.2.bind fun h1 =>
        (RealTime.Communic.LeaveTopicSub h1 r1.1).bind fun r2 =>
          (RealTime.Communic.SubscribingRequest plainEnv 2 4 r2.1).map fun r3 =>
            ((h1, r3.2), (r2.2, (r2.1.topicsList 2).isSome, r2.1.shared 2),
              r3.1.trace.drop r2.1.trace.length)) =
      some (((⟨0, 2, 4⟩ : Subscriber), some (⟨0, 2, 4⟩ : Subscriber)),
        (RealTime.ok, false, (none : Option Nat)),
        [CommEvent.mutexAcquire, .topicNew 2 4, .topicCreate 2, .taskStart 2,
          .mutexRelease]) := by
  decide

/-- C22 (as amended). A task subscribes to a topic, leaves it and subscribes again to
the same topic with the same message size, all three calls returning (the counter
`subNumber` of a topic found in the table being a `uint8_t` value): `LeaveTopic`
returns `RealTime::ok`, the second handle has the topic and the message size of the
first, and the topic is still in the table after the leave exactly when it was there
before the first request with a local count other than zero; the second request
constructs a new `Topic` exactly when the leave has taken the topic out of the table. -/
theorem resubscribe_same_topic_and_size (env1 env2 : RequestEnv) (topic msgSize r : Nat)
    (st st1 st2 st3 : CommState) (h1 h2 : Subscriber)
    (hrange : ∀ T, st.topicsList topic = some T → T.subNumber < uint8Mod)
    (hs1 : RealTime.Communic.SubscribingRequest env1 topic msgSize st = some (st1, some h1))
    (hl : RealTime.Communic.LeaveTopicSub h1 st1 = some (st2, r))
    (hs2 : RealTime.Communic.SubscribingRequest env2 topic msgSize st2 = some (st3, some h2)) :
    r = RealTime.ok ∧ h2.topic = h1.topic ∧ h2.messageSize = h1.messageSize ∧
    ((st2.topicsList topic).isSome = true ↔
      ∃ T, st.topicsList topic = some T ∧ T.GetObjectsNumLocal ≠ 0) ∧
    (CommEvent.topicNew topic (msgSize % sizeMod) ∈ st3.trace.drop st2.trace.length ↔
      st2.topicsList topic = none) := by
  obtain ⟨-, ht1, hm1, T, c, hcase, hT1, -, hc1, -⟩ := SubscribingRequest_spec hs1
  obtain ⟨-, ht2, hm2, T2, c2, hcase2, -, -, -, -⟩ := SubscribingRequest_spec hs2
  obtain ⟨-, hleave⟩ := LeaveTopicSub_spec hl
  rw [ht1] at hleave
  have hid : (T.insertSubscriber h1).topicID = T.topicID := rfl
  rcases hleave with ⟨hnone, -, -⟩ | ⟨T1, c1, hT1', hsh1, hclose⟩
  · rw [hT1] at hnone; exact absurd hnone (by simp)
  rw [hT1] at hT1'
  simp only [Option.some.injEq] at hT1'
  subst hT1'
  rw [hid, hc1] at hsh1
  simp only [Option.some.injEq] at hsh1
  subst hsh1
  have hsub : T.subNumber < uint8Mod := by
    rcases hcase with ⟨hT, -, -⟩ | ⟨-, hT, -, -⟩
    · exact hrange T hT
    · rw [hT]; show 0 < uint8Mod; decide
  have hcount : ((T.insertSubscriber h1).removeSubscriber h1).GetObjectsNumLocal =
      T.GetObjectsNumLocal := by
    show wrapSub uint8Mod (wrapAdd uint8Mod T.subNumber 1) 1 + T.pubNumber =
      T.subNumber + T.pubNumber
    rw [wrapSub_wrapAdd (Nat.le_refl 1) (by decide) (by simpa using hsub)]
    simp
  have hclose' := closeTopic_spec hclose (c := wrapSub uint16Mod (wrapAdd uint16Mod c 1) 1)
    (if_pos rfl) (wrapSub_lt (by decide) _ _)
  obtain ⟨hr, -, -, hfin⟩ := hclose'
  rw [hcount] at hfin
  have hkeep : (st2.topicsList topic).isSome = true ↔
      ∃ T, st.topicsList topic = some T ∧ T.GetObjectsNumLocal ≠ 0 := by
    rcases hfin with ⟨hne, hst2, -, -⟩ | ⟨he, hst2, -⟩
    · rw [hst2]
      simp only [Option.isSome_some, true_iff]
      rcases hcase with ⟨hT, -, -⟩ | ⟨-, hT, -, -⟩
      · exact ⟨T, hT, hne⟩
      · rw [hT] at hne; exact absurd rfl hne
    · rw [hst2]
      simp only [Option.isSome_none, Bool.false_eq_true, false_iff]
      rintro ⟨T', hT', hne'⟩
      rcases hcase with ⟨hT, -, -⟩ | ⟨hT, -, -, -⟩
      · rw [hT] at hT'
        simp only [Option.some.injEq] at hT'
        subst hT'
        exact hne' he
      · rw [hT] at hT'; simp at hT'
  refine ⟨hr, by rw [ht1, ht2], by rw [hm1, hm2], hkeep, ?_⟩
  rcases hcase2 with ⟨hT, -, htr⟩ | ⟨hT, -, -, htr⟩
  · rw [htr, hT]
    simp
  · rw [htr, hT]
    simp

/-- Witness for C22 (as amended): a task subscribes to the topic on which another task
of the process publishes; the topic outlives the leave. -/
theorem resubscribe_same_topic_and_size_witness :
    ((((onePublisher.after (.subscribe plainEnv 2 4)).after (.leaveSub ⟨0, 2, 4⟩)).topicsList
        2).isSome = true ↔
      ∃ T, onePublisher.topicsList 2 = some T ∧ T.GetObjectsNumLocal ≠ 0) ∧
    (onePublisher.topicsList 2).map Topic.GetObjectsNumLocal = some 1 :=
  ⟨(resubscribe_same_topic_and_size plainEnv plainEnv 2 4 RealTime.ok onePublisher
      (onePublisher.after (.subscribe plainEnv 2 4))
      ((onePublisher.after (.subscribe plainEnv 2 4)).after (.leaveSub ⟨0, 2, 4⟩))
      (((onePublisher.after (.subscribe plainEnv 2 4)).after (.leaveSub ⟨0, 2, 4⟩)).after
        (.subscribe plainEnv 2 4))
      ⟨0, 2, 4⟩ ⟨0, 2, 4⟩
      (fun T hT => by
        have h : onePublisher.topicsList 2 = some (Topic.new 2 4 |>.insertPublisher ⟨0, 2, 4⟩) :=
          rfl
        rw [h] at hT
        simp only [Option.some.injEq] at hT
        subst hT
        decide)
      rfl rfl rfl).2.2.2.1,
    by decide⟩

/-- C23 (counterexample). A task subscribes to topic 2 with messages of 4 bytes and a
second task subscribes to the same topic with messages of 8 bytes: the second handle
carries the message size 8 while the message size of the topic stays 4. -/
theorem second_request_keeps_its_own_size :
    ((RealTime.Communic.SubscribingRequest plainEnv 2 4 (RealTime.Communic.Init noShared)).bind
      fun r1 => (RealTime.Communic.SubscribingRequest plainEnv 2 8 r1.1).map fun r2 =>
        (r2.2, (r2.1.topicsList 2).map Topic.messageLen)) =
      some (some (⟨1, 2, 8⟩ : Subscriber), some 4) := by
  decide

/-- C23 (as amended). For every subscribing or publishing request that returns a
handle, the handle carries the topic of the request and the message size of the
request (as a `size_t`); after the call the message size of the topic is the one it had
before the call when the topic was in the table, whatever the size requested, and the
size of the request when the call created the topic. -/
theorem request_message_size (env : RequestEnv) (topic msgSize : Nat) (st st' : CommState) :
    (∀ h : Subscriber,
      RealTime.Communic.SubscribingRequest env topic msgSize st = some (st', some h) →
      h.topic = topic ∧ h.messageSize = msgSize % sizeMod ∧
      (st'.topicsList topic).map Topic.messageLen =
        some (((st.topicsList topic).map Topic.messageLen).getD (msgSize % sizeMod))) ∧
    (∀ h : Publisher,
      RealTime.Communic.PublishingRequest env topic msgSize st = some (st', some h) →
      h.topic = topic ∧ h.messageSize = msgSize % sizeMod ∧
      (st'.topicsList topic).map Topic.messageLen =
        some (((st.topicsList topic).map Topic.messageLen).getD (msgSize % sizeMod))) := by
  have hnew : (Topic.new topic (msgSize % sizeMod)).messageLen = msgSize % sizeMod := by
    show msgSize % sizeMod % sizeMod = msgSize % sizeMod
    exact Nat.mod_mod _ _
  constructor
  · intro h hs
    obtain ⟨-, h1, h2, T, c, hcase, hT', -, -, -⟩ := SubscribingRequest_spec hs
    refine ⟨h1, h2, ?_⟩
    rw [hT']
    rcases hcase with ⟨hT, -, -⟩ | ⟨hT, hT0, -, -⟩
    · rw [hT]; rfl
    · rw [hT, hT0]
      show some (Topic.new topic (msgSize % sizeMod)).messageLen = _
      rw [hnew]; rfl
  · intro h hs
    obtain ⟨-, h1, h2, T, c, hcase, hT', -, -, -⟩ := PublishingRequest_spec hs
    refine ⟨h1, h2, ?_⟩
    rw [hT']
    rcases hcase with ⟨hT, -, -⟩ | ⟨hT, hT0, -, -⟩
    · rw [hT]; rfl
    · rw [hT, hT0]
      show some (Topic.new topic (msgSize % sizeMod)).messageLen = _
      rw [hnew]; rfl

/-- Witness for C23 (as amended): a subscriber with messages of 8 bytes joins the topic
on which a task publishes messages of 4 bytes. -/
theorem request_message_size_witness :
    (onePublisher.topicsList 2).map Topic.messageLen = some 4 ∧
    (⟨0, 2, 8⟩ : Subscriber).messageSize = 8 % sizeMod ∧
    ((onePublisher.after (.subscribe plainEnv 2 8)).topicsList 2).map Topic.messageLen =
      some (((onePublisher.topicsList 2).map Topic.messageLen).getD (8 % sizeMod)) :=
  ⟨by decide,
    ((request_message_size plainEnv 2 8 onePublisher
      (onePublisher.after (.subscribe plainEnv 2 8))).1 ⟨0, 2, 8⟩ rfl).2⟩

/-- C24 (evaluation). In a system where another process holds one handle on topic 2, a
task publishes on topic 2 and leaves it: `LeaveTopic` returns `RealTime::ok`, the
topic is out of the table and the shared counter is back to 1; the destructor has
unbound the queue and the mutex, and the heap is neither deleted nor unbound.  When no
other process holds the topic, the queue, the heap and the mutex are deleted. -/
theorem LeaveTopic_leaves_heap_bound :
    ((RealTime.Communic.PublishingRequest plainEnv 2 4 (RealTime.Communic.Init peerShared)).bind
      fun r1 => r1.2.bind fun h1 => (RealTime.Communic.LeaveTopicPub h1 r1.1).map fun r2 =>
        ((r2.2, (r2.1.topicsList 2).isSome, r2.1.shared 2),
          r2.1.trace.drop r1.1.trace.length,
          decide (CommEvent.heapUnbind 2 ∈ r2.1.trace))) =
      some ((RealTime.ok, false, some 1),
        [CommEvent.mutexAcquire, .taskJoin 2, .queueUnbind 2, .mutexUnbind 2, .mutexRelease],
        false) ∧
    ((RealTime.Communic.PublishingRequest plainEnv 2 4 (RealTime.Communic.Init noShared)).bind
      fun r1 => r1.2.bind fun h1 => (RealTime.Communic.LeaveTopicPub h1 r1.1).map fun r2 =>
        ((r2.2, (r2.1.topicsList 2).isSome, r2.1.shared 2),
          r2.1.trace.drop r1.1.trace.length)) =
      some ((RealTime.ok, false, (none : Option Nat)),
        [CommEvent.mutexAcquire, .taskJoin 2, .queueDelete 2, .heapFree 2, .heapDelete 2,
          .mutexDelete 2, .mutexRelease]) := by
  decide

/-- C25. For every task and timer period, `ClearMeasurements` applied twice leaves the
state that one application leaves; one application sets the counters of met, missed and
skipped deadlines, the response time sum, the jitter sum and `wcrt` to 0 and leaves
the period, the frequency, the workload, the priority, the id and the publisher and
subscriber handles as they were. -/
theorem ClearMeasurements_idempotent (t : RobotTask) (ticksPerSecond : Nat) :
    (t.ClearMeasurements ticksPerSecond).ClearMeasurements ticksPerSecond =
        t.ClearMeasurements ticksPerSecond ∧
      (t.ClearMeasurements ticksPerSecond).deadlineMet = 0 ∧
      (t.ClearMeasurements ticksPerSecond).deadlineMiss = 0 ∧
      (t.ClearMeasurements ticksPerSecond).deadlineSkip = 0 ∧
      (t.ClearMeasurements ticksPerSecond).responseTime = 0 ∧
      (t.ClearMeasurements ticksPerSecond).avgResponseJitter = 0 ∧
      (t.ClearMeasurements ticksPerSecond).wcrt = 0 ∧
      (t.ClearMeasurements ticksPerSecond).period = t.period ∧
      (t.ClearMeasurements ticksPerSecond).frequency = t.frequency ∧
      (t.ClearMeasurements ticksPerSecond).workload = t.workload ∧
      (t.ClearMeasurements ticksPerSecond).priority = t.priority ∧
      (t.ClearMeasurements ticksPerSecond).id = t.id ∧
      (t.ClearMeasurements ticksPerSecond).pub = t.pub ∧
      (t.ClearMeasurements ticksPerSecond).sub = t.sub :=
  ⟨rfl, rfl, rfl, rfl, rfl, rfl, rfl, rfl, rfl, rfl, rfl, rfl, rfl, rfl⟩

/-- C26 (evaluation). On the nanosecond timer, a task whose worst response is 0.75 s
(`wcrt = 750000000` ticks) and whose average response is 0.5 s
(`responseTime = 500000000` ticks) has `wcrt ≥ responseTime`, yet `GetWCRT()` is 0.0,
the integer quotient `750000000 / 1000000000` converted to `double`, and
`GetResponseTime()` is 0.5: the reported worst case is below the reported average. -/
theorem GetWCRT_truncates_to_whole_seconds :
    slowTask.responseTime ≤ slowTask.wcrt ∧
    slowTask.GetWCRT nsPerSecond = some 0 ∧
    slowTask.GetResponseTime nsPerSecond = some (f64Unit / 2) ∧
    0 < f64Unit / 2 := by
  decide

/-- C27 (evaluation). For every task and initial time, a run of `TaskCode` whose first
job finds the stop flag set (no job read a completion instant) reaches the division of
lines 520-521 with `numberOfExecs - 1 = 0`: the run has no defined result. -/
theorem first_job_stop_divides_by_zero (t : RobotTask) (initTime : Nat) :
    (startJob (entryLocals t initTime)).numberOfExecs = 1 ∧
    wrapSub uint32Mod (startJob (entryLocals t initTime)).numberOfExecs 1 = 0 ∧
    TaskCode t initTime [] = none := by
  have h : (startJob (entryLocals t initTime)).numberOfExecs = 1 := by
    show wrapAdd uint32Mod 0 1 = 1
    decide
  have h0 : wrapSub uint32Mod 1 1 = 0 := by decide
  refine ⟨h, by rw [h]; exact h0, ?_⟩
  unfold TaskCode
  rw [superloop, h]
  have h2 : finalize t 1 = none := by
    unfold finalize
    simp only [h0, if_true]
  rw [h2]
  rfl

/-- C28 (evaluation). Right after `Communic::Init`, `LeaveTopic` called with a
publisher handle, or with a subscriber handle, of topic 2 finds the entry of the table
`NULL` and returns `RealTime::fail`: the trace of the call is the acquisition of
`comMutex` alone, the mutex is not released. -/
theorem LeaveTopic_fail_keeps_comMutex :
    ((RealTime.Communic.LeaveTopicPub ⟨0, 2, 4⟩ (RealTime.Communic.Init noShared)).map fun r =>
        (r.2, r.1.trace, r.1.trace.count .mutexRelease)) =
      some (RealTime.fail, [CommEvent.mutexAcquire], 0) ∧
    ((RealTime.Communic.LeaveTopicSub ⟨0, 2, 4⟩ (RealTime.Communic.Init noShared)).map fun r =>
        (r.2, r.1.trace, r.1.trace.count .mutexRelease)) =
      some (RealTime.fail, [CommEvent.mutexAcquire], 0) := by
  decide

set_option maxRecDepth 1000000 in
set_option maxHeartbeats 4000000 in
/-- C29 (counterexample). 256 successful subscribing requests on topic 2, one after
the other from the state of `Communic::Init`: the subscriber list of the topic has 256
elements and `subNumber`, a `uint8_t`, is 0. -/
theorem subNumber_wraps_at_256_subscribers :
    (((RealTime.Communic.Init noShared).run 256 (manySubscribers 256)).bind fun st =>
        st.topicsList 2).map (fun T => (T.subNumber, T.subsList.nodes.length)) =
      some (0, 256) := by
  decide

/-- C29 (as amended). In a system where the other processes hold at most 65024 handles
on any topic, after every sequence of successful subscribing requests, publishing
requests and `LeaveTopic` calls of one process, none of which leaves more than 255
subscribers or more than 255 publishers on its topic, every topic of the table has
`subNumber` equal to the number of elements of its subscriber list and `pubNumber`
equal to the number of elements of its publisher list; and one more such call changes
the shared counter `tasksNumber` of its topic by exactly one, up for a request and
down for a `LeaveTopic` (a counter that does not exist counting as zero). -/
theorem counters_match_lists_below_256 (shared : Nat → Option Nat) (cs : List CommCall)
    (st : CommState) (hshared : ∀ i, (shared i).getD 0 + 512 ≤ uint16Mod)
    (hrun : (RealTime.Communic.Init shared).run 255 cs = some st) :
    (∀ topic T, st.topicsList topic = some T →
        T.subNumber = T.subsList.nodes.length ∧ T.pubNumber = T.pubsList.nodes.length) ∧
    (∀ c st', st.call c = some st' → st'.sized 255 c.topic = true →
        (c.isRequest = true → st'.counter c.topic = st.counter c.topic + 1) ∧
        (c.isRequest = false → st'.counter c.topic + 1 = st.counter c.topic)) := by
  have hst := run_consistent hshared cs _ st (Init_consistent shared) hrun
  refine ⟨?_, ?_⟩
  · intro topic T hT
    obtain ⟨-, -, -, -, -, a6, a7, -⟩ := (consistentAt_some hT).mp (hst topic)
    exact ⟨a6, a7⟩
  · intro c st' hcall hsz
    exact (call_consistent hshared hst hcall hsz).2

/-- Witness for C29 (as amended): one task publishes on topic 2. -/
theorem counters_match_lists_below_256_witness :
    onePublisher.topicsList 2 = some onePublisherTopic ∧
    onePublisherTopic.subNumber = onePublisherTopic.subsList.nodes.length ∧
    onePublisherTopic.pubNumber = onePublisherTopic.pubsList.nodes.length :=
  ⟨rfl,
    (counters_match_lists_below_256 noShared [.publish plainEnv 2 4] onePublisher
      (fun _ => (by decide : 0 + 512 ≤ uint16Mod)) rfl).1 2 onePublisherTopic rfl⟩

/-- C30. For every list of values with pairwise distinct keys (fewer than `2^32` of
them) inserted by `InsertTail` into an empty list, the loop
`for(InitIteration(); !IsEnd(); ++list)` passes to `GetValue` every value exactly
once, in the order of insertion, and stops with `IsEnd` reported, after
`length + 1` tests of `IsEnd`; on the empty list `IsEnd` is reported right after
`InitIteration`. -/
theorem iteration_visits_in_insertion_order {α : Type} (key : α → Nat) (xs : List α)
    (hkeys : (xs.map key).Nodup) (hlen : xs.length < sizeMod) :
    (∃ l, DList.loop key (xs.length + 1) (DList.build xs).InitIteration = some (xs, l) ∧
      l.IsEnd = true) ∧
    (DList.build ([] : List α)).InitIteration.IsEnd = true :=
  ⟨DList.loop_build key xs hkeys hlen, rfl⟩

/-- Witness for C30: the subscribers 7, 3 and 9 of a topic. -/
theorem iteration_visits_in_insertion_order_witness :
    ([(⟨7, 2, 4⟩ : Subscriber), ⟨3, 2, 4⟩, ⟨9, 2, 4⟩].map Subscriber.id).Nodup ∧
    [(⟨7, 2, 4⟩ : Subscriber), ⟨3, 2, 4⟩, ⟨9, 2, 4⟩].length < sizeMod ∧
    (∃ l, DList.loop Subscriber.id 4
        (DList.build [(⟨7, 2, 4⟩ : Subscriber), ⟨3, 2, 4⟩, ⟨9, 2, 4⟩]).InitIteration =
        some ([⟨7, 2, 4⟩, ⟨3, 2, 4⟩, ⟨9, 2, 4⟩], l) ∧ l.IsEnd = true) ∧
    (DList.build ([] : List Subscriber)).InitIteration.IsEnd = true :=
  ⟨by decide, by decide,
    iteration_visits_in_insertion_order Subscriber.id [⟨7, 2, 4⟩, ⟨3, 2, 4⟩, ⟨9, 2, 4⟩]
      (by decide) (by decide)⟩

end Robotstone
